import Mathlib

/-!
The game event engine of btaskee-quiz-service.

A shallow embedding of `internal/events/game_event_handler.go` and of the
declarations it reads (`internal/models`, `pkg/constants`,
`internal/transformers/question_transformer.go`), followed by theorems about
answer evaluation, scoring and the message handlers.

Conventions of the embedding
* Go `int32`/`int64` values are `Int`; every `int32` operation that can leave the
  range is wrapped with `int32`.
* Go `string` values are `String`; comparison of strings is the lexicographic
  order of their characters (for UTF-8 text this is Go's byte-wise order).
* Logger calls have no effect on the engine and are left out.
-/

set_option linter.dupNamespace false

namespace Quiz

/-! ## Machine integers -/

/-- Conversion to a Go `int32`: the value wrapped into `[-2^31, 2^31)`. -/
def int32 (x : Int) : Int := (x + 2147483648) % 4294967296 - 2147483648

/-- The values a Go `int32` can hold. -/
def isInt32 (x : Int) : Prop := -2147483648 ≤ x ∧ x < 2147483648

instance (x : Int) : Decidable (isInt32 x) := by
  unfold isInt32; exact inferInstance

/-! ## `pkg/constants/game_constants.go` -/

def MaxQuestionScore : Int := 1000
def MinQuestionScore : Int := 100
def QuestionTimeLimit : Int := 30

/-! ## `internal/models` -/

/-- The string-typed enum `models.QuestionType`. -/
abbrev QuestionType := String

def QuestionTypeSingleChoice : QuestionType := "single_choice"
def QuestionTypeMultipleChoice : QuestionType := "multiple_choice"
def QuestionTypeTextInput : QuestionType := "text_input"

/-- The string-typed enum `models.TimeLimitType` (labels of the time limits in seconds). -/
abbrev TimeLimitType := String

def TimeLimitType5 : TimeLimitType := "5"
def TimeLimitType10 : TimeLimitType := "10"
def TimeLimitType20 : TimeLimitType := "20"
def TimeLimitType45 : TimeLimitType := "45"
def TimeLimitType80 : TimeLimitType := "80"

/-- The struct `models.AnswerData`. -/
structure AnswerData where
  Text : String
  IsCorrect : Bool
deriving DecidableEq, Repr

/-- The struct `models.Question` (creation and update times left out: the engine never reads
them). The field `Type` is spelled `Type_`. -/
structure Question where
  ID : Int
  QuizID : Int
  Question : String
  Type_ : QuestionType
  Answers : List AnswerData
  TimeLimit : TimeLimitType
  Index : Int
deriving DecidableEq, Repr

/-- The struct `models.WSAnswerPayload`; `AnswerValue` is a nullable pointer, `AnswerValues` a slice. -/
structure WSAnswerPayload where
  QuestionID : Int
  QuestionType : String
  AnswerValue : Option String
  AnswerValues : List String
  TimeTaken : Int
deriving DecidableEq, Repr

/-! ## The Go standard library functions used by `evaluateAnswer` -/

/-- Go's `<=` on strings, character by character. -/
def stringLE (a b : String) : Prop := a.data ≤ b.data

instance : DecidableRel stringLE :=
  fun a b => inferInstanceAs (Decidable (a.data ≤ b.data))

/-- Go's `sort.Strings`: the slice in increasing order. The order on strings is total and
antisymmetric, so every sorting algorithm returns this same list. -/
def sortStrings (l : List String) : List String := l.insertionSort stringLE

instance : IsTotal String stringLE := ⟨fun a b => le_total a.data b.data⟩

instance : IsTrans String stringLE := ⟨fun _ _ _ h₁ h₂ => le_trans (α := List Char) h₁ h₂⟩

instance : IsAntisymm String stringLE :=
  ⟨fun _ _ h₁ h₂ => String.ext (le_antisymm (α := List Char) h₁ h₂)⟩

/-- Go's `unicode.IsSpace`: the characters with the Unicode White_Space property. -/
def isSpace (c : Char) : Bool :=
  let n := c.toNat
  (9 ≤ n && n ≤ 13) || n == 32 || n == 0x85 || n == 0xA0 || n == 0x1680 ||
  (0x2000 ≤ n && n ≤ 0x200A) || n == 0x2028 || n == 0x2029 || n == 0x202F ||
  n == 0x205F || n == 0x3000

/-- Go's `strings.TrimSpace`: leading and trailing white space removed. -/
def TrimSpace (s : String) : String :=
  ⟨(s.data.dropWhile isSpace).rdropWhile isSpace⟩

/-- Go's `unicode.ToLower` on one character. On ASCII it maps `A`..`Z` to `a`..`z`; beyond
ASCII it follows the Unicode case tables, which are the parameter `caseTable`. -/
def toLowerRune (caseTable : Char → Char) (c : Char) : Char :=
  if c.toNat ≤ 127 then
    (if 65 ≤ c.toNat ∧ c.toNat ≤ 90 then Char.ofNat (c.toNat + 32) else c)
  else caseTable c

/-- Go's `strings.ToLower`: every character mapped by `unicode.ToLower`. -/
def ToLower (caseTable : Char → Char) (s : String) : String :=
  ⟨s.data.map (toLowerRune caseTable)⟩

/-! ## `evaluateAnswer` -/

/-- The comparison loop of the multiple-choice branch: walks `correctSorted` with its index
and fails at the first position where `submittedSorted` is too short or differs. -/
def matchSorted (submittedSorted : List String) : List String → Nat → Bool
  | [], _ => true
  | correctAnswer :: rest, i =>
    if i ≥ submittedSorted.length ∨ submittedSorted[i]? ≠ some correctAnswer then false
    else matchSorted submittedSorted rest (i + 1)

/-- The texts of the answers flagged correct, in question order (`correctAnswers` in the source). -/
def correctAnswers (question : Question) : List String :=
  (question.Answers.filter (fun answerData => answerData.IsCorrect)).map (fun a => a.Text)

/-- `gameEventHandler.evaluateAnswer`. -/
def evaluateAnswer (caseTable : Char → Char) (question : Question) (payload : WSAnswerPayload) :
    Bool :=
  if question.Type_ = QuestionTypeSingleChoice then
    match payload.AnswerValue with
    | none => false
    | some submittedAnswer =>
      question.Answers.any (fun answerData =>
        answerData.IsCorrect && decide (answerData.Text = submittedAnswer))
  else if question.Type_ = QuestionTypeMultipleChoice then
    if payload.AnswerValues.length = 0 then false
    else
      let submittedAnswers := payload.AnswerValues
      if submittedAnswers.length ≠ (correctAnswers question).length then false
      else
        let submittedSorted := sortStrings submittedAnswers
        let correctSorted := sortStrings (correctAnswers question)
        matchSorted submittedSorted correctSorted 0
  else if question.Type_ = QuestionTypeTextInput then
    match payload.AnswerValue with
    | none => false
    | some submittedAnswer =>
      let submittedLower := ToLower caseTable (TrimSpace submittedAnswer)
      question.Answers.any (fun answerData =>
        answerData.IsCorrect &&
          decide (submittedLower = ToLower caseTable (TrimSpace answerData.Text)))
  else false

/-- The score computation of `handleSubmitAnswer` (the lines from `scoreEarned := int32(0)`
to the end of the `if isCorrect` block). -/
def scoreEarned (isCorrect : Bool) (TimeTaken : Int) : Int :=
  if isCorrect then
    let baseScore := int32 MaxQuestionScore
    let timePenalty := int32 (Int.tdiv TimeTaken 100)
    let scoreEarned := int32 (baseScore - timePenalty)
    if scoreEarned < MinQuestionScore then MinQuestionScore else scoreEarned
  else int32 0

/-! ## `internal/models/session_model.go` -/

/-- The string-typed enum `models.SessionStatus`. -/
abbrev SessionStatus := String

def SessionStatusWaiting : SessionStatus := "waiting"
def SessionStatusActive : SessionStatus := "active"
def SessionStatusCompleted : SessionStatus := "completed"
def SessionStatusCancelled : SessionStatus := "cancelled"

/-- The struct `models.QuizSession` (time stamps and the optional related rows left out: the
engine never reads them). `CurrentQuestionIndex` and `ParticipantCount` are `int32`. -/
structure QuizSession where
  ID : Int
  QuizID : Int
  HostID : Option Int
  JoinCode : String
  Status : SessionStatus
  CurrentQuestionIndex : Int
  MaxParticipants : Option Int
  ParticipantCount : Int
deriving DecidableEq, Repr

/-- The struct `models.SessionParticipant` (time stamps and the related user left out). -/
structure SessionParticipant where
  ID : Int
  SessionID : Int
  UserID : Option Int
  Nickname : String
  Score : Int
  IsHost : Bool
deriving DecidableEq, Repr

/-- The struct `models.LeaderboardParticipant`. -/
structure LeaderboardParticipant where
  ID : Int
  Nickname : String
  Score : Int
  IsHost : Bool
  Rank : Int
deriving DecidableEq, Repr

/-! ## `internal/models/ws_model.go` -/

/-- The string-typed enum `models.WSMessageType`. -/
abbrev WSMessageType := String

def WSMsgTypeJoin : WSMessageType := "join"
def WSMsgTypeAnswer : WSMessageType := "answer"
def WSMsgTypeStartQuiz : WSMessageType := "start_quiz"
def WSMsgTypeNextQuestion : WSMessageType := "next_question"
def WSMsgTypeEndQuiz : WSMessageType := "end_quiz"
def WSMsgTypePauseQuiz : WSMessageType := "pause_quiz"
def WSMsgTypeResumeQuiz : WSMessageType := "resume_quiz"
def WSMsgTypePing : WSMessageType := "ping"
def WSMsgTypeGetState : WSMessageType := "get_session_state"
def WSMsgTypeJoinSuccess : WSMessageType := "join_success"
def WSMsgTypeParticipantJoin : WSMessageType := "participant_join"
def WSMsgTypeParticipantLeft : WSMessageType := "participant_left"
def WSMsgTypeParticipantListUpdate : WSMessageType := "participant_list_update"
def WSMsgTypeQuizStart : WSMessageType := "quiz_start"
def WSMsgTypeGamePaused : WSMessageType := "game_paused"
def WSMsgTypeGameResumed : WSMessageType := "game_resumed"
def WSMsgTypeQuestionStart : WSMessageType := "question_start"
def WSMsgTypeQuestionEnd : WSMessageType := "question_end"
def WSMsgTypeAnswerReceived : WSMessageType := "answer_received"
def WSMsgTypeLeaderboard : WSMessageType := "leaderboard"
def WSMsgTypeQuizEnd : WSMessageType := "quiz_end"
def WSMsgTypeError : WSMessageType := "error"
def WSMsgTypePong : WSMessageType := "pong"
def WSMsgTypeSessionState : WSMessageType := "session_state"

/-- The struct `models.WSJoinPayload`. -/
structure WSJoinPayload where
  SessionID : String
  Nickname : String
  UserID : Option Int
deriving DecidableEq, Repr

/-- An inbound `models.WSMessage`. Its `Payload` is an untyped JSON value that every handler
re-decodes with `parsePayload` into its own struct; the embedding carries the outcome of each
decoding (`none` when `parsePayload` returns an error). -/
structure WSMessageIn where
  Type_ : WSMessageType
  joinPayload : Option WSJoinPayload
  answerPayload : Option WSAnswerPayload
deriving DecidableEq, Repr

/-- One row of `formatLeaderboard`. -/
structure LeaderboardRow where
  rank : Int
  participant_id : Int
  nickname : String
  score : Int
  is_host : Bool
deriving DecidableEq, Repr

/-- One row of a participant list (`id`, `nickname`, `score`, `is_host`). -/
structure ParticipantRow where
  id : Int
  nickname : String
  score : Int
  is_host : Bool
deriving DecidableEq, Repr

/-- The client-safe projection of a question: `max_score` is present in `question_start` only,
and every answer is reduced to its text. -/
structure QuestionView where
  id : Int
  question : String
  type : QuestionType
  time_limit : Int
  index : Int
  max_score : Option Int
  answers : List String
deriving DecidableEq, Repr

/-- The `session` object of a `session_state` payload. -/
structure SessionView where
  id : Int
  status : SessionStatus
  current_question_index : Int
  participant_count : Int
  max_participants : Option Int
deriving DecidableEq, Repr

/-- The payloads the engine builds, one constructor per message shape. Times are nanoseconds
since the epoch. -/
inductive Payload where
  | nil
  | error (code message : String)
  | answerReceived (IsCorrect : Bool) (ScoreEarned TimeTaken : Int)
  | joinSuccess (Session : QuizSession) (Participant : SessionParticipant) (IsHost : Bool)
  | quizStart (session_id started_at : Int)
  | questionStart (session_id : Int) (question : QuestionView) (started_at server_time_limit : Int)
      (auto_advance : Bool) (deadline : Int)
  | questionEnd (session_id ended_at : Int)
  | quizEnd (session_id ended_at : Int) (final_leaderboard : List LeaderboardRow)
      (status : String) (auto_ended : Bool)
  | gamePaused (session_id : Int) (reason : Option String) (paused_at : Int)
  | gameResumed (session_id resumed_at : Int)
  | sessionState (session : SessionView) (participants : List ParticipantRow)
      (leaderboard : List LeaderboardRow) (current_question : Option QuestionView)
  | participantJoin (session_id participant_id : Int) (nickname : String) (joined_at : Int)
  | participantLeft (session_id participant_id left_at : Int)
  | participantListUpdate (session_id participant_count : Int)
      (participants : List ParticipantRow) (trigger : String) (updated_at : Int)
  | leaderboard (session_id : Int) (leaderboard : List LeaderboardRow) (display_time : Int)
      (next_action : String) (server_driven : Bool) (updated_at : Int)
deriving DecidableEq, Repr

/-- An outbound `models.WSMessage`. -/
structure WSMessage where
  Type_ : WSMessageType
  Payload : Payload
  Timestamp : Int
deriving DecidableEq, Repr

/-- The result of `json.Marshal` on a message: the bytes are represented by the message they
serialise. Marshalling the payload shapes above cannot fail. -/
structure Bytes where
  message : WSMessage
deriving DecidableEq, Repr

/-- Go's `json.Marshal` on an outbound message. -/
def jsonMarshal (message : WSMessage) : Bytes := ⟨message⟩

/-! ## `pkg/websocket`: the connection as the engine sees it -/

/-- The struct `websocket.Client`, without its socket, hub reference and send queue. -/
structure Client where
  ID : String
  SessionID : Int
  ParticipantID : Int
  UserID : Option Int
  Nickname : String
  IsHost : Bool
deriving DecidableEq, Repr

/-- `Client.SetParticipantInfo`. -/
def Client.SetParticipantInfo (c : Client) (participantID : Int) (userID : Option Int)
    (nickname : String) (isHost : Bool) : Client :=
  { c with ParticipantID := participantID, UserID := userID, Nickname := nickname,
           IsHost := isHost }

/-! ## The repositories consumed by the engine -/

/-- A call on `repositories.SessionRepository` or `repositories.QuestionRepository`. -/
inductive RepoCall where
  | GetQuestionByID (id : Int)
  | GetQuestionListByQuiz (quizID : Int)
  | GetSessionByID (sessionID : Int)
  | GetSessionParticipants (sessionID : Int)
  | GetSessionLeaderboard (sessionID : Int)
  | StartSession (sessionID : Int)
  | EndSession (sessionID : Int)
  | UpdateSessionQuestion (sessionID questionIndex : Int)
  | UpdateParticipantScore (participantID score : Int)
deriving DecidableEq, Repr

/-- The repository methods over a store of type `σ` (the SQL behind them is generated code
outside the repository sources). A read returns `none` when the method returns an error. A
write returns `none` when the method returns an error, and then the store is as it was;
otherwise it returns the new store. -/
structure Repositories (σ : Type) where
  GetQuestionByID : σ → Int → Option Question
  GetQuestionListByQuiz : σ → Int → Option (List Question)
  GetSessionByID : σ → Int → Option QuizSession
  GetSessionParticipants : σ → Int → Option (List SessionParticipant)
  GetSessionLeaderboard : σ → Int → Option (List LeaderboardParticipant)
  StartSession : σ → Int → Option σ
  EndSession : σ → Int → Option σ
  UpdateSessionQuestion : σ → Int → Int → Option σ
  UpdateParticipantScore : σ → Int → Int → Option σ

/-- What the engine reads from outside: the repositories, the wall clock (`clock n` is the
value of the `n`-th call of `time.Now()`, in nanoseconds) and the Unicode case tables. -/
structure Env (σ : Type) where
  repos : Repositories σ
  clock : Nat → Int
  caseTable : Char → Char

/-! ## Engine state -/

/-- The key of the marshal cache, `fmt.Sprintf("%s_%d_%v", type, sessionID, unixSeconds)`,
kept as its three components. -/
structure CacheKey where
  Type_ : WSMessageType
  sessionID : Int
  unix : Int
deriving DecidableEq, Repr

/-- The work started with `go func()` or `time.AfterFunc`, to run after the handler returns. -/
inductive Deferred where
  | joinAnnounce (sessionID : Int) (participant : SessionParticipant)
  | firstQuestion (sessionID : Int) (questions : List Question)
  | handleQuestionTimeout (sessionID : Int)
  | autoEndGame (sessionID : Int)
  | autoNextQuestion (sessionID : Int)
  | marshalCacheDelete (key : CacheKey)
  | participantListUpdate (sessionID : Int) (trigger : String) (excludeClient : Option Client)
deriving DecidableEq, Repr

/-- A goroutine or timer that was started: its handle, its delay in milliseconds, its work,
and whether `Stop` was called on it. -/
structure Scheduled where
  id : Nat
  delay : Int
  task : Deferred
  stopped : Bool
deriving DecidableEq, Repr

/-- A call the engine makes on its collaborators, or a runtime panic that ends the handler. -/
inductive Event where
  | SendToClient (clientID : String) (message : Bytes)
  | BroadcastToRoom (roomID : Int) (message : Bytes) (excludeClient : Option String)
  | repo (call : RepoCall) (ok : Bool)
  | crashed
deriving DecidableEq, Repr

/-- The struct `gameEventHandler` together with the store behind its repositories:
`questionTimers` maps a session id to the handle of its timer, `marshalCache` is the
`sync.Map`, `scheduled` lists every goroutine and timer started so far, `ticks` counts the
calls of `time.Now()`, and `log` records the calls made on the hub and the repositories. -/
structure Engine (σ : Type) where
  db : σ
  questionTimers : List (Int × Nat)
  marshalCache : List (CacheKey × Bytes)
  scheduled : List Scheduled
  ticks : Nat
  log : List Event
deriving DecidableEq, Repr

variable {σ : Type}

/-- One call of `time.Now()`. -/
def timeNow (env : Env σ) (s : Engine σ) : Int × Engine σ :=
  (env.clock s.ticks, { s with ticks := s.ticks + 1 })

/-- A repository call is recorded in the log with its outcome. -/
def logRepo (call : RepoCall) (ok : Bool) (s : Engine σ) : Engine σ :=
  { s with log := s.log ++ [Event.repo call ok] }

/-- `go func()` and `time.AfterFunc`: the work is registered under a fresh handle, which is
returned. -/
def afterFunc (delay : Int) (task : Deferred) (s : Engine σ) : Nat × Engine σ :=
  (s.scheduled.length,
   { s with scheduled := s.scheduled ++ [⟨s.scheduled.length, delay, task, false⟩] })

/-- `Timer.Stop` on the timer with the given handle. -/
def stopTimer (id : Nat) (s : Engine σ) : Engine σ :=
  { s with scheduled := s.scheduled.map (fun t => if t.id = id then { t with stopped := true } else t) }

/-- `gameEventHandler.sendToClient`. -/
def sendToClient (client : Client) (message : WSMessage) (s : Engine σ) : Engine σ :=
  { s with log := s.log ++ [Event.SendToClient client.ID (jsonMarshal message)] }

/-- `gameEventHandler.sendError`. -/
def sendError (env : Env σ) (client : Client) (code message : String) (s : Engine σ) :
    Engine σ :=
  let r := timeNow env s
  sendToClient client ⟨WSMsgTypeError, Payload.error code message, r.1⟩ r.2

/-- `Time.Unix` of a time in nanoseconds. -/
def unixSeconds (t : Int) : Int := t / 1000000000

/-- `gameEventHandler.broadcastToRoom`, with the marshal cache for the three cached types. -/
def broadcastToRoom (sessionID : Int) (message : WSMessage) (excludeClient : Option Client)
    (s : Engine σ) : Engine σ :=
  let exclude := excludeClient.map (fun c => c.ID)
  if message.Type_ = WSMsgTypeLeaderboard ∨ message.Type_ = WSMsgTypeQuestionEnd ∨
      message.Type_ = WSMsgTypeQuizStart then
    let cacheKey : CacheKey := ⟨message.Type_, sessionID, unixSeconds message.Timestamp⟩
    match s.marshalCache.lookup cacheKey with
    | some cached =>
      { s with log := s.log ++ [Event.BroadcastToRoom sessionID cached exclude] }
    | none =>
      let msgBytes := jsonMarshal message
      let s1 := { s with marshalCache := (cacheKey, msgBytes) :: s.marshalCache }
      let s2 := (afterFunc 30000 (Deferred.marshalCacheDelete cacheKey) s1).2
      { s2 with log := s2.log ++ [Event.BroadcastToRoom sessionID msgBytes exclude] }
  else
    { s with log := s.log ++ [Event.BroadcastToRoom sessionID (jsonMarshal message) exclude] }

/-! ## Timers and notifications -/

/-- `gameEventHandler.timeLimitToSeconds`. -/
def timeLimitToSeconds (timeLimit : TimeLimitType) : Int :=
  if timeLimit = TimeLimitType5 then 5
  else if timeLimit = TimeLimitType10 then 10
  else if timeLimit = TimeLimitType20 then 20
  else if timeLimit = TimeLimitType45 then 45
  else if timeLimit = TimeLimitType80 then 80
  else QuestionTimeLimit

/-- `gameEventHandler.startQuestionTimer`. -/
def startQuestionTimer (sessionID : Int) (timeLimit : Int) (s : Engine σ) : Engine σ :=
  let s1 := match s.questionTimers.lookup sessionID with
    | some existingTimer => stopTimer existingTimer s
    | none => s
  let r := afterFunc (timeLimit * 1000) (Deferred.handleQuestionTimeout sessionID) s1
  { r.2 with questionTimers :=
      (sessionID, r.1) :: r.2.questionTimers.filter (fun e => e.1 ≠ sessionID) }

/-- `gameEventHandler.stopQuestionTimer`. -/
def stopQuestionTimer (sessionID : Int) (s : Engine σ) : Engine σ :=
  match s.questionTimers.lookup sessionID with
  | some timer =>
    let s1 := stopTimer timer s
    { s1 with questionTimers := s1.questionTimers.filter (fun e => e.1 ≠ sessionID) }
  | none => s

/-- `gameEventHandler.formatLeaderboard`. -/
def formatLeaderboard (participants : List LeaderboardParticipant) : List LeaderboardRow :=
  participants.map (fun participant =>
    ⟨participant.Rank, participant.ID, participant.Nickname, participant.Score,
     participant.IsHost⟩)

/-- `gameEventHandler.NotifyGameStart`. -/
def NotifyGameStart (env : Env σ) (sessionID : Int) (s : Engine σ) : Engine σ :=
  let r1 := timeNow env s
  let r2 := timeNow env r1.2
  broadcastToRoom sessionID ⟨WSMsgTypeQuizStart, Payload.quizStart sessionID r1.1, r2.1⟩ none r2.2

/-- `gameEventHandler.NotifyQuestionStart`. -/
def NotifyQuestionStart (env : Env σ) (sessionID : Int) (question : Question) (s : Engine σ) :
    Engine σ :=
  let timeLimitSeconds := timeLimitToSeconds question.TimeLimit
  let r := timeNow env s
  let serverStartTime := r.1
  let safeQuestion : QuestionView :=
    { id := question.ID, question := question.Question, type := question.Type_,
      time_limit := timeLimitSeconds, index := question.Index, max_score := some 1000,
      answers := question.Answers.map (fun answer => answer.Text) }
  let message : WSMessage :=
    ⟨WSMsgTypeQuestionStart,
     Payload.questionStart sessionID safeQuestion serverStartTime timeLimitSeconds true
       (serverStartTime + timeLimitSeconds * 1000000000),
     serverStartTime⟩
  broadcastToRoom sessionID message none (startQuestionTimer sessionID timeLimitSeconds r.2)

/-- `gameEventHandler.NotifyQuestionEnd`. -/
def NotifyQuestionEnd (env : Env σ) (sessionID : Int) (s : Engine σ) : Engine σ :=
  let s1 := stopQuestionTimer sessionID s
  let r1 := timeNow env s1
  let r2 := timeNow env r1.2
  broadcastToRoom sessionID ⟨WSMsgTypeQuestionEnd, Payload.questionEnd sessionID r1.1, r2.1⟩
    none r2.2

/-- The two queries that `handleStartGame`, `handleNextQuestion` and `handleQuestionTimeout`
hand to `utils.RunQueriesParallel`: the session, and (after a second load of the session) the
question list of its quiz. Both queries are started; the embedding runs them in program
order. The result is `none` when `RunQueriesParallel` returns an error. -/
def loadSessionAndQuestions (env : Env σ) (sessionID : Int) (s : Engine σ) :
    Option (QuizSession × List Question) × Engine σ :=
  let first := env.repos.GetSessionByID s.db sessionID
  let s1 := logRepo (RepoCall.GetSessionByID sessionID) first.isSome s
  let again := env.repos.GetSessionByID s1.db sessionID
  let s2 := logRepo (RepoCall.GetSessionByID sessionID) again.isSome s1
  match again with
  | none => (none, s2)
  | some session2 =>
    let list := env.repos.GetQuestionListByQuiz s2.db session2.QuizID
    let s3 := logRepo (RepoCall.GetQuestionListByQuiz session2.QuizID) list.isSome s2
    match first, list with
    | some session, some questions => (some (session, questions), s3)
    | _, _ => (none, s3)

/-! ## Message handlers -/

/-- The payload validation `switch question.Type` of `handleSubmitAnswer`: the message of the
`INVALID_ANSWER` error it sends, or `none` when the payload passes. -/
def validateAnswerPayload (question : Question) (answerPayload : WSAnswerPayload) :
    Option String :=
  if question.Type_ = QuestionTypeSingleChoice ∨ question.Type_ = QuestionTypeTextInput then
    if answerPayload.AnswerValue = none ∨ answerPayload.AnswerValue = some "" then
      some "Answer value cannot be empty for single choice/text input"
    else none
  else if question.Type_ = QuestionTypeMultipleChoice then
    if answerPayload.AnswerValues.length = 0 then
      some "Answer values cannot be empty for multiple choice"
    else none
  else none

/-- `gameEventHandler.handleSubmitAnswer`. -/
def handleSubmitAnswer (env : Env σ) (client : Client) (wsMsg : WSMessageIn) (s : Engine σ) :
    Engine σ :=
  match wsMsg.answerPayload with
  | none => sendError env client "INVALID_PAYLOAD" "Invalid answer payload format" s
  | some answerPayload =>
    match env.repos.GetQuestionByID s.db answerPayload.QuestionID with
    | none =>
      sendError env client "QUESTION_NOT_FOUND" "Question not found"
        (logRepo (RepoCall.GetQuestionByID answerPayload.QuestionID) false s)
    | some question =>
      let s1 := logRepo (RepoCall.GetQuestionByID answerPayload.QuestionID) true s
      match validateAnswerPayload question answerPayload with
      | some invalid => sendError env client "INVALID_ANSWER" invalid s1
      | none =>
        let isCorrect := evaluateAnswer env.caseTable question answerPayload
        let score := scoreEarned isCorrect answerPayload.TimeTaken
        match env.repos.UpdateParticipantScore s1.db client.ParticipantID score with
        | none =>
          sendError env client "SCORE_UPDATE_FAILED" "Failed to update score"
            (logRepo (RepoCall.UpdateParticipantScore client.ParticipantID score) false s1)
        | some db' =>
          let s2 := logRepo (RepoCall.UpdateParticipantScore client.ParticipantID score) true
            { s1 with db := db' }
          let r := timeNow env s2
          sendToClient client
            ⟨WSMsgTypeAnswerReceived,
             Payload.answerReceived isCorrect score answerPayload.TimeTaken, r.1⟩ r.2

/-- `gameEventHandler.handleStartGame`. The goroutine that starts the first question one
second later is registered with the session id and the question list it captured. -/
def handleStartGame (env : Env σ) (client : Client) (_wsMsg : WSMessageIn) (s : Engine σ) :
    Engine σ :=
  if ¬ client.IsHost then
    sendError env client "UNAUTHORIZED" "Only host can start the game" s
  else
    let r := loadSessionAndQuestions env client.SessionID s
    match r.1 with
    | none => sendError env client "SESSION_NOT_FOUND" "Session not found" r.2
    | some (session, questions) =>
      if session.Status ≠ SessionStatusWaiting then
        sendError env client "INVALID_STATUS" "Session cannot be started from current status" r.2
      else if questions.length = 0 then
        sendError env client "NO_QUESTIONS" "No questions available for this quiz" r.2
      else
        match env.repos.StartSession r.2.db client.SessionID with
        | none =>
          sendError env client "START_FAILED" "Failed to start session"
            (logRepo (RepoCall.StartSession client.SessionID) false r.2)
        | some db' =>
          let s1 := logRepo (RepoCall.StartSession client.SessionID) true { r.2 with db := db' }
          let s2 := NotifyGameStart env client.SessionID s1
          (afterFunc 1000 (Deferred.firstQuestion client.SessionID questions) s2).2

/-- `gameEventHandler.handleNextQuestion`. Indexing `questions` outside its bounds is a
runtime panic, which ends the handler. -/
def handleNextQuestion (env : Env σ) (client : Client) (_wsMsg : WSMessageIn) (s : Engine σ) :
    Engine σ :=
  if ¬ client.IsHost then
    sendError env client "UNAUTHORIZED" "Only host can control questions" s
  else
    let r := loadSessionAndQuestions env client.SessionID s
    match r.1 with
    | none => sendError env client "SESSION_NOT_FOUND" "Session not found" r.2
    | some (session, questions) =>
      if session.Status ≠ SessionStatusActive then
        sendError env client "INVALID_STATUS" "Session is not active" r.2
      else
        let s1 := if session.CurrentQuestionIndex ≥ 0 then NotifyQuestionEnd env client.SessionID r.2
                  else r.2
        let nextQuestionIndex := int32 (session.CurrentQuestionIndex + 1)
        if nextQuestionIndex ≥ int32 questions.length then
          sendError env client "NO_MORE_QUESTIONS" "No more questions available" s1
        else
          match env.repos.UpdateSessionQuestion s1.db client.SessionID nextQuestionIndex with
          | none =>
            sendError env client "UPDATE_FAILED" "Failed to update question"
              (logRepo (RepoCall.UpdateSessionQuestion client.SessionID nextQuestionIndex) false s1)
          | some db' =>
            let s2 := logRepo (RepoCall.UpdateSessionQuestion client.SessionID nextQuestionIndex)
              true { s1 with db := db' }
            if nextQuestionIndex < 0 then { s2 with log := s2.log ++ [Event.crashed] }
            else
              match questions[nextQuestionIndex.toNat]? with
              | none => { s2 with log := s2.log ++ [Event.crashed] }
              | some currentQuestion => NotifyQuestionStart env client.SessionID currentQuestion s2

/-- `gameEventHandler.handleEndGame`. The two final queries (`EndSession` and
`GetSessionLeaderboard`) are both started by `utils.RunQueriesParallel`; the embedding runs
them in program order. -/
def handleEndGame (env : Env σ) (client : Client) (_wsMsg : WSMessageIn) (s : Engine σ) :
    Engine σ :=
  if ¬ client.IsHost then
    sendError env client "UNAUTHORIZED" "Only host can end the game" s
  else
    match env.repos.GetSessionByID s.db client.SessionID with
    | none =>
      sendError env client "SESSION_NOT_FOUND" "Session not found"
        (logRepo (RepoCall.GetSessionByID client.SessionID) false s)
    | some session =>
      let s0 := logRepo (RepoCall.GetSessionByID client.SessionID) true s
      if session.Status = SessionStatusCompleted then
        sendError env client "ALREADY_ENDED" "Game has already ended" s0
      else
        let s1 := stopQuestionTimer client.SessionID s0
        let s2 := if session.Status = SessionStatusActive then
                    NotifyQuestionEnd env client.SessionID s1
                  else s1
        let ended := env.repos.EndSession s2.db client.SessionID
        let s3 := logRepo (RepoCall.EndSession client.SessionID) ended.isSome
          { s2 with db := ended.getD s2.db }
        let board := env.repos.GetSessionLeaderboard s3.db client.SessionID
        let s4 := logRepo (RepoCall.GetSessionLeaderboard client.SessionID) board.isSome s3
        match ended, board with
        | some _, some finalLeaderboard =>
          let r1 := timeNow env s4
          let r2 := timeNow env r1.2
          broadcastToRoom client.SessionID
            ⟨WSMsgTypeQuizEnd,
             Payload.quizEnd client.SessionID r1.1 (formatLeaderboard finalLeaderboard)
               "completed" false,
             r2.1⟩ none r2.2
        | _, _ => sendError env client "END_FAILED" "Failed to end session" s4

/-- `gameEventHandler.handlePing`. -/
def handlePing (env : Env σ) (client : Client) (_wsMsg : WSMessageIn) (s : Engine σ) :
    Engine σ :=
  let r := timeNow env s
  sendToClient client ⟨WSMsgTypePong, Payload.nil, r.1⟩ r.2

/-- `gameEventHandler.handlePauseGame`. -/
def handlePauseGame (env : Env σ) (client : Client) (_wsMsg : WSMessageIn) (s : Engine σ) :
    Engine σ :=
  if ¬ client.IsHost then
    sendError env client "UNAUTHORIZED" "Only host can pause the game" s
  else
    let r1 := timeNow env s
    let r2 := timeNow env r1.2
    broadcastToRoom client.SessionID
      ⟨WSMsgTypeGamePaused, Payload.gamePaused client.SessionID none r1.1, r2.1⟩ none r2.2

/-- `gameEventHandler.handleResumeGame`. -/
def handleResumeGame (env : Env σ) (client : Client) (_wsMsg : WSMessageIn) (s : Engine σ) :
    Engine σ :=
  if ¬ client.IsHost then
    sendError env client "UNAUTHORIZED" "Only host can resume the game" s
  else
    let r1 := timeNow env s
    let r2 := timeNow env r1.2
    broadcastToRoom client.SessionID
      ⟨WSMsgTypeGameResumed, Payload.gameResumed client.SessionID r1.1, r2.1⟩ none r2.2

/-- The `current_question` object of `handleGetSessionState`. -/
def currentQuestionView (question : Question) : QuestionView :=
  { id := question.ID, question := question.Question, type := question.Type_,
    time_limit := timeLimitToSeconds question.TimeLimit, index := question.Index,
    max_score := none, answers := question.Answers.map (fun answer => answer.Text) }

/-- `gameEventHandler.handleGetSessionState`. The three queries are all started by
`utils.RunQueriesParallel`; the embedding runs them in program order. -/
def handleGetSessionState (env : Env σ) (client : Client) (_wsMsg : WSMessageIn)
    (s : Engine σ) : Engine σ :=
  let q1 := env.repos.GetSessionByID s.db client.SessionID
  let s1 := logRepo (RepoCall.GetSessionByID client.SessionID) q1.isSome s
  let q2 := env.repos.GetSessionParticipants s1.db client.SessionID
  let s2 := logRepo (RepoCall.GetSessionParticipants client.SessionID) q2.isSome s1
  let q3 := env.repos.GetSessionLeaderboard s2.db client.SessionID
  let s3 := logRepo (RepoCall.GetSessionLeaderboard client.SessionID) q3.isSome s2
  match q1, q2, q3 with
  | some session, some participants, some leaderboard =>
    let cq : Option QuestionView × Engine σ :=
      if session.Status = SessionStatusActive ∧ session.CurrentQuestionIndex ≥ 0 then
        let list := env.repos.GetQuestionListByQuiz s3.db session.QuizID
        let s4 := logRepo (RepoCall.GetQuestionListByQuiz session.QuizID) list.isSome s3
        match list with
        | some questions =>
          if session.CurrentQuestionIndex < questions.length then
            ((questions[session.CurrentQuestionIndex.toNat]?).map currentQuestionView, s4)
          else (none, s4)
        | none => (none, s4)
      else (none, s3)
    let participantList := participants.map (fun participant =>
      (⟨participant.ID, participant.Nickname, participant.Score, participant.IsHost⟩ :
        ParticipantRow))
    let r := timeNow env cq.2
    sendToClient client
      ⟨WSMsgTypeSessionState,
       Payload.sessionState
         ⟨session.ID, session.Status, session.CurrentQuestionIndex, session.ParticipantCount,
          session.MaxParticipants⟩
         participantList (formatLeaderboard leaderboard) cq.1,
       r.1⟩ r.2
  | _, _, _ => sendError env client "SESSION_NOT_FOUND" "Session not found" s3

/-- `gameEventHandler.handleJoinRoom`. The goroutine that announces the join 100 ms later is
registered with the session id and the participant it captured. The connection with its
participant fields as the handler leaves them is returned with the engine. -/
def handleJoinRoom (env : Env σ) (client : Client) (wsMsg : WSMessageIn) (s : Engine σ) :
    Engine σ × Client :=
  match wsMsg.joinPayload with
  | none => (sendError env client "INVALID_PAYLOAD" "Invalid join message payload format" s, client)
  | some payload =>
    match payload.UserID with
    | none =>
      (sendError env client "USER_ID_REQUIRED"
        "Please call CreateSession or JoinSession API first to get user_id" s, client)
    | some userID =>
      let q1 := env.repos.GetSessionByID s.db client.SessionID
      let s1 := logRepo (RepoCall.GetSessionByID client.SessionID) q1.isSome s
      let q2 := env.repos.GetSessionParticipants s1.db client.SessionID
      let s2 := logRepo (RepoCall.GetSessionParticipants client.SessionID) q2.isSome s1
      match q1, q2 with
      | some session, some participants =>
        match participants.find? (fun p => decide (p.UserID = some userID)) with
        | none =>
          (sendError env client "PARTICIPANT_NOT_FOUND"
            "No participant found with this user_id. Please call CreateSession or JoinSession API first"
            s2, client)
        | some participant =>
          let client1 := client.SetParticipantInfo participant.ID participant.UserID
            participant.Nickname participant.IsHost
          let r := timeNow env s2
          let s3 := sendToClient client1
            ⟨WSMsgTypeJoinSuccess,
             Payload.joinSuccess session participant participant.IsHost, r.1⟩ r.2
          ((afterFunc 100 (Deferred.joinAnnounce client.SessionID participant) s3).2, client1)
      | _, _ => (sendError env client "SESSION_NOT_FOUND" "Session not found" s2, client)

/-- `gameEventHandler.HandleMessage`: the dispatch on the message type; unknown types are
logged and dropped. -/
def HandleMessage (env : Env σ) (client : Client) (wsMsg : WSMessageIn) (s : Engine σ) :
    Engine σ × Client :=
  if wsMsg.Type_ = WSMsgTypeAnswer then (handleSubmitAnswer env client wsMsg s, client)
  else if wsMsg.Type_ = WSMsgTypePing then (handlePing env client wsMsg s, client)
  else if wsMsg.Type_ = WSMsgTypeJoin then handleJoinRoom env client wsMsg s
  else if wsMsg.Type_ = WSMsgTypeStartQuiz then (handleStartGame env client wsMsg s, client)
  else if wsMsg.Type_ = WSMsgTypeNextQuestion then (handleNextQuestion env client wsMsg s, client)
  else if wsMsg.Type_ = WSMsgTypeEndQuiz then (handleEndGame env client wsMsg s, client)
  else if wsMsg.Type_ = WSMsgTypePauseQuiz then (handlePauseGame env client wsMsg s, client)
  else if wsMsg.Type_ = WSMsgTypeResumeQuiz then (handleResumeGame env client wsMsg s, client)
  else if wsMsg.Type_ = WSMsgTypeGetState then (handleGetSessionState env client wsMsg s, client)
  else (s, client)

/-! ## Changes of a submission that `evaluateAnswer` is compared under -/

/-- The string with every character replaced by its image under `f`. -/
def recase (f : Char → Char) (v : String) : String := ⟨v.data.map f⟩

/-- ASCII upper-casing of one character: `a`..`z` become `A`..`Z`. -/
def asciiUpper (c : Char) : Char :=
  if 97 ≤ c.toNat ∧ c.toNat ≤ 122 then Char.ofNat (c.toNat - 32) else c

/-- ASCII lower-casing of one character: `A`..`Z` become `a`..`z`. -/
def asciiLower (c : Char) : Char :=
  if 65 ≤ c.toNat ∧ c.toNat ≤ 90 then Char.ofNat (c.toNat + 32) else c

/-- The string with white space `before` and `after` added around it. -/
def padded (before after : List Char) (v : String) : String := ⟨before ++ v.data ++ after⟩

/-! ## Reading the log -/

/-- The calls made between state `s` and a later state `s'`. -/
def newEvents (s s' : Engine σ) : List Event := s'.log.drop s.log.length

/-- The event is a `BroadcastToRoom` call on the hub. -/
def Event.isBroadcast : Event → Bool
  | Event.BroadcastToRoom _ _ _ => true
  | _ => false

/-- The event is a repository call. -/
def Event.isRepo : Event → Bool
  | Event.repo _ _ => true
  | _ => false

/-- The receiving connection and the code of an error envelope handed to `SendToClient`, if
the event is one. -/
def Event.rejection : Event → Option (String × String)
  | Event.SendToClient clientID ⟨⟨_, Payload.error code _, _⟩⟩ => some (clientID, code)
  | _ => none

/-- The event is a call of the given repository write (whatever its arguments). -/
def Event.isUpdateParticipantScore : Event → Bool
  | Event.repo (RepoCall.UpdateParticipantScore _ _) _ => true
  | _ => false

/-- The event is a call of `UpdateSessionQuestion`. -/
def Event.isUpdateSessionQuestion : Event → Bool
  | Event.repo (RepoCall.UpdateSessionQuestion _ _) _ => true
  | _ => false

/-- The event is a call of `StartSession`. -/
def Event.isStartSession : Event → Bool
  | Event.repo (RepoCall.StartSession _) _ => true
  | _ => false

/-- The error envelope built by `sendError` at time `t`. -/
def errorEnvelope (code message : String) (t : Int) : Bytes :=
  jsonMarshal ⟨WSMsgTypeError, Payload.error code message, t⟩

/-- The error envelopes among the events, in order: for each the receiving connection and
the error code. -/
def rejections (events : List Event) : List (String × String) :=
  events.filterMap Event.rejection

/-- State `s'` is `s` after repository calls that left the store as it was: only the log
grew, by the events `reads`, all of them repository calls. -/
def ReadsOnly (s s' : Engine σ) : Prop :=
  ∃ reads : List Event, (∀ e ∈ reads, e.isRepo = true) ∧ s' = { s with log := s.log ++ reads }

/-- From `s` to `s'` the log only grew, and by no error envelope. -/
def Silent (s s' : Engine σ) : Prop :=
  ∃ l : List Event, s'.log = s.log ++ l ∧ rejections l = []

/-- A clean rejection with `code`: from `s` to `s'` the engine made repository calls that left
the store as it was, read the clock once and sent one error envelope with that code to the
requesting connection; nothing else changed. -/
def CleanReject (env : Env σ) (client : Client) (s s' : Engine σ) (code : String) : Prop :=
  ∃ (reads : List Event) (message : String), (∀ e ∈ reads, e.isRepo = true) ∧
    s' = { s with ticks := s.ticks + 1,
                  log := s.log ++ reads ++
                    [Event.SendToClient client.ID
                      (errorEnvelope code message (env.clock s.ticks))] }

/-- The three ways a handled message ends: no error envelope was sent; or the message was
cleanly rejected and the connection is as it was; or one error envelope was sent to the
requesting connection with one of the codes that `handleNextQuestion` and `handleEndGame`
send after they have ended the open question. -/
def Outcome (env : Env σ) (client : Client) (s : Engine σ) (r : Engine σ × Client) : Prop :=
  rejections (newEvents s r.1) = [] ∨
  (∃ code, CleanReject env client s r.1 code ∧ r.2 = client) ∨
  (∃ code, (code = "NO_MORE_QUESTIONS" ∨ code = "UPDATE_FAILED" ∨ code = "END_FAILED") ∧
    rejections (newEvents s r.1) = [(client.ID, code)])

/-! ## An in-memory store, to run the handlers on concrete inputs -/

/-- The rows of a store: sessions, questions and participants. -/
structure Store where
  sessions : List QuizSession
  questions : List Question
  participants : List SessionParticipant
deriving DecidableEq, Repr

/-- Modelled from the spec: the SQL behind the repository methods is generated code that is
not among the sources. Reads select rows by id; `StartSession` and `EndSession` set the status
to active and completed, `UpdateSessionQuestion` sets the current question index,
`UpdateParticipantScore` adds to the score; a write on a missing row is an error. -/
def memRepos : Repositories Store where
  GetQuestionByID db id := db.questions.find? (fun q => decide (q.ID = id))
  GetQuestionListByQuiz db quizID := some (db.questions.filter (fun q => decide (q.QuizID = quizID)))
  GetSessionByID db sessionID := db.sessions.find? (fun x => decide (x.ID = sessionID))
  GetSessionParticipants db sessionID :=
    some (db.participants.filter (fun p => decide (p.SessionID = sessionID)))
  GetSessionLeaderboard db sessionID :=
    some ((db.participants.filter (fun p => decide (p.SessionID = sessionID))).map
      (fun p => ⟨p.ID, p.Nickname, p.Score, p.IsHost, 1⟩))
  StartSession db sessionID :=
    if db.sessions.any (fun x => decide (x.ID = sessionID)) then
      some { db with sessions := db.sessions.map (fun x =>
        if x.ID = sessionID then { x with Status := SessionStatusActive } else x) }
    else none
  EndSession db sessionID :=
    if db.sessions.any (fun x => decide (x.ID = sessionID)) then
      some { db with sessions := db.sessions.map (fun x =>
        if x.ID = sessionID then { x with Status := SessionStatusCompleted } else x) }
    else none
  UpdateSessionQuestion db sessionID questionIndex :=
    if db.sessions.any (fun x => decide (x.ID = sessionID)) then
      some { db with sessions := db.sessions.map (fun x =>
        if x.ID = sessionID then { x with CurrentQuestionIndex := questionIndex } else x) }
    else none
  UpdateParticipantScore db participantID score :=
    if db.participants.any (fun p => decide (p.ID = participantID)) then
      some { db with participants := db.participants.map (fun p =>
        if p.ID = participantID then { p with Score := int32 (p.Score + score) } else p) }
    else none

/-- An environment over the in-memory store: the clock advances one millisecond per reading
from a fixed start, and the case table beyond ASCII is the identity. -/
def memEnv : Env Store :=
  { repos := memRepos, clock := fun n => 1700000000000000000 + 1000000 * n, caseTable := id }

/-- A two-question quiz: a single-choice and a multiple-choice question. -/
def demoQuestions : List Question :=
  [ { ID := 11, QuizID := 3, Question := "Capital of France?", Type_ := QuestionTypeSingleChoice,
      Answers := [⟨"Paris", true⟩, ⟨"Rome", false⟩], TimeLimit := TimeLimitType5, Index := 0 },
    { ID := 12, QuizID := 3, Question := "Which are primes?", Type_ := QuestionTypeMultipleChoice,
      Answers := [⟨"7", true⟩, ⟨"4", false⟩, ⟨"5", true⟩], TimeLimit := TimeLimitType10,
      Index := 1 },
    { ID := 13, QuizID := 4, Question := "Largest planet?", Type_ := QuestionTypeTextInput,
      Answers := [⟨"Jupiter", true⟩], TimeLimit := TimeLimitType20, Index := 0 } ]

/-- A session of quiz 3 with a host and one player, in the given status and at the given
question index. -/
def demoStore (status : SessionStatus) (index : Int) : Store :=
  { sessions := [⟨7, 3, some 100, "ABC123", status, index, none, 2⟩],
    questions := demoQuestions,
    participants := [⟨1, 7, some 100, "host", 0, true⟩, ⟨2, 7, some 200, "ann", 0, false⟩] }

/-- The engine as constructed by `ProvideGameEventHandler`, over the given store. -/
def newEngine (db : σ) : Engine σ :=
  { db := db, questionTimers := [], marshalCache := [], scheduled := [], ticks := 0, log := [] }

/-- The in-memory store with every write failing, as when the database is unreachable for
writes. -/
def failingWrites : Repositories Store :=
  { memRepos with
    StartSession := fun _ _ => none
    EndSession := fun _ _ => none
    UpdateSessionQuestion := fun _ _ _ => none
    UpdateParticipantScore := fun _ _ _ => none }

/-- The environment `memEnv` over the store whose writes fail. -/
def failingEnv : Env Store := { memEnv with repos := failingWrites }

/-- The engine over the active demo session at the given question index, with the question
timer of room 7 armed for ten seconds. -/
def runningEngine (index : Int) : Engine Store :=
  startQuestionTimer 7 10 (newEngine (demoStore SessionStatusActive index))

/-- The host's connection to room 7, after its join. -/
def hostClient : Client := ⟨"c-host", 7, 1, some 100, "host", true⟩

/-- A player's connection to room 7, after its join. -/
def playerClient : Client := ⟨"c-ann", 7, 2, some 200, "ann", false⟩

/-- An inbound message of the given type without payload. -/
def bareMessage (type : WSMessageType) : WSMessageIn := ⟨type, none, none⟩

/-- An inbound `answer` message. -/
def answerMessage (payload : WSAnswerPayload) : WSMessageIn := ⟨WSMsgTypeAnswer, none, some payload⟩

/-! ## The timeout chain, the disconnect hook and the deferred work -/

/-- `gameEventHandler.NotifyParticipantJoin`. -/
def NotifyParticipantJoin (env : Env σ) (sessionID : Int) (participant : SessionParticipant)
    (s : Engine σ) : Engine σ :=
  let r1 := timeNow env s
  let r2 := timeNow env r1.2
  broadcastToRoom sessionID
    ⟨WSMsgTypeParticipantJoin,
     Payload.participantJoin sessionID participant.ID participant.Nickname r1.1, r2.1⟩
    none r2.2

/-- `gameEventHandler.NotifyParticipantLeft`. -/
def NotifyParticipantLeft (env : Env σ) (sessionID participantID : Int) (s : Engine σ) :
    Engine σ :=
  let r1 := timeNow env s
  let r2 := timeNow env r1.2
  broadcastToRoom sessionID
    ⟨WSMsgTypeParticipantLeft, Payload.participantLeft sessionID participantID r1.1, r2.1⟩
    none r2.2

/-- `gameEventHandler.broadcastParticipantListUpdate`. -/
def broadcastParticipantListUpdate (env : Env σ) (sessionID : Int) (trigger : String)
    (excludeClient : Option Client) (s : Engine σ) : Engine σ :=
  match env.repos.GetSessionParticipants s.db sessionID with
  | none => logRepo (RepoCall.GetSessionParticipants sessionID) false s
  | some participants =>
    let s1 := logRepo (RepoCall.GetSessionParticipants sessionID) true s
    let participantList := participants.map (fun p =>
      (⟨p.ID, p.Nickname, p.Score, p.IsHost⟩ : ParticipantRow))
    let r1 := timeNow env s1
    let r2 := timeNow env r1.2
    broadcastToRoom sessionID
      ⟨WSMsgTypeParticipantListUpdate,
       Payload.participantListUpdate sessionID participants.length participantList trigger r1.1,
       r2.1⟩
      excludeClient r2.2

/-- `gameEventHandler.showIntermediateLeaderboard`. -/
def showIntermediateLeaderboard (env : Env σ) (sessionID : Int) (s : Engine σ) : Engine σ :=
  match env.repos.GetSessionLeaderboard s.db sessionID with
  | none => logRepo (RepoCall.GetSessionLeaderboard sessionID) false s
  | some leaderboard =>
    let s1 := logRepo (RepoCall.GetSessionLeaderboard sessionID) true s
    let r1 := timeNow env s1
    let r2 := timeNow env r1.2
    broadcastToRoom sessionID
      ⟨WSMsgTypeLeaderboard,
       Payload.leaderboard sessionID (formatLeaderboard leaderboard) 5 "auto_next_question" true
         r1.1,
       r2.1⟩
      none r2.2

/-- `gameEventHandler.autoEndGame`. -/
def autoEndGame (env : Env σ) (sessionID : Int) (s : Engine σ) : Engine σ :=
  match env.repos.EndSession s.db sessionID with
  | none => logRepo (RepoCall.EndSession sessionID) false s
  | some db' =>
    let s1 := logRepo (RepoCall.EndSession sessionID) true { s with db := db' }
    let board := env.repos.GetSessionLeaderboard s1.db sessionID
    let s2 := logRepo (RepoCall.GetSessionLeaderboard sessionID) board.isSome s1
    let finalLeaderboard := board.getD []
    let r1 := timeNow env s2
    let r2 := timeNow env r1.2
    let s3 := broadcastToRoom sessionID
      ⟨WSMsgTypeQuizEnd,
       Payload.quizEnd sessionID r1.1 (formatLeaderboard finalLeaderboard) "completed" true,
       r2.1⟩
      none r2.2
    stopQuestionTimer sessionID s3

/-- `gameEventHandler.autoNextQuestion`. After `NotifyQuestionStart`, which arms the room's
timer, it calls `startQuestionTimer` a second time. -/
def autoNextQuestion (env : Env σ) (sessionID : Int) (s : Engine σ) : Engine σ :=
  match env.repos.GetSessionByID s.db sessionID with
  | none => logRepo (RepoCall.GetSessionByID sessionID) false s
  | some session =>
    let s1 := logRepo (RepoCall.GetSessionByID sessionID) true s
    if session.Status ≠ SessionStatusActive then s1
    else
      let nextQuestionIndex := int32 (session.CurrentQuestionIndex + 1)
      match env.repos.GetQuestionListByQuiz s1.db session.QuizID with
      | none => logRepo (RepoCall.GetQuestionListByQuiz session.QuizID) false s1
      | some questions =>
        let s2 := logRepo (RepoCall.GetQuestionListByQuiz session.QuizID) true s1
        if nextQuestionIndex ≥ int32 questions.length then autoEndGame env sessionID s2
        else
          match env.repos.UpdateSessionQuestion s2.db sessionID nextQuestionIndex with
          | none => logRepo (RepoCall.UpdateSessionQuestion sessionID nextQuestionIndex) false s2
          | some db' =>
            let s3 := logRepo (RepoCall.UpdateSessionQuestion sessionID nextQuestionIndex) true
              { s2 with db := db' }
            if nextQuestionIndex < 0 then { s3 with log := s3.log ++ [Event.crashed] }
            else
              match questions[nextQuestionIndex.toNat]? with
              | none => { s3 with log := s3.log ++ [Event.crashed] }
              | some currentQuestion =>
                let s4 := NotifyQuestionStart env sessionID currentQuestion s3
                startQuestionTimer sessionID (timeLimitToSeconds currentQuestion.TimeLimit) s4

/-- `gameEventHandler.handleQuestionTimeout`, the callback of a room's question timer. -/
def handleQuestionTimeout (env : Env σ) (sessionID : Int) (s : Engine σ) : Engine σ :=
  let r := loadSessionAndQuestions env sessionID s
  match r.1 with
  | none => r.2
  | some (session, questions) =>
    let s1 := NotifyQuestionEnd env sessionID r.2
    let s2 := showIntermediateLeaderboard env sessionID s1
    if session.CurrentQuestionIndex ≥ int32 (int32 questions.length - 1) then
      (afterFunc 5000 (Deferred.autoEndGame sessionID) s2).2
    else
      (afterFunc 5000 (Deferred.autoNextQuestion sessionID) s2).2

/-- The goroutine that `handleStartGame` starts: one second later it sets the current
question index to 0 and starts the first of the questions it captured. -/
def firstQuestionStep (env : Env σ) (sessionID : Int) (questions : List Question)
    (s : Engine σ) : Engine σ :=
  match env.repos.UpdateSessionQuestion s.db sessionID 0 with
  | none => logRepo (RepoCall.UpdateSessionQuestion sessionID 0) false s
  | some db' =>
    let s1 := logRepo (RepoCall.UpdateSessionQuestion sessionID 0) true { s with db := db' }
    match questions[0]? with
    | none => { s1 with log := s1.log ++ [Event.crashed] }
    | some firstQuestion => NotifyQuestionStart env sessionID firstQuestion s1

/-- `gameEventHandler.HandleClientDisconnect`, the hook the hub calls before it removes a
connection. -/
def HandleClientDisconnect (env : Env σ) (client : Client) (s : Engine σ) : Engine σ :=
  if client.ParticipantID = 0 then s
  else
    let s1 := NotifyParticipantLeft env client.SessionID client.ParticipantID s
    let s2 := (afterFunc 0 (Deferred.participantListUpdate client.SessionID
      "participant_disconnect" (some client)) s1).2
    if client.IsHost then
      let s3 := stopQuestionTimer client.SessionID s2
      let r1 := timeNow env s3
      let r2 := timeNow env r1.2
      broadcastToRoom client.SessionID
        ⟨WSMsgTypeGamePaused,
         Payload.gamePaused client.SessionID (some "host_disconnected") r1.1, r2.1⟩
        (some client) r2.2
    else s2

/-- The callback that `broadcastToRoom` schedules 30 seconds after it stored an entry:
`marshalCache.Delete(cacheKey)`. -/
def marshalCacheDelete (key : CacheKey) (s : Engine σ) : Engine σ :=
  { s with marshalCache := s.marshalCache.filter (fun e => decide (e.1 ≠ key)) }

/-- The body of a goroutine or timer callback, run when it is due. -/
def runDeferred (env : Env σ) : Deferred → Engine σ → Engine σ
  | Deferred.joinAnnounce sessionID participant, s =>
    broadcastParticipantListUpdate env sessionID "websocket_connection" none
      (NotifyParticipantJoin env sessionID participant s)
  | Deferred.firstQuestion sessionID questions, s => firstQuestionStep env sessionID questions s
  | Deferred.handleQuestionTimeout sessionID, s => handleQuestionTimeout env sessionID s
  | Deferred.autoEndGame sessionID, s => autoEndGame env sessionID s
  | Deferred.autoNextQuestion sessionID, s => autoNextQuestion env sessionID s
  | Deferred.marshalCacheDelete key, s => marshalCacheDelete key s
  | Deferred.participantListUpdate sessionID trigger excludeClient, s =>
    broadcastParticipantListUpdate env sessionID trigger excludeClient s

/-! ## `pkg/websocket/hub.go`: the room registry -/

/-- The constant `constants.ClientSendBufferSize`: the capacity of a connection's send queue. -/
def ClientSendBufferSize : Nat := 256

/-- A connection's outbound queue `Send chan []byte`: the buffered messages, oldest first, and
whether the channel was closed. -/
structure Chan where
  buf : List Bytes
  closed : Bool
deriving DecidableEq, Repr

/-- The struct `CrossServerMessage` published on the backbone (its timestamp is never read
and is left out). `ExcludeClient` is the empty string when no connection is excluded. -/
structure CrossServerMessage where
  ServerID : String
  RoomID : Int
  Message : Bytes
  ExcludeClient : String
deriving DecidableEq, Repr

/-- The struct `hub`. A connection (`*Client`) is identified by its id, the fresh random hex
string `NewClient` gives it. `roomClients` maps a room id to the set of its connections, kept
as a list of ids; `send` is the send queue of every connection; `published` lists the
messages handed to Redis `Publish`; `presence` lists the calls of `trackServerPresence`;
`messageHandler` tells whether `SetMessageHandler` was called; `crashed` is set by a runtime
panic (a send on a closed channel, a second close). -/
structure Hub where
  serverID : String
  roomClients : Int → Option (List String)
  send : String → Chan
  published : List CrossServerMessage
  presence : List (Int × Bool)
  messageHandler : Bool
  crashed : Bool

/-- The hub and the game event engine of one process. -/
structure System (σ : Type) where
  hub : Hub
  engine : Engine σ

/-- `hub.GetRoomClients`. -/
def GetRoomClients (roomID : Int) (h : Hub) : List String :=
  match h.roomClients roomID with
  | some roomClients => roomClients
  | none => []

/-- `hub.GetRoomClientCount`. -/
def GetRoomClientCount (roomID : Int) (h : Hub) : Nat :=
  match h.roomClients roomID with
  | some roomClients => roomClients.length
  | none => 0

/-- `hub.trackServerPresence`. -/
def trackServerPresence (roomID : Int) (isJoining : Bool) (h : Hub) : Hub :=
  { h with presence := h.presence ++ [(roomID, isJoining)] }

/-- `hub.SendToClient`: a non-blocking send; a full queue drops the message silently. The
queue is not checked for being closed: a send on a closed queue is a runtime panic. -/
def SendToClient (clientID : String) (message : Bytes) (h : Hub) : Hub :=
  if (h.send clientID).closed then { h with crashed := true }
  else if (h.send clientID).buf.length < ClientSendBufferSize then
    { h with send := fun id =>
        if id = clientID then { h.send clientID with buf := (h.send clientID).buf ++ [message] }
        else h.send id }
  else h

/-- One iteration of the loop of `broadcastToLocalRoom`, for the connection `clientID` of the
room: skipped when it is the excluded connection; otherwise a non-blocking send, and when the
queue is full the queue is closed and the connection deleted from the room. After a panic the
loop does not run on. -/
def deliverOne (roomID : Int) (message : Bytes) (excludeClient : Option String) (h : Hub)
    (clientID : String) : Hub :=
  if h.crashed then h
  else if excludeClient = some clientID then h
  else if (h.send clientID).closed then { h with crashed := true }
  else if (h.send clientID).buf.length < ClientSendBufferSize then
    { h with send := fun id =>
        if id = clientID then { h.send clientID with buf := (h.send clientID).buf ++ [message] }
        else h.send id }
  else
    { h with
      send := fun id =>
        if id = clientID then { h.send clientID with closed := true } else h.send id
      roomClients := fun r =>
        if r = roomID then (h.roomClients roomID).map (fun cs => cs.filter (fun id => id ≠ clientID))
        else h.roomClients r }

/-- `hub.broadcastToLocalRoom`; `excludeClient` is the id of the excluded connection, the
only field of it that is read. -/
def broadcastToLocalRoom (roomID : Int) (message : Bytes) (excludeClient : Option String)
    (h : Hub) : Hub :=
  match h.roomClients roomID with
  | some roomClients => roomClients.foldl (deliverOne roomID message excludeClient) h
  | none => h

/-- `hub.handleRoomBroadcast`. -/
def handleRoomBroadcast (roomID : Int) (message : Bytes) (excludeClient : Option String)
    (h : Hub) : Hub :=
  broadcastToLocalRoom roomID message excludeClient h

/-- `hub.BroadcastToRoom`: the local broadcast, then the publication on the backbone. -/
def BroadcastToRoom (roomID : Int) (message : Bytes) (excludeClient : Option String)
    (h : Hub) : Hub :=
  let h1 := broadcastToLocalRoom roomID message excludeClient h
  if h1.crashed then h1
  else
    let excludeClientID := match excludeClient with
      | some id => id
      | none => ""
    { h1 with published := h1.published ++ [⟨h1.serverID, roomID, message, excludeClientID⟩] }

/-- `hub.handleRegister`. -/
def handleRegister (client : Client) (h : Hub) : Hub :=
  let roomClients := match h.roomClients client.SessionID with
    | some cs => cs
    | none => []
  let added := if client.ID ∈ roomClients then roomClients else roomClients ++ [client.ID]
  trackServerPresence client.SessionID true
    { h with roomClients := fun r =>
        if r = client.SessionID then some added else h.roomClients r }

/-- `hub.handleRedisMessage`; the argument is the decoded `CrossServerMessage`, `none` when
`json.Unmarshal` fails. -/
def handleRedisMessage (payload : Option CrossServerMessage) (h : Hub) : Hub :=
  match payload with
  | none => h
  | some crossServerMsg =>
    if crossServerMsg.ServerID = h.serverID then h
    else
      let excludeClient : Option String :=
        if crossServerMsg.ExcludeClient ≠ "" then
          (GetRoomClients crossServerMsg.RoomID h).find?
            (fun id => decide (id = crossServerMsg.ExcludeClient))
        else none
      broadcastToLocalRoom crossServerMsg.RoomID crossServerMsg.Message excludeClient h

/-- A call the engine makes on the hub, carried out. -/
def applyEvent (h : Hub) : Event → Hub
  | Event.SendToClient clientID message => SendToClient clientID message h
  | Event.BroadcastToRoom roomID message excludeClient =>
    BroadcastToRoom roomID message excludeClient h
  | Event.repo _ _ => h
  | Event.crashed => h

/-- `hub.handleUnregister`. It first calls the engine's disconnect hook, whose calls on the
hub are carried out in order, and then removes the connection from its room, closes its send
queue and deletes the room when it is empty. -/
def handleUnregister (env : Env σ) (client : Client) (sys : System σ) : System σ :=
  let roomID := client.SessionID
  let engine1 := if sys.hub.messageHandler then HandleClientDisconnect env client sys.engine
                 else sys.engine
  let h1 := (newEvents sys.engine engine1).foldl applyEvent sys.hub
  if h1.crashed then ⟨h1, engine1⟩
  else
    match h1.roomClients roomID with
    | some roomClients =>
      if client.ID ∈ roomClients then
        if (h1.send client.ID).closed then ⟨{ h1 with crashed := true }, engine1⟩
        else
          let remaining := roomClients.filter (fun id => id ≠ client.ID)
          let h2 : Hub :=
            { h1 with
              send := fun id =>
                if id = client.ID then { h1.send client.ID with closed := true } else h1.send id
              roomClients := fun r => if r = roomID then some remaining else h1.roomClients r }
          if remaining.length = 0 then
            ⟨trackServerPresence roomID false
              { h2 with roomClients := fun r => if r = roomID then none else h2.roomClients r },
             engine1⟩
          else ⟨h2, engine1⟩
      else ⟨h1, engine1⟩
    | none => ⟨h1, engine1⟩

/-- The hub as `newHub` builds it, with the game event engine registered as its handler. -/
def newHub (serverID : String) : Hub :=
  { serverID := serverID, roomClients := fun _ => none, send := fun _ => ⟨[], false⟩,
    published := [], presence := [], messageHandler := true, crashed := false }

/-! ## Predicates used to state the properties of the engine -/

/-- The repository call writes a session's status or current question index. -/
def RepoCall.isSessionWrite : RepoCall → Bool
  | RepoCall.StartSession _ => true
  | RepoCall.EndSession _ => true
  | RepoCall.UpdateSessionQuestion _ _ => true
  | _ => false

/-- The event is a repository call that writes a session's status or current question
index. -/
def Event.isSessionWrite : Event → Bool
  | Event.repo call _ => call.isSessionWrite
  | _ => false

/-- The index handed to `UpdateSessionQuestion`, if the event is such a call. -/
def Event.persistedIndex : Event → Option Int
  | Event.repo (RepoCall.UpdateSessionQuestion _ questionIndex) _ => some questionIndex
  | _ => none

/-- From `s` to `s'` the log only grew, and every new event satisfies `P`. -/
def Grows (P : Event → Prop) (s s' : Engine σ) : Prop :=
  ∃ l : List Event, s'.log = s.log ++ l ∧ ∀ e ∈ l, P e

/-- The two questions agree in everything but the is-correct flags of their answers. -/
def sameButFlags (q1 q2 : Question) : Prop :=
  q1.ID = q2.ID ∧ q1.QuizID = q2.QuizID ∧ q1.Question = q2.Question ∧ q1.Type_ = q2.Type_ ∧
  q1.TimeLimit = q2.TimeLimit ∧ q1.Index = q2.Index ∧
  q1.Answers.map (fun a => a.Text) = q2.Answers.map (fun a => a.Text)

/-- The message types whose serialization `broadcastToRoom` caches. -/
def cachedType (type : WSMessageType) : Prop :=
  type = WSMsgTypeLeaderboard ∨ type = WSMsgTypeQuestionEnd ∨ type = WSMsgTypeQuizStart

instance (type : WSMessageType) : Decidable (cachedType type) := by
  unfold cachedType; exact inferInstance

/-- Every entry of the marshal cache holds the bytes of a message of the key's type whose
timestamp lies in the key's Unix second. -/
def CacheOK (s : Engine σ) : Prop :=
  ∀ key bytes, (key, bytes) ∈ s.marshalCache →
    bytes.message.Type_ = key.Type_ ∧ unixSeconds bytes.message.Timestamp = key.unix

/-- A use of the marshal cache: a broadcast through `broadcastToRoom`, or the expiry of an
entry. -/
inductive CacheOp where
  | broadcast (sessionID : Int) (message : WSMessage) (excludeClient : Option Client)
  | expire (key : CacheKey)

/-- One use of the marshal cache, carried out. -/
def CacheOp.run : CacheOp → Engine σ → Engine σ
  | CacheOp.broadcast sessionID message excludeClient, s =>
    broadcastToRoom sessionID message excludeClient s
  | CacheOp.expire key, s => marshalCacheDelete key s

/-- A sequence of uses of the marshal cache, carried out in order. -/
def runCacheOps (ops : List CacheOp) (s : Engine σ) : Engine σ :=
  ops.foldl (fun s op => op.run s) s

/-- A question start or stop on a room's timer. -/
inductive TimerOp where
  | start (sessionID timeLimit : Int)
  | stop (sessionID : Int)
deriving DecidableEq, Repr

/-- One question start or stop, carried out. -/
def TimerOp.run : TimerOp → Engine σ → Engine σ
  | TimerOp.start sessionID timeLimit, s => startQuestionTimer sessionID timeLimit s
  | TimerOp.stop sessionID, s => stopQuestionTimer sessionID s

/-- A sequence of question starts and stops, carried out in order. -/
def runTimerOps (ops : List TimerOp) (s : Engine σ) : Engine σ :=
  ops.foldl (fun s op => op.run s) s

/-- The question timers of a room that are armed: created for the room and not stopped. -/
def armedTimers (sessionID : Int) (s : Engine σ) : List Scheduled :=
  s.scheduled.filter (fun t =>
    decide (t.task = Deferred.handleQuestionTimeout sessionID) && !t.stopped)

/-- The timer bookkeeping is consistent: the handles of the scheduled work are their
positions, and every armed question timer of a room is the one the timer map holds for that
room. -/
def TimersOK (s : Engine σ) : Prop :=
  s.scheduled.map (fun t => t.id) = List.range s.scheduled.length ∧
  ∀ sessionID, ∀ t ∈ armedTimers sessionID s, s.questionTimers.lookup sessionID = some t.id

/-- The registry is well formed at a room: its connections are listed once each and their
send queues are open, and no panic has occurred. -/
def RoomOK (h : Hub) (roomID : Int) (clients : List String) : Prop :=
  h.roomClients roomID = some clients ∧ clients.Nodup ∧
  (∀ id ∈ clients, (h.send id).closed = false) ∧ h.crashed = false

/-- What one iteration of the loop of `broadcastToLocalRoom` makes of the send queue of a
connection of the room. -/
def queueAfterBroadcast (message : Bytes) (excludeClient : Option String) (h : Hub)
    (clientID : String) : Chan :=
  if excludeClient = some clientID then h.send clientID
  else if (h.send clientID).buf.length < ClientSendBufferSize then
    { h.send clientID with buf := (h.send clientID).buf ++ [message] }
  else { h.send clientID with closed := true }

/-- The connection stays in its room through a local broadcast: it is the excluded one, or
its queue has room for the message. -/
def keptByBroadcast (excludeClient : Option String) (h : Hub) (clientID : String) : Bool :=
  decide (excludeClient = some clientID) ||
    decide ((h.send clientID).buf.length < ClientSendBufferSize)

/-- If the event is an `UpdateSessionQuestion` call, the index it persists is the successor of
the current index of the session that `GetSessionByID` returns in `s`, it is not negative, and
it is below the length of the question list that `GetQuestionListByQuiz` returns in `s`. -/
def PersistsNext (env : Env σ) (sessionID : Int) (s : Engine σ) (e : Event) : Prop :=
  ∀ idx, e.persistedIndex = some idx →
    ∃ session questions,
      env.repos.GetSessionByID s.db sessionID = some session ∧
      env.repos.GetQuestionListByQuiz s.db session.QuizID = some questions ∧
      idx = session.CurrentQuestionIndex + 1 ∧ 0 ≤ idx ∧ idx < questions.length


/-- Every entry of the marshal cache was stored by one of the broadcasts of `ops`: it holds the
serialization of a message that was broadcast to the key's room, under the key made of that
message's type and Unix second. -/
def CacheFrom (ops : List CacheOp) (s : Engine σ) : Prop :=
  ∀ key bytes, (key, bytes) ∈ s.marshalCache →
    key.Type_ = bytes.message.Type_ ∧ key.unix = unixSeconds bytes.message.Timestamp ∧
    ∃ excludeClient, CacheOp.broadcast key.sessionID bytes.message excludeClient ∈ ops

/-- The in-memory store with the leaderboard query failing. -/
def noLeaderboard : Repositories Store :=
  { memRepos with GetSessionLeaderboard := fun _ _ => none }

/-- The environment `memEnv` over the store whose leaderboard query fails. -/
def noLeaderboardEnv : Env Store := { memEnv with repos := noLeaderboard }

/-- A leaderboard message for room 7 that shows the player `ann` with the given score, stamped
the given number of milliseconds after the start of the clock of `memEnv`. -/
def boardMessage (score : Int) (millis : Nat) : WSMessage :=
  ⟨WSMsgTypeLeaderboard,
   Payload.leaderboard 7 (formatLeaderboard [⟨2, "ann", score, false, 1⟩]) 5 "auto_next_question"
     true (memEnv.clock millis),
   memEnv.clock millis⟩


/-- Each goroutine or timer registered in `s'` was already registered in `s`, under the same
handle and with the same work, or is the expiry of an entry of the marshal cache. -/
def SchedFrom (s s' : Engine σ) : Prop :=
  ∀ t ∈ s'.scheduled,
    (∃ t0 ∈ s.scheduled, t.id = t0.id ∧ t.task = t0.task) ∨
    ∃ key, t.task = Deferred.marshalCacheDelete key


/-- The engine after the host of the waiting demo session sent `start_quiz` and, before the
first-question step that `start_quiz` scheduled for one second later ran, `end_quiz`. -/
def startedThenEnded : Engine Store :=
  handleEndGame memEnv hostClient (bareMessage WSMsgTypeEndQuiz)
    (handleStartGame memEnv hostClient (bareMessage WSMsgTypeStartQuiz)
      (newEngine (demoStore SessionStatusWaiting 0)))

/-- As `startedThenEnded`, with a `next_question` of the host between the two messages. -/
def advancedThenEnded : Engine Store :=
  handleEndGame memEnv hostClient (bareMessage WSMsgTypeEndQuiz)
    (handleNextQuestion memEnv hostClient (bareMessage WSMsgTypeNextQuestion)
      (handleStartGame memEnv hostClient (bareMessage WSMsgTypeStartQuiz)
        (newEngine (demoStore SessionStatusWaiting 0))))

/-- The status and the current question index of the stored session with the given id. -/
def storedState (db : Store) (sessionID : Int) : Option (SessionStatus × Int) :=
  (memRepos.GetSessionByID db sessionID).map (fun x => (x.Status, x.CurrentQuestionIndex))


/-- A `pong` message, used to fill send queues. -/
def pongBytes : Bytes := jsonMarshal ⟨WSMsgTypePong, Payload.nil, 0⟩

/-- A hub with the connections `c-host`, `c-ann` and `c-bob` in room 7 and `c-eve` in room 8.
The send queue of `c-bob` is full; the other queues are empty. -/
def demoHub : Hub :=
  { newHub "server-a" with
    roomClients := fun r =>
      if r = 7 then some ["c-host", "c-ann", "c-bob"]
      else if r = 8 then some ["c-eve"] else none
    send := fun id =>
      if id = "c-bob" then ⟨List.replicate ClientSendBufferSize pongBytes, false⟩
      else ⟨[], false⟩ }

/-- A hub whose room 7 holds the single connection `c-ann`, with the given number of messages
waiting in its send queue, and whose room 8 holds `c-eve`; over it, the engine on the active
demo session. -/
def lastInRoom (queued : Nat) : System Store :=
  { hub :=
      { newHub "server-a" with
        roomClients := fun r =>
          if r = 7 then some ["c-ann"] else if r = 8 then some ["c-eve"] else none
        send := fun id =>
          if id = "c-ann" then ⟨List.replicate queued pongBytes, false⟩ else ⟨[], false⟩
        presence := [(7, true), (8, true)] },
    engine := newEngine (demoStore SessionStatusActive 0) }


/-- A connection to room 7 as `NewClient` builds it, before any join: participant id 0, no
user id, empty nickname, not host. -/
def freshClient : Client := ⟨"c-new", 7, 0, none, "", false⟩

/-- The connection `c-bob` of `demoHub`, joined to room 7 as participant 3. -/
def bobClient : Client := ⟨"c-bob", 7, 3, some 300, "bob", false⟩

/-- No room of the registry is empty. -/
def NoEmptyRoom (h : Hub) : Prop := ∀ roomID, h.roomClients roomID ≠ some []


/-- The environment `memEnv` with the score update of the store replaced by `update`. -/
def scoreUpdateEnv (update : Store → Int → Int → Option Store) : Env Store :=
  { memEnv with repos := { memRepos with UpdateParticipantScore := update } }


/-! ## `helpers/session/session_helper.go`: join codes -/

/-- The number of bytes of the UTF-8 encoding of a character. -/
def utf8Len (c : Char) : Nat :=
  if c.toNat < 0x80 then 1 else if c.toNat < 0x800 then 2 else if c.toNat < 0x10000 then 3 else 4

/-- Go's `len` on a string: the number of bytes. Strings are taken to be valid UTF-8. -/
def goLen (s : String) : Nat := (s.data.map utf8Len).sum

/-- Go's `unicode.ToUpper` on one character. On ASCII it maps `a`..`z` to `A`..`Z`; beyond
ASCII it follows the Unicode case tables, which are the parameter `upperTable`. -/
def toUpperRune (upperTable : Char → Char) (c : Char) : Char :=
  if c.toNat ≤ 127 then
    (if 97 ≤ c.toNat ∧ c.toNat ≤ 122 then Char.ofNat (c.toNat - 32) else c)
  else upperTable c

/-- Go's `strings.ToUpper`: every character mapped by `unicode.ToUpper`. -/
def ToUpper (upperTable : Char → Char) (s : String) : String :=
  ⟨s.data.map (toUpperRune upperTable)⟩

/-- The two entries of the Unicode upper-case mapping that send a character outside ASCII to
an ASCII letter: the dotless i (U+0131) to `I` and the long s (U+017F) to `S`. Every other
character is left as it is here. -/
def foldingUpper (c : Char) : Char :=
  if c.toNat = 0x131 then Char.ofNat 73 else if c.toNat = 0x17F then Char.ofNat 83 else c

/-- The constant `charset` of `GenerateJoinCode`. -/
def joinCodeCharset : String := "ABCDEFGHIJKLMNOPQRSTUVWXYZ0123456789"

/-- The constant `codeLength` of `GenerateJoinCode`. -/
def codeLength : Nat := 6

/-- Go's `rand.Int(rand.Reader, max)`: an error of the random source, or a number in
`0 ≤ n < max`. The source `draw` yields a raw number, which is reduced below `max`; every
number below `max` is a possible outcome. -/
def randInt (draw : ρ → Option (Nat × ρ)) (max : Nat) (r : ρ) : Option (Nat × ρ) :=
  match draw r with
  | none => none
  | some (raw, r') => some (raw % max, r')

/-- The loop of `helpers.GenerateJoinCode`: `remaining` characters are still to be drawn and
`result` holds those drawn so far. The index into `charset` is below its length. -/
def generateLoop (draw : ρ → Option (Nat × ρ)) : Nat → List Char → ρ → Option String × ρ
  | 0, result, r => (some ⟨result⟩, r)
  | remaining + 1, result, r =>
    match randInt draw joinCodeCharset.length r with
    | none => (none, r)
    | some (num, r') =>
      generateLoop draw remaining (result ++ [joinCodeCharset.data.getD num ' ']) r'

/-- `helpers.GenerateJoinCode`: `none` stands for the error of the random source. -/
def helpers.GenerateJoinCode (draw : ρ → Option (Nat × ρ)) (r : ρ) : Option String × ρ :=
  generateLoop draw codeLength [] r

/-- The test of `ValidateJoinCode` on one character of the upper-cased code: it lies in
`A`..`Z` (65..90) or in `0`..`9` (48..57). -/
def isCodeChar (char : Char) : Bool :=
  (decide (65 ≤ char.toNat) && decide (char.toNat ≤ 90)) ||
  (decide (48 ≤ char.toNat) && decide (char.toNat ≤ 57))

/-- `helpers.ValidateJoinCode`. -/
def ValidateJoinCode (upperTable : Char → Char) (code : String) : Bool :=
  if goLen code ≠ 6 then false
  else (ToUpper upperTable code).data.all isCodeChar

/-- `helpers.NormalizeJoinCode`. -/
def NormalizeJoinCode (upperTable : Char → Char) (code : String) : String :=
  ToUpper upperTable (TrimSpace code)

/-- A random source that reads its raw numbers off a list and fails when the list is used
up. -/
def listSource : List Nat → Option (Nat × List Nat)
  | [] => none
  | raw :: rest => some (raw, rest)

/-- The character is an ASCII letter or an ASCII digit. -/
def asciiAlnum (c : Char) : Bool :=
  (decide (65 ≤ c.toNat) && decide (c.toNat ≤ 90)) ||
  (decide (97 ≤ c.toNat) && decide (c.toNat ≤ 122)) ||
  (decide (48 ≤ c.toNat) && decide (c.toNat ≤ 57))


/-! ## `pkg/exception`, `pkg/errors` and the repositories of the HTTP services -/

/-- An `error` returned by a repository: whether it is `pgx.ErrNoRows`, and its text. -/
structure DbError where
  noRows : Bool
  text : String
deriving DecidableEq, Repr

/-- The struct `exception.AppError` (metadata and cause left out). -/
structure AppError where
  Status : Nat
  Code : String
  Message : String
  Details : String
deriving DecidableEq, Repr

/-- `exception.NewAppError`. -/
def NewAppError (status : Nat) (code message : String) : AppError := ⟨status, code, message, ""⟩

/-- `AppError.WithDetails`. -/
def AppError.WithDetails (e : AppError) (details : String) : AppError :=
  { e with Details := details }

def BadRequest (code message : String) : AppError := NewAppError 400 code message
def NotFound (code message : String) : AppError := NewAppError 404 code message
def Forbidden (code message : String) : AppError := NewAppError 403 code message
def InternalError (code message : String) : AppError := NewAppError 500 code message

def CodeInternal : String := "err.internal"
def CodeBadRequest : String := "err.bad_request"
def CodeNotFound : String := "err.not_found"
def CodeUnauthorized : String := "err.unauthorized"
def CodeForbidden : String := "err.forbidden"
def CodeDBError : String := "err.db_error"
def ErrUnauthorizedAccess : String := "Unauthorized access"
def ErrForbidden : String := "Access forbidden"
def ErrSessionNotFound : String := "Session not found"
def ErrSessionFull : String := "Session is full"
def ErrSessionNotJoinable : String := "Session is not joinable"

/-- The message constants `errors.ErrQuizNotFound` and `errors.ErrQuestionNotFound`, whose
declarations are not among the sources. -/
structure ErrorTexts where
  ErrQuizNotFound : String
  ErrQuestionNotFound : String
deriving DecidableEq, Repr

/-- The struct `dtos.UserSession`, with the two fields the services read. -/
structure UserSession where
  UserID : Int
  Username : String
deriving DecidableEq, Repr

/-- The enum `models.QuizVisibility`. -/
abbrev QuizVisibility := String

def QuizVisibilityPrivate : QuizVisibility := "private"
def QuizVisibilityPublished : QuizVisibility := "published"

/-- The struct `models.Quiz`, with the fields the session and question services read. -/
structure Quiz where
  ID : Int
  Title : String
  OwnerID : Int
  Visibility : QuizVisibility
  MaxParticipants : Option Int
deriving DecidableEq, Repr

/-- The repository methods that the session, question and validation services call. Each is
a thin wrapper around a generated query; the queries are not among the sources, so the
methods are parameters. A read returns its result or an error; a write returns its result
and the new store, or an error and the store as it was. -/
structure ServiceRepos (σ : Type) where
  GetQuizDetail : σ → Int → Bool → Except DbError Quiz
  UpdateTotalQuestions : σ → Int → Int → Except DbError σ
  GetQuestionByID : σ → Int → Except DbError Question
  CountQuestionsByQuiz : σ → Int → Except DbError Int
  UpdateQuestion : σ → Question → Except DbError (Question × σ)
  DeleteQuestion : σ → Int → Except DbError σ
  UpdateQuestionIndexesBatch : σ → List Int → List Int → Except DbError σ
  CheckJoinCodeExists : σ → String → Except DbError Bool
  CreateSession : σ → QuizSession → Except DbError (QuizSession × σ)
  GetSessionByJoinCode : σ → String → Except DbError QuizSession
  GetSessionParticipants : σ → Int → Except DbError (List SessionParticipant)
  AddParticipant : σ → SessionParticipant → Except DbError (SessionParticipant × σ)
  UpdateSession : σ → QuizSession → Except DbError (QuizSession × σ)

/-- A repository call of a service, as recorded in the log. -/
inductive SvcCall where
  | GetQuizDetail (id : Int) (includeQuestions : Bool)
  | UpdateTotalQuestions (quizID totalQuestions : Int)
  | GetQuestionByID (id : Int)
  | CountQuestionsByQuiz (quizID : Int)
  | UpdateQuestion (question : Question)
  | DeleteQuestion (id : Int)
  | UpdateQuestionIndexesBatch (questionIDs indexes : List Int)
  | CheckJoinCodeExists (code : String)
  | CreateSession (session : QuizSession)
  | GetSessionByJoinCode (joinCode : String)
  | GetSessionParticipants (sessionID : Int)
  | AddParticipant (participant : SessionParticipant)
  | UpdateSession (session : QuizSession)
deriving DecidableEq, Repr

/-- The call writes to the store. -/
def SvcCall.isWrite : SvcCall → Bool
  | SvcCall.UpdateTotalQuestions _ _ => true
  | SvcCall.UpdateQuestion _ => true
  | SvcCall.DeleteQuestion _ => true
  | SvcCall.UpdateQuestionIndexesBatch _ _ => true
  | SvcCall.CreateSession _ => true
  | SvcCall.AddParticipant _ => true
  | SvcCall.UpdateSession _ => true
  | _ => false

/-- The state that the HTTP services run on: the store, the random source, the number of
calls of `time.Now()` so far, and the repository calls made, each with whether it
succeeded. -/
structure Svc (σ ρ : Type) where
  db : σ
  rand : ρ
  ticks : Nat
  calls : List (SvcCall × Bool)

/-- What the services are built over: the repositories, the random source, the clock (the
Unix time in seconds at each reading) and the two message constants. -/
structure SvcEnv (σ ρ : Type) where
  repos : ServiceRepos σ
  draw : ρ → Option (Nat × ρ)
  unixNow : Nat → Int
  texts : ErrorTexts

variable {ρ : Type}

/-- A repository call is recorded with its outcome. -/
def Svc.record (s : Svc σ ρ) (call : SvcCall) (ok : Bool) : Svc σ ρ :=
  { s with calls := s.calls ++ [(call, ok)] }

instance [DecidableEq ε] [DecidableEq α] : DecidableEq (Except ε α)
  | Except.ok a, Except.ok b =>
    if h : a = b then isTrue (by rw [h]) else isFalse (fun h1 => h (Except.ok.inj h1))
  | Except.error a, Except.error b =>
    if h : a = b then isTrue (by rw [h]) else isFalse (fun h1 => h (Except.error.inj h1))
  | Except.ok _, Except.error _ => isFalse (fun h => nomatch h)
  | Except.error _, Except.ok _ => isFalse (fun h => nomatch h)

/-- Whether a repository call returned without an error. -/
def succeeded : Except DbError α → Bool
  | Except.ok _ => true
  | Except.error _ => false

/-- A read of the store, recorded. -/
def svcRead (s : Svc σ ρ) (call : SvcCall) (result : Except DbError α) :
    Except DbError α × Svc σ ρ :=
  (result, s.record call (succeeded result))

/-- A write to the store that returns a value, recorded. -/
def svcWrite (s : Svc σ ρ) (call : SvcCall) (result : Except DbError (α × σ)) :
    Except DbError α × Svc σ ρ :=
  match result with
  | Except.ok (value, db') => (Except.ok value, { s with db := db' }.record call true)
  | Except.error e => (Except.error e, s.record call false)

/-- A write to the store that returns nothing but an error, recorded. -/
def svcExec (s : Svc σ ρ) (call : SvcCall) (result : Except DbError σ) :
    Option DbError × Svc σ ρ :=
  match result with
  | Except.ok db' => (none, { s with db := db' }.record call true)
  | Except.error e => (some e, s.record call false)


/-! ## `internal/transformers/question_transformer.go` -/

/-- `transformers.ValidateAnswersFormat`: `none` when the answers are accepted, otherwise the
text of the error. A question type other than the three of the `switch` is accepted. -/
def ValidateAnswersFormat (answers : List AnswerData) (questionType : QuestionType) :
    Option String :=
  if questionType = QuestionTypeSingleChoice then
    if answers.length < 2 then some "single choice questions must have at least 2 options"
    else if (answers.filter (fun answer => answer.IsCorrect)).length ≠ 1 then
      some "single choice questions must have exactly 1 correct answer"
    else none
  else if questionType = QuestionTypeMultipleChoice then
    if answers.length < 2 then some "multiple choice questions must have at least 2 options"
    else if (answers.filter (fun answer => answer.IsCorrect)).length = 0 then
      some "multiple choice questions must have at least 1 correct answer"
    else none
  else none

/-! ## `internal/services/validation_service.go` -/

/-- `validationService.ValidateQuizOwnership`. -/
def ValidateQuizOwnership (env : SvcEnv σ ρ) (quizID userID : Int) (includeQuestions : Bool)
    (s : Svc σ ρ) : Except AppError Quiz × Svc σ ρ :=
  let r := svcRead s (SvcCall.GetQuizDetail quizID includeQuestions)
    (env.repos.GetQuizDetail s.db quizID includeQuestions)
  match r.1 with
  | Except.error err =>
    if err.noRows then (Except.error (NotFound CodeNotFound env.texts.ErrQuizNotFound), r.2)
    else (Except.error (InternalError CodeDBError err.text), r.2)
  | Except.ok quiz =>
    if quiz.OwnerID ≠ userID then
      (Except.error ((Forbidden CodeUnauthorized ErrUnauthorizedAccess).WithDetails
        "Only the quiz owner can perform this action"), r.2)
    else (Except.ok quiz, r.2)

/-- `validationService.ValidateQuestionOwnership`. -/
def ValidateQuestionOwnership (env : SvcEnv σ ρ) (questionID userID : Int) (s : Svc σ ρ) :
    Except AppError (Question × Quiz) × Svc σ ρ :=
  let r := svcRead s (SvcCall.GetQuestionByID questionID)
    (env.repos.GetQuestionByID s.db questionID)
  match r.1 with
  | Except.error err =>
    if err.noRows then (Except.error (NotFound CodeNotFound env.texts.ErrQuestionNotFound), r.2)
    else (Except.error (InternalError CodeDBError err.text), r.2)
  | Except.ok question =>
    let v := ValidateQuizOwnership env question.QuizID userID false r.2
    match v.1 with
    | Except.error appErr => (Except.error appErr, v.2)
    | Except.ok quiz => (Except.ok (question, quiz), v.2)

/-! ## `internal/services/question_service.go` -/

/-- The struct `dtos.UpdateQuestionRequest`. -/
structure UpdateQuestionRequest where
  QuestionID : Int
  Question : String
  Type_ : QuestionType
  Answers : List AnswerData
  TimeLimit : TimeLimitType
deriving DecidableEq, Repr

/-- The struct `dtos.QuestionIndexesPayload`. -/
structure QuestionIndexesPayload where
  QuestionID : Int
  Index : Int
deriving DecidableEq, Repr

/-- `questionService.updateQuizTotalQuestions`; its error is dropped by both callers. -/
def updateQuizTotalQuestions (env : SvcEnv σ ρ) (quizID : Int) (s : Svc σ ρ) : Svc σ ρ :=
  let r := svcRead s (SvcCall.CountQuestionsByQuiz quizID)
    (env.repos.CountQuestionsByQuiz s.db quizID)
  match r.1 with
  | Except.error _ => r.2
  | Except.ok totalQuestions =>
    (svcExec r.2 (SvcCall.UpdateTotalQuestions quizID (int32 totalQuestions))
      (env.repos.UpdateTotalQuestions r.2.db quizID (int32 totalQuestions))).2

/-- `questionService.UpdateQuestion`. The result of `ValidateQuestionOwnership` is not
assigned. The question handed to the repository has the zero value for the fields the
request does not carry; `time.Now()` is read once for `UpdatedAt`. -/
def UpdateQuestion (env : SvcEnv σ ρ) (authUser : UserSession) (req : UpdateQuestionRequest)
    (s : Svc σ ρ) : Except AppError Question × Svc σ ρ :=
  let s1 := (ValidateQuestionOwnership env req.QuestionID authUser.UserID s).2
  match ValidateAnswersFormat req.Answers req.Type_ with
  | some err =>
    (Except.error ((BadRequest CodeBadRequest err).WithDetails
      "Invalid question answers format"), s1)
  | none =>
    let question : Question :=
      ⟨req.QuestionID, 0, req.Question, req.Type_, req.Answers, req.TimeLimit, 0⟩
    let s2 := { s1 with ticks := s1.ticks + 1 }
    let r := svcWrite s2 (SvcCall.UpdateQuestion question)
      (env.repos.UpdateQuestion s2.db question)
    match r.1 with
    | Except.error err => (Except.error (InternalError CodeDBError err.text), r.2)
    | Except.ok updatedQuestion => (Except.ok updatedQuestion, r.2)

/-- `questionService.UpdateQuestionIndex`; `none` is the nil error. Only the first entry of
the request is validated. -/
def UpdateQuestionIndex (env : SvcEnv σ ρ) (authUser : UserSession)
    (indexes : List QuestionIndexesPayload) (s : Svc σ ρ) : Option AppError × Svc σ ρ :=
  match indexes with
  | [] => (some (BadRequest CodeBadRequest "No question indexes to update"), s)
  | first :: _ =>
    let v := ValidateQuestionOwnership env first.QuestionID authUser.UserID s
    match v.1 with
    | Except.error appErr => (some appErr, v.2)
    | Except.ok _ =>
      let questionIDs := indexes.map (fun indexPayload => indexPayload.QuestionID)
      let newIndexes := indexes.map (fun indexPayload => indexPayload.Index)
      let r := svcExec v.2 (SvcCall.UpdateQuestionIndexesBatch questionIDs newIndexes)
        (env.repos.UpdateQuestionIndexesBatch v.2.db questionIDs newIndexes)
      match r.1 with
      | some err =>
        (some ((InternalError CodeDBError err.text).WithDetails
          "Failed to update question indexes"), r.2)
      | none => (none, r.2)

/-- `questionService.DeleteQuestion`; `none` is the nil error. -/
def DeleteQuestion (env : SvcEnv σ ρ) (authUser : UserSession) (questionID : Int)
    (s : Svc σ ρ) : Option AppError × Svc σ ρ :=
  let v := ValidateQuestionOwnership env questionID authUser.UserID s
  match v.1 with
  | Except.error appErr => (some appErr, v.2)
  | Except.ok (question, _) =>
    let r := svcExec v.2 (SvcCall.DeleteQuestion questionID)
      (env.repos.DeleteQuestion v.2.db questionID)
    match r.1 with
    | some err => (some (InternalError CodeDBError err.text), r.2)
    | none => (none, updateQuizTotalQuestions env question.QuizID r.2)


/-! ## `sessionRepository.GenerateJoinCode` -/

/-- The errors that `sessionRepository.GenerateJoinCode` returns: the error of the random
source, the error of the existence check, or the exhaustion of the retries. -/
inductive JoinCodeError where
  | random
  | storage (err : DbError)
  | exhausted
deriving DecidableEq, Repr

/-- `error.Error()` on the three errors; the text of the random source's error is the
parameter `randomText`. -/
def JoinCodeError.Error (randomText : String) : JoinCodeError → String
  | JoinCodeError.random => randomText
  | JoinCodeError.storage err => err.text
  | JoinCodeError.exhausted => "failed to generate unique join code after 10 attempts"

/-- The constant `maxRetries` of `sessionRepository.GenerateJoinCode`. -/
def maxRetries : Nat := 10

/-- The outcome of a run of `sessionRepository.GenerateJoinCode`: what it returns, the state
it leaves, and, for reference, the codes that `helpers.GenerateJoinCode` produced during the
run, in order. -/
structure JoinCodeRun (σ ρ : Type) where
  result : Except JoinCodeError String
  state : Svc σ ρ
  generated : List String

/-- The loop `for range maxRetries` of `sessionRepository.GenerateJoinCode`, with `retries`
iterations left. -/
def joinCodeLoop (env : SvcEnv σ ρ) : Nat → List String → Svc σ ρ → JoinCodeRun σ ρ
  | 0, generated, s => ⟨Except.error JoinCodeError.exhausted, s, generated⟩
  | retries + 1, generated, s =>
    match helpers.GenerateJoinCode env.draw s.rand with
    | (none, rand') => ⟨Except.error JoinCodeError.random, { s with rand := rand' }, generated⟩
    | (some code, rand') =>
      let s1 := { s with rand := rand' }
      let r := svcRead s1 (SvcCall.CheckJoinCodeExists code)
        (env.repos.CheckJoinCodeExists s1.db code)
      match r.1 with
      | Except.error err => ⟨Except.error (JoinCodeError.storage err), r.2, generated ++ [code]⟩
      | Except.ok isTaken =>
        if ¬ isTaken then ⟨Except.ok code, r.2, generated ++ [code]⟩
        else joinCodeLoop env retries (generated ++ [code]) r.2

/-- `sessionRepository.GenerateJoinCode`. -/
def sessionRepository.GenerateJoinCode (env : SvcEnv σ ρ) (s : Svc σ ρ) : JoinCodeRun σ ρ :=
  joinCodeLoop env maxRetries [] s

/-! ## `internal/services/session_service.go` -/

/-- The struct `dtos.CreateSessionResponse`. -/
structure CreateSessionResponse where
  SessionID : Int
  JoinCode : String
  JoinURL : String
  QuizTitle : String
  HostName : String
  HostUserID : Option Int
  IsHost : Bool
  MaxParticipants : Option Int
deriving DecidableEq, Repr

/-- `sessionService.CreateSession`; `authUser` is `none` for an anonymous host. The text of
the random source's error is not known and is left empty. -/
def CreateSession (env : SvcEnv σ ρ) (authUser : Option UserSession) (quizID : Int)
    (s : Svc σ ρ) : Except AppError CreateSessionResponse × Svc σ ρ :=
  let r := svcRead s (SvcCall.GetQuizDetail quizID false) (env.repos.GetQuizDetail s.db quizID false)
  match r.1 with
  | Except.error err =>
    if err.noRows then (Except.error (NotFound CodeNotFound env.texts.ErrQuizNotFound), r.2)
    else (Except.error (InternalError CodeDBError err.text), r.2)
  | Except.ok quiz =>
    if quiz.Visibility ≠ QuizVisibilityPublished ∧
        (authUser = none ∨ some quiz.OwnerID ≠ authUser.map (fun u => u.UserID)) then
      (Except.error ((Forbidden CodeForbidden ErrForbidden).WithDetails
        "You don't have permission to host this quiz"), r.2)
    else
      let g := sessionRepository.GenerateJoinCode env r.2
      match g.result with
      | Except.error err => (Except.error (InternalError CodeInternal (err.Error "")), g.state)
      | Except.ok joinCode =>
        let host : Int × String × Svc σ ρ := match authUser with
          | some u => (u.UserID, u.Username, g.state)
          | none =>
            (1000000000 + env.unixNow g.state.ticks, "Anonymous Host",
              { g.state with ticks := g.state.ticks + 1 })
        let hostID := host.1
        let hostName := host.2.1
        let session : QuizSession :=
          ⟨0, quizID, some hostID, joinCode, SessionStatusWaiting, 0, quiz.MaxParticipants, 0⟩
        let c := svcWrite host.2.2 (SvcCall.CreateSession session)
          (env.repos.CreateSession host.2.2.db session)
        match c.1 with
        | Except.error err => (Except.error (InternalError CodeInternal err.text), c.2)
        | Except.ok createdSession =>
          let hostParticipant : SessionParticipant :=
            ⟨0, createdSession.ID, some hostID, hostName, 0, true⟩
          let a := svcWrite c.2 (SvcCall.AddParticipant hostParticipant)
            (env.repos.AddParticipant c.2.db hostParticipant)
          let s5 := match a.1 with
            | Except.error _ => a.2
            | Except.ok _ =>
              let counted := { createdSession with ParticipantCount := 1 }
              (svcWrite a.2 (SvcCall.UpdateSession counted)
                (env.repos.UpdateSession a.2.db counted)).2
          (Except.ok
            ⟨createdSession.ID, createdSession.JoinCode,
             "/games/join/" ++ createdSession.JoinCode, quiz.Title, hostName, some hostID, true,
             quiz.MaxParticipants⟩, s5)


/-- `sessionService.JoinSession`; `authUser` is `none` for an anonymous guest. -/
def JoinSession (env : SvcEnv σ ρ) (authUser : Option UserSession) (joinCode : String)
    (s : Svc σ ρ) : Except AppError SessionParticipant × Svc σ ρ :=
  let r := svcRead s (SvcCall.GetSessionByJoinCode joinCode)
    (env.repos.GetSessionByJoinCode s.db joinCode)
  match r.1 with
  | Except.error err =>
    if err.noRows then (Except.error (NotFound CodeNotFound ErrSessionNotFound), r.2)
    else (Except.error (InternalError CodeDBError err.text), r.2)
  | Except.ok session =>
    if session.Status ≠ SessionStatusWaiting then
      (Except.error (BadRequest CodeBadRequest ErrSessionNotJoinable), r.2)
    else if (match session.MaxParticipants with
        | some maxParticipants => decide (session.ParticipantCount ≥ maxParticipants)
        | none => false) = true then
      (Except.error (BadRequest CodeBadRequest ErrSessionFull), r.2)
    else
      let found : Option SessionParticipant × Svc σ ρ := match authUser with
        | none => (none, r.2)
        | some u =>
          let p := svcRead r.2 (SvcCall.GetSessionParticipants session.ID)
            (env.repos.GetSessionParticipants r.2.db session.ID)
          match p.1 with
          | Except.error _ => (none, p.2)
          | Except.ok participants =>
            (participants.find? (fun participant => decide (participant.UserID = some u.UserID)),
             p.2)
      match found.1 with
      | some participant => (Except.ok participant, found.2)
      | none =>
        let guest : String × Int × Svc σ ρ := match authUser with
          | some u => (u.Username, u.UserID, found.2)
          | none =>
            ("Btaskee's Guest", 1000000000 + env.unixNow found.2.ticks,
              { found.2 with ticks := found.2.ticks + 1 })
        let participant : SessionParticipant :=
          ⟨0, session.ID, some guest.2.1, guest.1, 0, false⟩
        let a := svcWrite guest.2.2 (SvcCall.AddParticipant participant)
          (env.repos.AddParticipant guest.2.2.db participant)
        match a.1 with
        | Except.error err => (Except.error (InternalError CodeDBError err.text), a.2)
        | Except.ok createdParticipant =>
          let counted :=
            { session with ParticipantCount := int32 (session.ParticipantCount + 1) }
          (Except.ok createdParticipant,
           (svcWrite a.2 (SvcCall.UpdateSession counted)
             (env.repos.UpdateSession a.2.db counted)).2)

/-- A call of the session service. -/
inductive SessionOp where
  | create (authUser : Option UserSession) (quizID : Int)
  | join (authUser : Option UserSession) (joinCode : String)
deriving DecidableEq, Repr

/-- One call of the session service, carried out; its return value is dropped. -/
def SessionOp.run (env : SvcEnv σ ρ) : SessionOp → Svc σ ρ → Svc σ ρ
  | SessionOp.create authUser quizID, s => (CreateSession env authUser quizID s).2
  | SessionOp.join authUser joinCode, s => (JoinSession env authUser joinCode s).2

/-- A sequence of calls of the session service, carried out in order. -/
def runSessionOps (env : SvcEnv σ ρ) (ops : List SessionOp) (s : Svc σ ρ) : Svc σ ρ :=
  ops.foldl (fun s op => op.run env s) s

/-- The number of `AddParticipant` calls for the session that succeeded. -/
def addsOf (sessionID : Int) (calls : List (SvcCall × Bool)) : Nat :=
  (calls.filter (fun e => match e with
    | (SvcCall.AddParticipant participant, true) => decide (participant.SessionID = sessionID)
    | _ => false)).length

/-- The number of `UpdateSession` calls for the session that failed. -/
def failedUpdatesOf (sessionID : Int) (calls : List (SvcCall × Bool)) : Nat :=
  (calls.filter (fun e => match e with
    | (SvcCall.UpdateSession session, false) => decide (session.ID = sessionID)
    | _ => false)).length

/-- What the session service needs of the store, `count db id` being the persisted
`participant_count` of the session `id` if there is such a session and `good db` the
constraints of the schema (the session id is a key). The three writes keep the constraints.
A created session is new, has the given count and leaves the other sessions as they are;
adding a participant changes no count; an update sets the count of the session it names and
no other; a session read by join code carries its persisted count. -/
structure StoreLaws (repos : ServiceRepos σ) (count : σ → Int → Option Int)
    (good : σ → Prop) : Prop where
  create : ∀ db session created db', good db →
    repos.CreateSession db session = Except.ok (created, db') →
    good db' ∧ count db created.ID = none ∧
    count db' created.ID = some session.ParticipantCount ∧
    ∀ id, id ≠ created.ID → count db' id = count db id
  add : ∀ db participant created db', good db →
    repos.AddParticipant db participant = Except.ok (created, db') →
    good db' ∧ ∀ id, count db' id = count db id
  update : ∀ db session updated db', good db →
    repos.UpdateSession db session = Except.ok (updated, db') →
    good db' ∧ (count db session.ID).isSome = true ∧
    count db' session.ID = some session.ParticipantCount ∧
    ∀ id, id ≠ session.ID → count db' id = count db id
  read : ∀ db joinCode session, good db →
    repos.GetSessionByJoinCode db joinCode = Except.ok session →
    count db session.ID = some session.ParticipantCount


/-- The invariant of the session service after at most `bound` calls: for every session id,
the failed `UpdateSession` calls are no more than the successful `AddParticipant` calls,
these are at most `bound`, a session that is not stored has none, and the persisted count of
a stored session plus the failed updates is the number of successful adds. -/
def CountInv (count : σ → Int → Option Int) (bound : Nat) (s : Svc σ ρ) : Prop :=
  ∀ id, failedUpdatesOf id s.calls ≤ addsOf id s.calls ∧ addsOf id s.calls ≤ bound ∧
    (count s.db id = none → addsOf id s.calls = 0) ∧
    ∀ n, count s.db id = some n → n + failedUpdatesOf id s.calls = addsOf id s.calls

/-- An in-memory store for the HTTP services. -/
structure SvcStore where
  quizzes : List Quiz
  questions : List Question
  sessions : List QuizSession
  participants : List SessionParticipant
deriving DecidableEq, Repr

/-- The error `pgx.ErrNoRows`. -/
def ErrNoRows : DbError := ⟨true, "no rows in result set"⟩

/-- Modelled from the spec: the SQL behind the repository methods of the HTTP services is
generated code that is not among the sources. Reads select rows by id or join code and
report `ErrNoRows` when there is none; the existence check looks among the sessions that are
waiting or active; `CreateSession` and `AddParticipant` insert a row under the next id;
`UpdateSession` and `UpdateQuestion` replace the columns they are given on the row with the
id and report `ErrNoRows` when there is none; `DeleteQuestion` removes the row. -/
def memSvcRepos : ServiceRepos SvcStore where
  GetQuizDetail db id _ :=
    match db.quizzes.find? (fun q => decide (q.ID = id)) with
    | some quiz => Except.ok quiz
    | none => Except.error ErrNoRows
  UpdateTotalQuestions db _ _ := Except.ok db
  GetQuestionByID db id :=
    match db.questions.find? (fun q => decide (q.ID = id)) with
    | some question => Except.ok question
    | none => Except.error ErrNoRows
  CountQuestionsByQuiz db quizID :=
    Except.ok (db.questions.filter (fun q => decide (q.QuizID = quizID))).length
  UpdateQuestion db question :=
    match db.questions.find? (fun q => decide (q.ID = question.ID)) with
    | some old =>
      let updated : Question :=
        { old with Question := question.Question, Type_ := question.Type_,
                   Answers := question.Answers, TimeLimit := question.TimeLimit }
      Except.ok (updated, { db with questions := db.questions.map (fun q =>
        if q.ID = question.ID then updated else q) })
    | none => Except.error ErrNoRows
  DeleteQuestion db id :=
    Except.ok { db with questions := db.questions.filter (fun q => decide (q.ID ≠ id)) }
  UpdateQuestionIndexesBatch db questionIDs indexes :=
    if questionIDs.length ≠ indexes.length then
      Except.error ⟨false, "questionIDs and indexes length mismatch"⟩
    else
      Except.ok { db with questions := db.questions.map (fun q =>
        match (questionIDs.zip indexes).lookup q.ID with
        | some index => { q with Index := index }
        | none => q) }
  CheckJoinCodeExists db code :=
    Except.ok (db.sessions.any (fun x => decide (x.JoinCode = code) &&
      (decide (x.Status = SessionStatusWaiting) || decide (x.Status = SessionStatusActive))))
  CreateSession db session :=
    let created := { session with ID := db.sessions.length + 1 }
    Except.ok (created, { db with sessions := db.sessions ++ [created] })
  GetSessionByJoinCode db joinCode :=
    match db.sessions.find? (fun x => decide (x.JoinCode = joinCode)) with
    | some session => Except.ok session
    | none => Except.error ErrNoRows
  GetSessionParticipants db sessionID :=
    Except.ok (db.participants.filter (fun p => decide (p.SessionID = sessionID)))
  AddParticipant db participant :=
    let created := { participant with ID := db.participants.length + 1 }
    Except.ok (created, { db with participants := db.participants ++ [created] })
  UpdateSession db session :=
    match db.sessions.find? (fun x => decide (x.ID = session.ID)) with
    | some old =>
      let updated : QuizSession :=
        { old with Status := session.Status,
                   CurrentQuestionIndex := session.CurrentQuestionIndex,
                   MaxParticipants := session.MaxParticipants,
                   ParticipantCount := session.ParticipantCount }
      Except.ok (updated, { db with sessions := db.sessions.map (fun x =>
        if x.ID = session.ID then updated else x) })
    | none => Except.error ErrNoRows

/-- The persisted `participant_count` of a session of the in-memory store. -/
def memCount (db : SvcStore) (id : Int) : Option Int :=
  (db.sessions.find? (fun x => decide (x.ID = id))).map (fun x => x.ParticipantCount)

/-- The session ids of the list are `first`, `first + 1`, ... in this order. -/
def serialFrom : Int → List QuizSession → Prop
  | _, [] => True
  | first, x :: rest => x.ID = first ∧ serialFrom (first + 1) rest

/-- The session ids of the in-memory store are the serial numbers 1, 2, ... of the rows. -/
def memGood (db : SvcStore) : Prop := serialFrom 1 db.sessions

/-- The in-memory repositories with every `UpdateSession` failing, as when the statement
times out. -/
def failingUpdates : ServiceRepos SvcStore :=
  { memSvcRepos with UpdateSession := fun _ _ => Except.error ⟨false, "timeout"⟩ }

/-- The message constants, with the texts used in the examples. -/
def demoTexts : ErrorTexts := ⟨"Quiz not found", "Question not found"⟩

/-- The services over the in-memory store, with the random source read off a list and the
clock at a fixed second. -/
def memSvcEnv : SvcEnv SvcStore (List Nat) :=
  { repos := memSvcRepos, draw := listSource, unixNow := fun n => 1700000000 + n,
    texts := demoTexts }

/-- The services over the store whose `UpdateSession` fails. -/
def failingSvcEnv : SvcEnv SvcStore (List Nat) := { memSvcEnv with repos := failingUpdates }

/-- A store with the published quiz 3 of user 100 and its question 11, and no session. -/
def quizStore : SvcStore :=
  { quizzes := [⟨3, "Capitals", 100, QuizVisibilityPublished, none⟩],
    questions := [⟨11, 3, "Capital of France?", QuestionTypeSingleChoice,
      [⟨"Paris", true⟩, ⟨"Rome", false⟩], TimeLimitType5, 0⟩],
    sessions := [], participants := [] }

/-- The service state over a store, with the given raw random numbers and nothing logged. -/
def newSvc (db : SvcStore) (raw : List Nat) : Svc SvcStore (List Nat) :=
  { db := db, rand := raw, ticks := 0, calls := [] }


/-- The call is one of the two that the participant count is read off: `AddParticipant` or
`UpdateSession`. -/
def SvcCall.isCounted : SvcCall → Bool
  | SvcCall.AddParticipant _ => true
  | SvcCall.UpdateSession _ => true
  | _ => false


/-- A run of the session service: user 100 creates a session for quiz 3, user 200 joins it,
a guest joins it, user 200 joins again, and a guest tries a code that no session has. -/
def demoOps : List SessionOp :=
  [SessionOp.create (some ⟨100, "hana"⟩) 3, SessionOp.join (some ⟨200, "bob"⟩) "A09BCD",
   SessionOp.join none "A09BCD", SessionOp.join (some ⟨200, "bob"⟩) "A09BCD",
   SessionOp.join none "ZZZZZZ"]


/-! # Theorems -/

/-! ## Integer arithmetic of the score -/

theorem int32_of_isInt32 {x : Int} (h : isInt32 x) : int32 x = x := by
  unfold isInt32 at h
  unfold int32
  omega

theorem tdiv_hundred_bounds {t : Int} (h : isInt32 t) :
    -21474836 ≤ Int.tdiv t 100 ∧ Int.tdiv t 100 ≤ 21474836 := by
  unfold isInt32 at h
  rcases Int.le_total 0 t with h0 | h0
  · rw [Int.tdiv_eq_ediv h0 (by decide)]
    omega
  · have hneg : Int.tdiv t 100 = -((-t) / 100) := by
      have h1 : t = -(-t) := by omega
      rw [h1, Int.neg_tdiv, Int.tdiv_eq_ediv (by omega) (by decide)]
      simp
    rw [hneg]
    omega

theorem scoreEarned_correct {t : Int} (h : isInt32 t) :
    scoreEarned true t = max 100 (1000 - Int.tdiv t 100) := by
  have hb := tdiv_hundred_bounds h
  have h1 : int32 (Int.tdiv t 100) = Int.tdiv t 100 :=
    int32_of_isInt32 (by unfold isInt32; omega)
  have h2 : int32 (1000 - Int.tdiv t 100) = 1000 - Int.tdiv t 100 :=
    int32_of_isInt32 (by unfold isInt32; omega)
  have h3 : int32 1000 = 1000 := by decide
  simp only [scoreEarned, MaxQuestionScore, MinQuestionScore, if_true, h1, h3, h2]
  rcases Int.lt_or_le (1000 - Int.tdiv t 100) 100 with hlt | hge
  · rw [if_pos hlt, max_eq_left (by omega)]
  · rw [if_neg (by omega), max_eq_right hge]

theorem scoreEarned_incorrect (t : Int) : scoreEarned false t = 0 := by
  simp [scoreEarned, int32]

theorem scoreEarned_ge_min {t : Int} (h : isInt32 t) : 100 ≤ scoreEarned true t := by
  rw [scoreEarned_correct h]
  exact le_max_left _ _

theorem scoreEarned_le_max_of_nonneg {t : Int} (h : isInt32 t) (h0 : 0 ≤ t) :
    scoreEarned true t ≤ 1000 := by
  rw [scoreEarned_correct h, Int.tdiv_eq_ediv h0 (by decide)]
  apply max_le <;> omega

theorem scoreEarned_gt_max_of_neg {t : Int} (h : isInt32 t) (h0 : t ≤ -100) :
    1000 < scoreEarned true t := by
  have hneg : Int.tdiv t 100 = -((-t) / 100) := by
    have h1 : t = -(-t) := by omega
    rw [h1, Int.neg_tdiv, Int.tdiv_eq_ediv (by omega) (by decide)]
    simp
  rw [scoreEarned_correct h, hneg]
  apply lt_max_of_lt_right
  omega

/-! ## Sorting and the comparison loop -/

theorem sortStrings_perm (l : List String) : (sortStrings l).Perm l :=
  List.perm_insertionSort stringLE l

theorem sortStrings_sorted (l : List String) : (sortStrings l).Sorted stringLE :=
  List.sorted_insertionSort stringLE l

theorem sortStrings_eq_iff_perm (a b : List String) :
    sortStrings a = sortStrings b ↔ a.Perm b := by
  constructor
  · intro h
    exact ((sortStrings_perm a).symm.trans (h ▸ List.Perm.refl _)).trans (sortStrings_perm b)
  · intro h
    exact List.eq_of_perm_of_sorted
      (((sortStrings_perm a).trans h).trans (sortStrings_perm b).symm)
      (sortStrings_sorted a) (sortStrings_sorted b)

theorem matchSorted_iff (sub : List String) :
    ∀ (cor : List String) (i : Nat), i + cor.length = sub.length →
      (matchSorted sub cor i = true ↔ sub.drop i = cor) := by
  intro cor
  induction cor with
  | nil =>
    intro i hi
    simp only [List.length_nil, Nat.add_zero] at hi
    simp [matchSorted, hi]
  | cons c rest ih =>
    intro i hi
    simp only [List.length_cons] at hi
    have hlt : i < sub.length := by omega
    rw [List.drop_eq_getElem_cons hlt]
    unfold matchSorted
    by_cases hc : sub[i] = c
    · have ih' := ih (i + 1) (by omega)
      simp [hc, List.getElem?_eq_getElem hlt, Nat.not_le.mpr hlt, ih']
    · simp only [hc, List.getElem?_eq_getElem hlt, ge_iff_le, Nat.not_le.mpr hlt, ne_eq,
        Option.some.injEq, not_false_eq_true, or_true, if_true, List.cons.injEq, false_and]
      simp

theorem multipleChoice_eq (caseTable : Char → Char) (q : Question) (p : WSAnswerPayload)
    (hq : q.Type_ = QuestionTypeMultipleChoice) (hne : p.AnswerValues ≠ []) :
    (evaluateAnswer caseTable q p = true ↔
      sortStrings p.AnswerValues = sortStrings (correctAnswers q)) := by
  have h1 : ¬ (QuestionTypeMultipleChoice = QuestionTypeSingleChoice) := by decide
  have hlen0 : ¬ (p.AnswerValues.length = 0) := by
    intro h; exact hne (List.length_eq_zero.mp h)
  unfold evaluateAnswer
  rw [hq, if_neg h1, if_pos rfl, if_neg hlen0]
  by_cases hlen : p.AnswerValues.length = (correctAnswers q).length
  · have hl : (sortStrings p.AnswerValues).length = (sortStrings (correctAnswers q)).length := by
      rw [(sortStrings_perm _).length_eq, (sortStrings_perm _).length_eq, hlen]
    simp only [ne_eq, hlen, not_true_eq_false, if_false]
    rw [matchSorted_iff _ _ 0 (by omega)]
    simp
  · simp only [ne_eq, hlen, not_false_eq_true, if_true]
    constructor
    · intro h; cases h
    · intro h
      exact absurd (by
        rw [← (sortStrings_perm p.AnswerValues).length_eq, h,
          (sortStrings_perm _).length_eq]) hlen

/-! ## Scoring (claims C1, C2) -/

/-- C1: for a well-formed answer that `evaluateAnswer` accepts, with any 32-bit time taken `t`,
`handleSubmitAnswer` computes `max 100 (1000 - t/100)` (Go's truncating integer division),
calls `UpdateParticipantScore` with exactly that value, and when the update succeeds replies
`answer_received` carrying that same value; these are all the calls the handler makes. -/
theorem C1_correct_answer_score (env : Env σ) (client : Client) (wsMsg : WSMessageIn)
    (s : Engine σ) (p : WSAnswerPayload) (q : Question)
    (hp : wsMsg.answerPayload = some p)
    (ht : isInt32 p.TimeTaken)
    (hq : env.repos.GetQuestionByID s.db p.QuestionID = some q)
    (hv : validateAnswerPayload q p = none)
    (hc : evaluateAnswer env.caseTable q p = true) :
    newEvents s (handleSubmitAnswer env client wsMsg s) =
      Event.repo (RepoCall.GetQuestionByID p.QuestionID) true ::
      (match env.repos.UpdateParticipantScore s.db client.ParticipantID
          (max 100 (1000 - Int.tdiv p.TimeTaken 100)) with
       | some _ =>
         [Event.repo (RepoCall.UpdateParticipantScore client.ParticipantID
            (max 100 (1000 - Int.tdiv p.TimeTaken 100))) true,
          Event.SendToClient client.ID (jsonMarshal ⟨WSMsgTypeAnswerReceived,
            Payload.answerReceived true (max 100 (1000 - Int.tdiv p.TimeTaken 100)) p.TimeTaken,
            env.clock s.ticks⟩)]
       | none =>
         [Event.repo (RepoCall.UpdateParticipantScore client.ParticipantID
            (max 100 (1000 - Int.tdiv p.TimeTaken 100))) false,
          Event.SendToClient client.ID
            (errorEnvelope "SCORE_UPDATE_FAILED" "Failed to update score" (env.clock s.ticks))]) := by
  unfold handleSubmitAnswer
  simp only [hp, hq, hv, hc, scoreEarned_correct ht]
  cases hu : env.repos.UpdateParticipantScore (logRepo (RepoCall.GetQuestionByID p.QuestionID)
      true s).db client.ParticipantID (max 100 (1000 - Int.tdiv p.TimeTaken 100)) with
  | none =>
    have hu' : env.repos.UpdateParticipantScore s.db client.ParticipantID
        (max 100 (1000 - Int.tdiv p.TimeTaken 100)) = none := hu
    simp [hu', newEvents, sendError, sendToClient, logRepo, timeNow, errorEnvelope]
  | some db' =>
    have hu' : env.repos.UpdateParticipantScore s.db client.ParticipantID
        (max 100 (1000 - Int.tdiv p.TimeTaken 100)) = some db' := hu
    simp [hu', newEvents, sendToClient, logRepo, timeNow]

/-- The player answers question 11 correctly after 2500 ms and earns 975 points. -/
theorem C1_correct_answer_score_witness :
    newEvents (newEngine (demoStore SessionStatusActive 0))
      (handleSubmitAnswer memEnv playerClient
        (answerMessage ⟨11, "single_choice", some "Paris", [], 2500⟩)
        (newEngine (demoStore SessionStatusActive 0))) =
      [Event.repo (RepoCall.GetQuestionByID 11) true,
       Event.repo (RepoCall.UpdateParticipantScore 2 975) true,
       Event.SendToClient "c-ann" (jsonMarshal ⟨WSMsgTypeAnswerReceived,
         Payload.answerReceived true 975 2500, 1700000000000000000⟩)] :=
  (C1_correct_answer_score memEnv playerClient
    (answerMessage ⟨11, "single_choice", some "Paris", [], 2500⟩)
    (newEngine (demoStore SessionStatusActive 0))
    ⟨11, "single_choice", some "Paris", [], 2500⟩
    ⟨11, 3, "Capital of France?", QuestionTypeSingleChoice, [⟨"Paris", true⟩, ⟨"Rome", false⟩],
      TimeLimitType5, 0⟩
    rfl (by decide) (by decide) (by decide) (by decide)).trans (by decide)

/-- C2 (failing input): a correct answer whose reported time taken is -100 ms is awarded 1001
points, above the maximum of 1000, and that value is persisted and sent back. -/
theorem C2_negative_time_exceeds_cap :
    scoreEarned true (-100) = 1001 ∧
    newEvents (newEngine (demoStore SessionStatusActive 0))
      (handleSubmitAnswer memEnv playerClient
        (answerMessage ⟨11, "single_choice", some "Paris", [], -100⟩)
        (newEngine (demoStore SessionStatusActive 0))) =
      [Event.repo (RepoCall.GetQuestionByID 11) true,
       Event.repo (RepoCall.UpdateParticipantScore 2 1001) true,
       Event.SendToClient "c-ann" (jsonMarshal ⟨WSMsgTypeAnswerReceived,
         Payload.answerReceived true 1001 (-100), 1700000000000000000⟩)] := by
  decide

/-! ## Answer evaluation (claims C3, C4, C5) -/

/-- C3: for a multiple_choice question and a non-empty submitted list, `evaluateAnswer` accepts
exactly when the sorted submitted list equals the sorted list of the texts of all is-correct
answers, that is when the submitted list is a rearrangement of those texts. So the result is
the same for every reordering of the submission, and a submission is rejected when it holds a
value that is no correct text (an incorrect member, a superset), when it misses a correct
text (a strict subset), or when its length differs. -/
theorem C3_multiple_choice (caseTable : Char → Char) (q : Question) (p : WSAnswerPayload)
    (hq : q.Type_ = QuestionTypeMultipleChoice) (hne : p.AnswerValues ≠ []) :
    (evaluateAnswer caseTable q p = true ↔
      sortStrings p.AnswerValues = sortStrings (correctAnswers q)) ∧
    (evaluateAnswer caseTable q p = true ↔ p.AnswerValues.Perm (correctAnswers q)) ∧
    (∀ p' : WSAnswerPayload, p'.AnswerValues.Perm p.AnswerValues →
      evaluateAnswer caseTable q p' = evaluateAnswer caseTable q p) ∧
    ((∃ x ∈ p.AnswerValues, x ∉ correctAnswers q) → evaluateAnswer caseTable q p = false) ∧
    ((∃ x ∈ correctAnswers q, x ∉ p.AnswerValues) → evaluateAnswer caseTable q p = false) ∧
    (p.AnswerValues.length ≠ (correctAnswers q).length →
      evaluateAnswer caseTable q p = false) := by
  have hsort := multipleChoice_eq caseTable q p hq hne
  have hperm : evaluateAnswer caseTable q p = true ↔ p.AnswerValues.Perm (correctAnswers q) :=
    hsort.trans (sortStrings_eq_iff_perm _ _)
  refine ⟨hsort, hperm, ?_, ?_, ?_, ?_⟩
  · intro p' hp'
    have hne' : p'.AnswerValues ≠ [] := by
      intro h
      rw [h] at hp'
      exact hne (List.Perm.eq_nil hp'.symm)
    have h' := (multipleChoice_eq caseTable q p' hq hne').trans (sortStrings_eq_iff_perm _ _)
    rw [Bool.eq_iff_iff, h', hperm]
    exact ⟨fun h => hp'.symm.trans h, fun h => hp'.trans h⟩
  · rintro ⟨x, hx, hnx⟩
    rw [Bool.eq_false_iff]
    intro h
    exact hnx ((hperm.mp h).subset hx)
  · rintro ⟨x, hx, hnx⟩
    rw [Bool.eq_false_iff]
    intro h
    exact hnx ((hperm.mp h).symm.subset hx)
  · intro hlen
    rw [Bool.eq_false_iff]
    intro h
    exact hlen (hperm.mp h).length_eq

/-- Question 12 has the correct texts 7 and 5: the submission [5, 7] is accepted. -/
theorem C3_multiple_choice_witness :
    evaluateAnswer id
      ⟨12, 3, "Which are primes?", QuestionTypeMultipleChoice,
        [⟨"7", true⟩, ⟨"4", false⟩, ⟨"5", true⟩], TimeLimitType10, 1⟩
      ⟨12, "multiple_choice", none, ["5", "7"], 0⟩ = true :=
  (C3_multiple_choice id
    ⟨12, 3, "Which are primes?", QuestionTypeMultipleChoice,
      [⟨"7", true⟩, ⟨"4", false⟩, ⟨"5", true⟩], TimeLimitType10, 1⟩
    ⟨12, "multiple_choice", none, ["5", "7"], 0⟩ rfl (by decide)).1.mpr (by decide)

/-- C4: for a single_choice question with exactly one is-correct answer and a submitted
value, `evaluateAnswer` returns true exactly when the value equals that answer's text. -/
theorem C4_single_choice (caseTable : Char → Char) (q : Question) (p : WSAnswerPayload)
    (a : AnswerData) (v : String)
    (hq : q.Type_ = QuestionTypeSingleChoice)
    (huniq : q.Answers.filter (fun x => x.IsCorrect) = [a])
    (hv : p.AnswerValue = some v) :
    (evaluateAnswer caseTable q p = true ↔ v = a.Text) := by
  unfold evaluateAnswer
  rw [hq, if_pos rfl, hv]
  simp only [List.any_eq_true, Bool.and_eq_true, decide_eq_true_eq]
  constructor
  · rintro ⟨x, hx, hxc, hxt⟩
    have hmem : x ∈ q.Answers.filter (fun x => x.IsCorrect) := List.mem_filter.mpr ⟨hx, hxc⟩
    rw [huniq, List.mem_singleton] at hmem
    rw [← hxt, hmem]
  · intro h
    have hmem : a ∈ q.Answers.filter (fun x => x.IsCorrect) := by rw [huniq]; simp
    obtain ⟨ha, hac⟩ := List.mem_filter.mp hmem
    exact ⟨a, ha, hac, h.symm⟩

/-- Question 11 has the single correct answer Paris: the value "Paris" is accepted. -/
theorem C4_single_choice_witness :
    evaluateAnswer id
      ⟨11, 3, "Capital of France?", QuestionTypeSingleChoice, [⟨"Paris", true⟩, ⟨"Rome", false⟩],
        TimeLimitType5, 0⟩
      ⟨11, "single_choice", some "Paris", [], 0⟩ = true :=
  (C4_single_choice id
    ⟨11, 3, "Capital of France?", QuestionTypeSingleChoice, [⟨"Paris", true⟩, ⟨"Rome", false⟩],
      TimeLimitType5, 0⟩
    ⟨11, "single_choice", some "Paris", [], 0⟩ ⟨"Paris", true⟩ "Paris" rfl (by decide) rfl).mpr rfl

/-! ### Trimming and lower-casing -/

theorem toNat_ofNat_small (n : Nat) (h : n < 55296) : (Char.ofNat n).toNat = n := by
  have hv : n.isValidChar := Or.inl h
  simp only [Char.ofNat, hv, Char.ofNatAux, Char.toNat, dite_true]
  rfl

theorem rdropWhile_append_all (p : Char → Bool) (l post : List Char)
    (h : ∀ c ∈ post, p c = true) : (l ++ post).rdropWhile p = l.rdropWhile p := by
  have h' : ∀ c ∈ post.reverse, p c = true := fun c hc => h c (List.mem_reverse.mp hc)
  simp only [List.rdropWhile, List.reverse_append, List.dropWhile_append_of_pos h']

theorem trim_append_all (p : Char → Bool) (post : List Char) (h : ∀ c ∈ post, p c = true) :
    ∀ l : List Char, ((l ++ post).dropWhile p).rdropWhile p = (l.dropWhile p).rdropWhile p := by
  intro l
  induction l with
  | nil =>
    have h0 : post.dropWhile p = [] := List.dropWhile_eq_nil_iff.mpr h
    simp [h0]
  | cons c l ih =>
    by_cases hc : p c = true
    · simpa [List.dropWhile_cons, hc] using ih
    · have e1 : (c :: l ++ post).dropWhile p = (c :: l) ++ post := by
        simp [List.dropWhile_cons, hc]
      have e2 : (c :: l).dropWhile p = c :: l := by simp [List.dropWhile_cons, hc]
      rw [e1, e2, rdropWhile_append_all p (c :: l) post h]

theorem TrimSpace_padded (before after : List Char) (v : String)
    (hb : ∀ c ∈ before, isSpace c = true) (ha : ∀ c ∈ after, isSpace c = true) :
    TrimSpace (padded before after v) = TrimSpace v := by
  unfold TrimSpace padded
  congr 1
  show ((before ++ v.data ++ after).dropWhile isSpace).rdropWhile isSpace = _
  rw [List.append_assoc, List.dropWhile_append_of_pos hb, trim_append_all isSpace after ha]

theorem ToLower_TrimSpace_recase (caseTable : Char → Char) (f : Char → Char) (v : String)
    (hf : ∀ c, toLowerRune caseTable (f c) = toLowerRune caseTable c ∧ isSpace (f c) = isSpace c) :
    ToLower caseTable (TrimSpace (recase f v)) = ToLower caseTable (TrimSpace v) := by
  have hsp : isSpace ∘ f = isSpace := funext fun c => (hf c).2
  have hlow : toLowerRune caseTable ∘ f = toLowerRune caseTable := funext fun c => (hf c).1
  unfold ToLower TrimSpace recase
  congr 1
  show List.map (toLowerRune caseTable)
      (((v.data.map f).dropWhile isSpace).rdropWhile isSpace) = _
  simp only [List.rdropWhile, List.dropWhile_map, hsp, ← List.map_reverse, List.map_map, hlow]

theorem asciiUpper_sameLetter (caseTable : Char → Char) (c : Char) :
    toLowerRune caseTable (asciiUpper c) = toLowerRune caseTable c ∧
      isSpace (asciiUpper c) = isSpace c := by
  unfold asciiUpper
  by_cases h : 97 ≤ c.toNat ∧ c.toNat ≤ 122
  · have hn : (Char.ofNat (c.toNat - 32)).toNat = c.toNat - 32 :=
      toNat_ofNat_small _ (by omega)
    have hback : c.toNat - 32 + 32 = c.toNat := by omega
    rw [if_pos h]
    constructor
    · unfold toLowerRune
      rw [hn, if_pos (by omega), if_pos (by omega), hback, Char.ofNat_toNat, if_pos (by omega),
        if_neg (by omega)]
    · have hs1 : isSpace (Char.ofNat (c.toNat - 32)) = false := by
        simp only [isSpace, hn]
        simp only [Bool.or_eq_false_iff, Bool.and_eq_false_iff, decide_eq_false_iff_not,
          beq_eq_false_iff_ne]
        omega
      have hs2 : isSpace c = false := by
        simp only [isSpace]
        simp only [Bool.or_eq_false_iff, Bool.and_eq_false_iff, decide_eq_false_iff_not,
          beq_eq_false_iff_ne]
        omega
      rw [hs1, hs2]
  · rw [if_neg h]
    exact ⟨rfl, rfl⟩

theorem asciiLower_sameLetter (caseTable : Char → Char) (c : Char) :
    toLowerRune caseTable (asciiLower c) = toLowerRune caseTable c ∧
      isSpace (asciiLower c) = isSpace c := by
  unfold asciiLower
  by_cases h : 65 ≤ c.toNat ∧ c.toNat ≤ 90
  · have hn : (Char.ofNat (c.toNat + 32)).toNat = c.toNat + 32 :=
      toNat_ofNat_small _ (by omega)
    rw [if_pos h]
    constructor
    · unfold toLowerRune
      rw [hn, if_pos (by omega), if_neg (by omega), if_pos (by omega), if_pos h]
    · have hs1 : isSpace (Char.ofNat (c.toNat + 32)) = false := by
        simp only [isSpace, hn]
        simp only [Bool.or_eq_false_iff, Bool.and_eq_false_iff, decide_eq_false_iff_not,
          beq_eq_false_iff_ne]
        omega
      have hs2 : isSpace c = false := by
        simp only [isSpace]
        simp only [Bool.or_eq_false_iff, Bool.and_eq_false_iff, decide_eq_false_iff_not,
          beq_eq_false_iff_ne]
        omega
      rw [hs1, hs2]
  · rw [if_neg h]
    exact ⟨rfl, rfl⟩

theorem textInput_eq (caseTable : Char → Char) (q : Question) (p : WSAnswerPayload) (v : String)
    (hq : q.Type_ = QuestionTypeTextInput) (hv : p.AnswerValue = some v) :
    evaluateAnswer caseTable q p =
      q.Answers.any (fun a => a.IsCorrect &&
        decide (ToLower caseTable (TrimSpace v) = ToLower caseTable (TrimSpace a.Text))) := by
  have h1 : ¬ (QuestionTypeTextInput = QuestionTypeSingleChoice) := by decide
  have h2 : ¬ (QuestionTypeTextInput = QuestionTypeMultipleChoice) := by decide
  unfold evaluateAnswer
  rw [hq, if_neg h1, if_neg h2, if_pos rfl, hv]

/-- C5: for a text_input question and a submitted value, `evaluateAnswer` returns true exactly
when some is-correct answer's text equals the value after both are trimmed of white space and
lower-cased. The result is unchanged when white space is added before and after the value,
and when its characters are replaced by characters with the same lower-case form (a change of
letter case), in particular when its ASCII letters are upper-cased or lower-cased. -/
theorem C5_text_input (caseTable : Char → Char) (q : Question) (p : WSAnswerPayload)
    (v : String) (hq : q.Type_ = QuestionTypeTextInput) (hv : p.AnswerValue = some v) :
    (evaluateAnswer caseTable q p = true ↔
      ∃ a ∈ q.Answers, a.IsCorrect = true ∧
        ToLower caseTable (TrimSpace a.Text) = ToLower caseTable (TrimSpace v)) ∧
    (∀ before after : List Char,
      (∀ c ∈ before, isSpace c = true) → (∀ c ∈ after, isSpace c = true) →
      evaluateAnswer caseTable q { p with AnswerValue := some (padded before after v) } =
        evaluateAnswer caseTable q p) ∧
    (∀ f : Char → Char,
      (∀ c, toLowerRune caseTable (f c) = toLowerRune caseTable c ∧ isSpace (f c) = isSpace c) →
      evaluateAnswer caseTable q { p with AnswerValue := some (recase f v) } =
        evaluateAnswer caseTable q p) ∧
    evaluateAnswer caseTable q { p with AnswerValue := some (recase asciiUpper v) } =
      evaluateAnswer caseTable q p ∧
    evaluateAnswer caseTable q { p with AnswerValue := some (recase asciiLower v) } =
      evaluateAnswer caseTable q p := by
  have hrecase : ∀ f : Char → Char,
      (∀ c, toLowerRune caseTable (f c) = toLowerRune caseTable c ∧ isSpace (f c) = isSpace c) →
      evaluateAnswer caseTable q { p with AnswerValue := some (recase f v) } =
        evaluateAnswer caseTable q p := by
    intro f hf
    rw [textInput_eq caseTable q _ (recase f v) hq rfl, textInput_eq caseTable q p v hq hv,
      ToLower_TrimSpace_recase caseTable f v hf]
  refine ⟨?_, ?_, hrecase, hrecase asciiUpper (asciiUpper_sameLetter caseTable),
    hrecase asciiLower (asciiLower_sameLetter caseTable)⟩
  · rw [textInput_eq caseTable q p v hq hv]
    simp only [List.any_eq_true, Bool.and_eq_true, decide_eq_true_eq]
    constructor
    · rintro ⟨a, ha, hc, he⟩
      exact ⟨a, ha, hc, he.symm⟩
    · rintro ⟨a, ha, hc, he⟩
      exact ⟨a, ha, hc, he.symm⟩
  · intro before after hb ha
    rw [textInput_eq caseTable q _ (padded before after v) hq rfl,
      textInput_eq caseTable q p v hq hv, TrimSpace_padded before after v hb ha]

/-- Question 13 has the correct text Jupiter: the value "  jupiter " is accepted. -/
theorem C5_text_input_witness :
    evaluateAnswer id
      ⟨13, 4, "Largest planet?", QuestionTypeTextInput, [⟨"Jupiter", true⟩], TimeLimitType20, 0⟩
      ⟨13, "text_input", some "  jupiter ", [], 0⟩ = true :=
  (C5_text_input id
    ⟨13, 4, "Largest planet?", QuestionTypeTextInput, [⟨"Jupiter", true⟩], TimeLimitType20, 0⟩
    ⟨13, "text_input", some "  jupiter ", [], 0⟩ "  jupiter " rfl rfl).1.mpr
    ⟨⟨"Jupiter", true⟩, by decide, rfl, by decide⟩

/-! ## Malformed answers (claim C6) -/

/-- C6: when the payload decodes and the question is found but the answer is malformed for the
question's type (single_choice or text_input with a missing or empty value, multiple_choice
with no values), `handleSubmitAnswer` makes exactly two calls, the question lookup and one
`INVALID_ANSWER` error envelope to the sender; it does not call `UpdateParticipantScore` and
the store is unchanged. -/
theorem C6_malformed_answer (env : Env σ) (client : Client) (wsMsg : WSMessageIn)
    (s : Engine σ) (p : WSAnswerPayload) (q : Question)
    (hp : wsMsg.answerPayload = some p)
    (hq : env.repos.GetQuestionByID s.db p.QuestionID = some q)
    (hmal : ((q.Type_ = QuestionTypeSingleChoice ∨ q.Type_ = QuestionTypeTextInput) ∧
              (p.AnswerValue = none ∨ p.AnswerValue = some "")) ∨
            (q.Type_ = QuestionTypeMultipleChoice ∧ p.AnswerValues = [])) :
    (∃ message, newEvents s (handleSubmitAnswer env client wsMsg s) =
      [Event.repo (RepoCall.GetQuestionByID p.QuestionID) true,
       Event.SendToClient client.ID
         (errorEnvelope "INVALID_ANSWER" message (env.clock s.ticks))]) ∧
    (∀ e ∈ newEvents s (handleSubmitAnswer env client wsMsg s),
      e.isUpdateParticipantScore = false) ∧
    (handleSubmitAnswer env client wsMsg s).db = s.db := by
  have hval : ∃ message, validateAnswerPayload q p = some message := by
    unfold validateAnswerPayload
    rcases hmal with ⟨ht, hv⟩ | ⟨ht, hv⟩
    · exact ⟨_, by rw [if_pos ht, if_pos hv]⟩
    · have h1 : ¬ (QuestionTypeMultipleChoice = QuestionTypeSingleChoice ∨
          QuestionTypeMultipleChoice = QuestionTypeTextInput) := by decide
      exact ⟨_, by rw [ht, if_neg h1, if_pos rfl, if_pos (by rw [hv]; rfl)]⟩
  obtain ⟨message, hmsg⟩ := hval
  have hrun : handleSubmitAnswer env client wsMsg s =
      sendError env client "INVALID_ANSWER" message
        (logRepo (RepoCall.GetQuestionByID p.QuestionID) true s) := by
    unfold handleSubmitAnswer
    simp only [hp, hq, hmsg]
  have hev : newEvents s (handleSubmitAnswer env client wsMsg s) =
      [Event.repo (RepoCall.GetQuestionByID p.QuestionID) true,
       Event.SendToClient client.ID
         (errorEnvelope "INVALID_ANSWER" message (env.clock s.ticks))] := by
    rw [hrun]
    simp [newEvents, sendError, sendToClient, logRepo, timeNow, errorEnvelope]
  refine ⟨⟨message, hev⟩, ?_, ?_⟩
  · intro e he
    rw [hev] at he
    simp only [List.mem_cons, List.mem_singleton, List.not_mem_nil, or_false] at he
    rcases he with rfl | rfl <;> rfl
  · rw [hrun]
    rfl

/-- The player sends an empty value for the single-choice question 11. -/
theorem C6_malformed_answer_witness :
    newEvents (newEngine (demoStore SessionStatusActive 0))
      (handleSubmitAnswer memEnv playerClient
        (answerMessage ⟨11, "single_choice", some "", [], 300⟩)
        (newEngine (demoStore SessionStatusActive 0))) =
      [Event.repo (RepoCall.GetQuestionByID 11) true,
       Event.SendToClient "c-ann" (errorEnvelope "INVALID_ANSWER"
         "Answer value cannot be empty for single choice/text input" 1700000000000000000)] ∧
    (handleSubmitAnswer memEnv playerClient
        (answerMessage ⟨11, "single_choice", some "", [], 300⟩)
        (newEngine (demoStore SessionStatusActive 0))).db = demoStore SessionStatusActive 0 :=
  ⟨by decide,
   (C6_malformed_answer memEnv playerClient
      (answerMessage ⟨11, "single_choice", some "", [], 300⟩)
      (newEngine (demoStore SessionStatusActive 0))
      ⟨11, "single_choice", some "", [], 300⟩
      ⟨11, 3, "Capital of France?", QuestionTypeSingleChoice,
        [⟨"Paris", true⟩, ⟨"Rome", false⟩], TimeLimitType5, 0⟩
      rfl (by decide) (Or.inl ⟨Or.inl rfl, Or.inr rfl⟩)).2.2⟩

/-! ## How the engine's operations change the log -/

theorem newEvents_append (s s' : Engine σ) (l : List Event) (h : s'.log = s.log ++ l) :
    newEvents s s' = l := by
  simp [newEvents, h]

theorem ReadsOnly.roRefl (s : Engine σ) : ReadsOnly s s :=
  ⟨[], by simp, by simp⟩

theorem ReadsOnly.roLogRepo {s s1 : Engine σ} (h : ReadsOnly s s1) (call : RepoCall) (ok : Bool) :
    ReadsOnly s (logRepo call ok s1) := by
  obtain ⟨reads, hr, rfl⟩ := h
  refine ⟨reads ++ [Event.repo call ok], ?_, ?_⟩
  · intro e he
    rcases List.mem_append.mp he with h1 | h1
    · exact hr e h1
    · rw [List.mem_singleton.mp h1]; rfl
  · simp [Quiz.logRepo, List.append_assoc]

theorem ReadsOnly.roDb {s s1 : Engine σ} (h : ReadsOnly s s1) : s1.db = s.db := by
  obtain ⟨reads, _, rfl⟩ := h
  rfl

theorem ReadsOnly.roSendError {s s1 : Engine σ} (h : ReadsOnly s s1) (env : Env σ)
    (client : Client) (code message : String) :
    CleanReject env client s (sendError env client code message s1) code := by
  obtain ⟨reads, hr, rfl⟩ := h
  exact ⟨reads, message, hr, by simp [Quiz.sendError, sendToClient, timeNow, errorEnvelope]⟩

theorem rejections_of_isRepo (reads : List Event) (h : ∀ e ∈ reads, e.isRepo = true) :
    rejections reads = [] := by
  unfold rejections
  rw [List.filterMap_eq_nil_iff]
  intro e he
  have := h e he
  cases e <;> simp_all [Event.isRepo, Event.rejection]

theorem ReadsOnly.toSilent {s s1 : Engine σ} (h : ReadsOnly s s1) : Silent s s1 := by
  obtain ⟨reads, hr, rfl⟩ := h
  exact ⟨reads, rfl, rejections_of_isRepo reads hr⟩

theorem Silent.here (s : Engine σ) : Silent s s := ⟨[], by simp, rfl⟩

theorem Silent.andThen {s s1 s2 : Engine σ} (h1 : Silent s s1) (h2 : Silent s1 s2) :
    Silent s s2 := by
  obtain ⟨l1, e1, c1⟩ := h1
  obtain ⟨l2, e2, c2⟩ := h2
  refine ⟨l1 ++ l2, by rw [e2, e1, List.append_assoc], ?_⟩
  unfold rejections at *
  rw [List.filterMap_append, c1, c2]
  rfl

theorem Silent.of_log_eq {s s' : Engine σ} (h : s'.log = s.log) : Silent s s' :=
  ⟨[], by simp [h], rfl⟩

theorem Silent.of_event {s s' : Engine σ} (e : Event) (h : s'.log = s.log ++ [e])
    (he : e.rejection = none) : Silent s s' :=
  ⟨[e], h, by simp [rejections, he]⟩

theorem Silent.none_rejected {s s' : Engine σ} (h : Silent s s') :
    rejections (newEvents s s') = [] := by
  obtain ⟨l, e, c⟩ := h
  rw [newEvents_append s s' l e, c]

theorem Silent.thenSendError {s s1 : Engine σ} (h : Silent s s1) (env : Env σ) (client : Client)
    (code message : String) :
    rejections (newEvents s (sendError env client code message s1)) = [(client.ID, code)] := by
  obtain ⟨l, e, c⟩ := h
  have hl : (Quiz.sendError env client code message s1).log =
      s.log ++ (l ++ [Event.SendToClient client.ID
        (errorEnvelope code message (env.clock s1.ticks))]) := by
    simp [Quiz.sendError, sendToClient, timeNow, errorEnvelope, e, List.append_assoc]
  rw [newEvents_append _ _ _ hl]
  unfold rejections at *
  rw [List.filterMap_append, c]
  rfl

theorem CleanReject.rejected {env : Env σ} {client : Client} {s s' : Engine σ} {code : String}
    (h : CleanReject env client s s' code) :
    rejections (newEvents s s') = [(client.ID, code)] := by
  obtain ⟨reads, message, hr, rfl⟩ := h
  rw [newEvents_append _ _ (reads ++ [Event.SendToClient client.ID
    (errorEnvelope code message (env.clock s.ticks))]) (by simp [List.append_assoc])]
  have h0 := rejections_of_isRepo reads hr
  unfold Quiz.rejections at *
  rw [List.filterMap_append, h0]
  rfl

theorem stopQuestionTimer_facts (sessionID : Int) (s : Engine σ) :
    (stopQuestionTimer sessionID s).log = s.log ∧ (stopQuestionTimer sessionID s).db = s.db ∧
      (stopQuestionTimer sessionID s).ticks = s.ticks ∧
      (stopQuestionTimer sessionID s).marshalCache = s.marshalCache := by
  unfold stopQuestionTimer
  cases s.questionTimers.lookup sessionID <;> simp [stopTimer]

theorem lookup_filter_ne (sessionID : Int) (m : List (Int × Nat)) :
    (m.filter (fun e => decide (e.1 ≠ sessionID))).lookup sessionID = none := by
  induction m with
  | nil => rfl
  | cons e m ih =>
    obtain ⟨k, v⟩ := e
    by_cases h : k = sessionID
    · rw [List.filter_cons_of_neg (by simpa using h)]
      exact ih
    · have h' : (sessionID == k) = false := by
        simp only [beq_eq_false_iff_ne, ne_eq]
        exact fun hh => h hh.symm
      rw [List.filter_cons_of_pos (by simpa using h), List.lookup_cons, h']
      exact ih

theorem stopQuestionTimer_lookup (sessionID : Int) (s : Engine σ) :
    (stopQuestionTimer sessionID s).questionTimers.lookup sessionID = none := by
  unfold stopQuestionTimer
  cases h : s.questionTimers.lookup sessionID with
  | none => simpa using h
  | some t => simpa [stopTimer] using lookup_filter_ne sessionID s.questionTimers

theorem startQuestionTimer_facts (sessionID timeLimit : Int) (s : Engine σ) :
    (startQuestionTimer sessionID timeLimit s).log = s.log ∧
      (startQuestionTimer sessionID timeLimit s).db = s.db ∧
      (startQuestionTimer sessionID timeLimit s).ticks = s.ticks := by
  unfold startQuestionTimer
  cases s.questionTimers.lookup sessionID <;> simp [stopTimer, afterFunc]

theorem broadcastToRoom_facts (sessionID : Int) (message : WSMessage)
    (excludeClient : Option Client) (s : Engine σ) :
    (∃ b, (broadcastToRoom sessionID message excludeClient s).log =
        s.log ++ [Event.BroadcastToRoom sessionID b (excludeClient.map (fun c => c.ID))]) ∧
      (broadcastToRoom sessionID message excludeClient s).db = s.db ∧
      (broadcastToRoom sessionID message excludeClient s).ticks = s.ticks ∧
      (broadcastToRoom sessionID message excludeClient s).questionTimers = s.questionTimers := by
  unfold broadcastToRoom
  dsimp only
  split
  · split
    · exact ⟨⟨_, rfl⟩, rfl, rfl, rfl⟩
    · exact ⟨⟨_, rfl⟩, rfl, rfl, rfl⟩
  · exact ⟨⟨_, rfl⟩, rfl, rfl, rfl⟩

theorem NotifyQuestionEnd_facts (env : Env σ) (sessionID : Int) (s : Engine σ) :
    (∃ b, (NotifyQuestionEnd env sessionID s).log =
        s.log ++ [Event.BroadcastToRoom sessionID b none]) ∧
      (NotifyQuestionEnd env sessionID s).db = s.db ∧
      (NotifyQuestionEnd env sessionID s).ticks = s.ticks + 2 ∧
      (NotifyQuestionEnd env sessionID s).questionTimers.lookup sessionID = none := by
  unfold NotifyQuestionEnd
  have hs := stopQuestionTimer_facts sessionID s
  have hl := stopQuestionTimer_lookup sessionID s
  have hb := broadcastToRoom_facts sessionID
    ⟨WSMsgTypeQuestionEnd,
      Payload.questionEnd sessionID (timeNow env (stopQuestionTimer sessionID s)).1,
      (timeNow env (timeNow env (stopQuestionTimer sessionID s)).2).1⟩ none
    (timeNow env (timeNow env (stopQuestionTimer sessionID s)).2).2
  obtain ⟨⟨b, hb1⟩, hb2, hb3, hb4⟩ := hb
  refine ⟨⟨b, ?_⟩, ?_, ?_, ?_⟩
  · simpa [timeNow, hs.1] using hb1
  · simpa [timeNow, hs.2.1] using hb2
  · simpa [timeNow, hs.2.2.1] using hb3
  · simp only [] at hb4 ⊢
    rw [hb4]
    simpa [timeNow] using hl

theorem NotifyQuestionEnd_silent (env : Env σ) (sessionID : Int) (s : Engine σ) :
    Silent s (NotifyQuestionEnd env sessionID s) := by
  obtain ⟨⟨b, hb⟩, _⟩ := NotifyQuestionEnd_facts env sessionID s
  exact Silent.of_event _ hb rfl

theorem loadSessionAndQuestions_readsOnly (env : Env σ) (sessionID : Int) (s : Engine σ) :
    ReadsOnly s (loadSessionAndQuestions env sessionID s).2 := by
  unfold loadSessionAndQuestions
  have h1 := (ReadsOnly.roRefl s).roLogRepo (RepoCall.GetSessionByID sessionID)
    (env.repos.GetSessionByID s.db sessionID).isSome
  have h2 := h1.roLogRepo (RepoCall.GetSessionByID sessionID)
    (env.repos.GetSessionByID s.db sessionID).isSome
  cases hagain : env.repos.GetSessionByID s.db sessionID with
  | none => simpa [logRepo, hagain] using h2
  | some session2 =>
    have h3 := h2.roLogRepo (RepoCall.GetQuestionListByQuiz session2.QuizID)
      (env.repos.GetQuestionListByQuiz s.db session2.QuizID).isSome
    cases hlist : env.repos.GetQuestionListByQuiz s.db session2.QuizID <;>
      simpa [logRepo, hagain, hlist] using h3

theorem loadSessionAndQuestions_ok (env : Env σ) (sessionID : Int) (s : Engine σ)
    (session : QuizSession) (questions : List Question)
    (hs : env.repos.GetSessionByID s.db sessionID = some session)
    (hl : env.repos.GetQuestionListByQuiz s.db session.QuizID = some questions) :
    loadSessionAndQuestions env sessionID s =
      (some (session, questions),
       { s with log := s.log ++
          [Event.repo (RepoCall.GetSessionByID sessionID) true,
           Event.repo (RepoCall.GetSessionByID sessionID) true,
           Event.repo (RepoCall.GetQuestionListByQuiz session.QuizID) true] }) := by
  simp [loadSessionAndQuestions, logRepo, hs, hl]

/-! ## Host-only messages (claims C8, C9, C10) -/

/-- C9: for a connection whose host flag is false, each of start_quiz, next_question,
end_quiz, pause_quiz and resume_quiz only reads the clock and sends one `UNAUTHORIZED` error
envelope to that connection: the log grows by just that call (no repository call, no
broadcast), and the store, the timer map, the scheduled work and the marshal cache are as
they were. -/
theorem C9_non_host_unauthorized (env : Env σ) (client : Client) (wsMsg : WSMessageIn)
    (s : Engine σ) (hhost : client.IsHost = false)
    (htype : wsMsg.Type_ = WSMsgTypeStartQuiz ∨ wsMsg.Type_ = WSMsgTypeNextQuestion ∨
      wsMsg.Type_ = WSMsgTypeEndQuiz ∨ wsMsg.Type_ = WSMsgTypePauseQuiz ∨
      wsMsg.Type_ = WSMsgTypeResumeQuiz) :
    ∃ message, HandleMessage env client wsMsg s =
      ({ s with ticks := s.ticks + 1,
                log := s.log ++ [Event.SendToClient client.ID
                  (errorEnvelope "UNAUTHORIZED" message (env.clock s.ticks))] }, client) := by
  rcases htype with h | h | h | h | h
  · exact ⟨"Only host can start the game", by
      simp [HandleMessage, h, handleStartGame, hhost, sendError, sendToClient, timeNow,
        errorEnvelope, WSMsgTypeStartQuiz, WSMsgTypeAnswer, WSMsgTypePing, WSMsgTypeJoin]⟩
  · exact ⟨"Only host can control questions", by
      simp [HandleMessage, h, handleNextQuestion, hhost, sendError, sendToClient, timeNow,
        errorEnvelope, WSMsgTypeStartQuiz, WSMsgTypeAnswer, WSMsgTypePing, WSMsgTypeJoin,
        WSMsgTypeNextQuestion]⟩
  · exact ⟨"Only host can end the game", by
      simp [HandleMessage, h, handleEndGame, hhost, sendError, sendToClient, timeNow,
        errorEnvelope, WSMsgTypeStartQuiz, WSMsgTypeAnswer, WSMsgTypePing, WSMsgTypeJoin,
        WSMsgTypeNextQuestion, WSMsgTypeEndQuiz]⟩
  · exact ⟨"Only host can pause the game", by
      simp [HandleMessage, h, handlePauseGame, hhost, sendError, sendToClient, timeNow,
        errorEnvelope, WSMsgTypeStartQuiz, WSMsgTypeAnswer, WSMsgTypePing, WSMsgTypeJoin,
        WSMsgTypeNextQuestion, WSMsgTypeEndQuiz, WSMsgTypePauseQuiz]⟩
  · exact ⟨"Only host can resume the game", by
      simp [HandleMessage, h, handleResumeGame, hhost, sendError, sendToClient, timeNow,
        errorEnvelope, WSMsgTypeStartQuiz, WSMsgTypeAnswer, WSMsgTypePing, WSMsgTypeJoin,
        WSMsgTypeNextQuestion, WSMsgTypeEndQuiz, WSMsgTypePauseQuiz, WSMsgTypeResumeQuiz]⟩

/-- The player sends next_question while question 0 of an active session is open. -/
theorem C9_non_host_unauthorized_witness :
    ∃ message, HandleMessage memEnv playerClient (bareMessage WSMsgTypeNextQuestion)
        (newEngine (demoStore SessionStatusActive 0)) =
      ({ newEngine (demoStore SessionStatusActive 0) with
          ticks := (newEngine (demoStore SessionStatusActive 0)).ticks + 1,
          log := (newEngine (demoStore SessionStatusActive 0)).log ++
            [Event.SendToClient playerClient.ID (errorEnvelope "UNAUTHORIZED" message
              (memEnv.clock (newEngine (demoStore SessionStatusActive 0)).ticks))] },
       playerClient) :=
  C9_non_host_unauthorized memEnv playerClient (bareMessage WSMsgTypeNextQuestion)
    (newEngine (demoStore SessionStatusActive 0)) rfl (Or.inr (Or.inl rfl))

/-- C10: for a host connection whose session and question list load, start_quiz calls
`StartSession` exactly when the session status is waiting and the quiz has at least one
question. When the status is not waiting it only sends `INVALID_STATUS`, and when the status
is waiting but there is no question it only sends `NO_QUESTIONS`: in both cases the log grows
by the three reads and the error envelope, and nothing else changes. -/
theorem C10_start_quiz (env : Env σ) (client : Client) (wsMsg : WSMessageIn) (s : Engine σ)
    (session : QuizSession) (questions : List Question)
    (htype : wsMsg.Type_ = WSMsgTypeStartQuiz)
    (hhost : client.IsHost = true)
    (hs : env.repos.GetSessionByID s.db client.SessionID = some session)
    (hl : env.repos.GetQuestionListByQuiz s.db session.QuizID = some questions) :
    ((∃ e ∈ newEvents s (HandleMessage env client wsMsg s).1, e.isStartSession = true) ↔
      (session.Status = SessionStatusWaiting ∧ questions ≠ [])) ∧
    (session.Status ≠ SessionStatusWaiting →
      (HandleMessage env client wsMsg s).1 =
        { s with ticks := s.ticks + 1,
                 log := s.log ++
                   [Event.repo (RepoCall.GetSessionByID client.SessionID) true,
                    Event.repo (RepoCall.GetSessionByID client.SessionID) true,
                    Event.repo (RepoCall.GetQuestionListByQuiz session.QuizID) true,
                    Event.SendToClient client.ID (errorEnvelope "INVALID_STATUS"
                      "Session cannot be started from current status" (env.clock s.ticks))] }) ∧
    (session.Status = SessionStatusWaiting → questions = [] →
      (HandleMessage env client wsMsg s).1 =
        { s with ticks := s.ticks + 1,
                 log := s.log ++
                   [Event.repo (RepoCall.GetSessionByID client.SessionID) true,
                    Event.repo (RepoCall.GetSessionByID client.SessionID) true,
                    Event.repo (RepoCall.GetQuestionListByQuiz session.QuizID) true,
                    Event.SendToClient client.ID (errorEnvelope "NO_QUESTIONS"
                      "No questions available for this quiz" (env.clock s.ticks))] }) := by
  have hrun : (HandleMessage env client wsMsg s).1 = handleStartGame env client wsMsg s := by
    simp [HandleMessage, htype, WSMsgTypeStartQuiz, WSMsgTypeAnswer, WSMsgTypePing,
      WSMsgTypeJoin]
  have hload := loadSessionAndQuestions_ok env client.SessionID s session questions hs hl
  rw [hrun]
  have hbad : session.Status ≠ SessionStatusWaiting →
      handleStartGame env client wsMsg s =
        { s with ticks := s.ticks + 1,
                 log := s.log ++
                   [Event.repo (RepoCall.GetSessionByID client.SessionID) true,
                    Event.repo (RepoCall.GetSessionByID client.SessionID) true,
                    Event.repo (RepoCall.GetQuestionListByQuiz session.QuizID) true,
                    Event.SendToClient client.ID (errorEnvelope "INVALID_STATUS"
                      "Session cannot be started from current status" (env.clock s.ticks))] } := by
    intro hst
    simp [handleStartGame, hhost, hload, hst, sendError, sendToClient, timeNow, errorEnvelope]
  have hnone : session.Status = SessionStatusWaiting → questions = [] →
      handleStartGame env client wsMsg s =
        { s with ticks := s.ticks + 1,
                 log := s.log ++
                   [Event.repo (RepoCall.GetSessionByID client.SessionID) true,
                    Event.repo (RepoCall.GetSessionByID client.SessionID) true,
                    Event.repo (RepoCall.GetQuestionListByQuiz session.QuizID) true,
                    Event.SendToClient client.ID (errorEnvelope "NO_QUESTIONS"
                      "No questions available for this quiz" (env.clock s.ticks))] } := by
    intro hst hq
    simp [handleStartGame, hhost, hload, hst, hq, sendError, sendToClient, timeNow,
      errorEnvelope]
  refine ⟨?_, hbad, hnone⟩
  by_cases hst : session.Status = SessionStatusWaiting
  · by_cases hq : questions = []
    · rw [hnone hst hq]
      simp [newEvents, Event.isStartSession, hq]
    · have hlen : ¬ (questions.length = 0) := fun h => hq (List.length_eq_zero.mp h)
      have hcall : ∃ ok, Event.repo (RepoCall.StartSession client.SessionID) ok ∈
          newEvents s (handleStartGame env client wsMsg s) := by
        cases hstart : env.repos.StartSession s.db client.SessionID with
        | none =>
          exact ⟨false, by
            simp [handleStartGame, hhost, hload, hst, hlen, hstart, sendError, sendToClient,
              timeNow, logRepo, newEvents]⟩
        | some db' =>
          obtain ⟨⟨b, hb⟩, _⟩ := broadcastToRoom_facts client.SessionID
            ⟨WSMsgTypeQuizStart, Payload.quizStart client.SessionID
              (env.clock s.ticks), env.clock (s.ticks + 1)⟩ none
            { s with db := db', ticks := s.ticks + 1 + 1,
                     log := s.log ++
                       [Event.repo (RepoCall.GetSessionByID client.SessionID) true,
                        Event.repo (RepoCall.GetSessionByID client.SessionID) true,
                        Event.repo (RepoCall.GetQuestionListByQuiz session.QuizID) true] ++
                       [Event.repo (RepoCall.StartSession client.SessionID) true] }
          refine ⟨true, ?_⟩
          simp only [handleStartGame, hhost, hload, hst, hlen, hstart, NotifyGameStart, timeNow,
            logRepo, afterFunc, newEvents, not_true_eq_false, if_false, ne_eq]
          simp only [List.append_assoc, List.cons_append, List.nil_append] at hb ⊢
          rw [hb]
          simp
      obtain ⟨ok, hok⟩ := hcall
      exact ⟨fun _ => ⟨hst, hq⟩, fun _ => ⟨_, hok, rfl⟩⟩
  · rw [hbad hst]
    simp [newEvents, Event.isStartSession, hst]

/-- The host starts the waiting demo session, whose quiz has two questions. -/
theorem C10_start_quiz_witness :
    ∃ e ∈ newEvents (newEngine (demoStore SessionStatusWaiting (-1)))
        (HandleMessage memEnv hostClient (bareMessage WSMsgTypeStartQuiz)
          (newEngine (demoStore SessionStatusWaiting (-1)))).1,
      e.isStartSession = true :=
  (C10_start_quiz memEnv hostClient (bareMessage WSMsgTypeStartQuiz)
    (newEngine (demoStore SessionStatusWaiting (-1)))
    ⟨7, 3, some 100, "ABC123", SessionStatusWaiting, -1, none, 2⟩
    (demoQuestions.filter (fun q => decide (q.QuizID = 3)))
    rfl rfl (by decide) (by decide)).1.mpr ⟨rfl, by decide⟩

/-- C8: for a host connection, next_question on an active session whose current index `i`
satisfies `i + 1 >= number of questions` (with `i + 1` and the number of questions within
`int32`) is answered with exactly one error envelope, `NO_MORE_QUESTIONS`, sent last and to
the host; `UpdateSessionQuestion` is not called and the store is unchanged. -/
theorem C8_next_question_on_last (env : Env σ) (client : Client) (wsMsg : WSMessageIn)
    (s : Engine σ) (session : QuizSession) (questions : List Question)
    (htype : wsMsg.Type_ = WSMsgTypeNextQuestion)
    (hhost : client.IsHost = true)
    (hs : env.repos.GetSessionByID s.db client.SessionID = some session)
    (hl : env.repos.GetQuestionListByQuiz s.db session.QuizID = some questions)
    (hactive : session.Status = SessionStatusActive)
    (hidx : isInt32 session.CurrentQuestionIndex)
    (hmax : session.CurrentQuestionIndex < 2147483647)
    (hlen : (questions.length : Int) < 2147483648)
    (hlast : session.CurrentQuestionIndex + 1 ≥ questions.length) :
    rejections (newEvents s (HandleMessage env client wsMsg s).1) =
      [(client.ID, "NO_MORE_QUESTIONS")] ∧
    (∃ t, (newEvents s (HandleMessage env client wsMsg s).1).getLast? =
      some (Event.SendToClient client.ID
        (errorEnvelope "NO_MORE_QUESTIONS" "No more questions available" t))) ∧
    (∀ e ∈ newEvents s (HandleMessage env client wsMsg s).1,
      e.isUpdateSessionQuestion = false) ∧
    (HandleMessage env client wsMsg s).1.db = s.db := by
  have hrun : (HandleMessage env client wsMsg s).1 = handleNextQuestion env client wsMsg s := by
    simp [HandleMessage, htype, WSMsgTypeStartQuiz, WSMsgTypeAnswer, WSMsgTypePing,
      WSMsgTypeJoin, WSMsgTypeNextQuestion]
  have hload := loadSessionAndQuestions_ok env client.SessionID s session questions hs hl
  have hnext : int32 (session.CurrentQuestionIndex + 1) = session.CurrentQuestionIndex + 1 :=
    int32_of_isInt32 (by unfold isInt32 at *; omega)
  have hcount : int32 (questions.length : Int) = questions.length :=
    int32_of_isInt32 (by unfold isInt32; omega)
  -- the state in which the bound is checked
  obtain ⟨s1, hs1, mid, hlog, hmid, hdb⟩ : ∃ s1 : Engine σ,
      handleNextQuestion env client wsMsg s =
        sendError env client "NO_MORE_QUESTIONS" "No more questions available" s1 ∧
      ∃ mid : List Event, s1.log = s.log ++
          ([Event.repo (RepoCall.GetSessionByID client.SessionID) true,
            Event.repo (RepoCall.GetSessionByID client.SessionID) true,
            Event.repo (RepoCall.GetQuestionListByQuiz session.QuizID) true] ++ mid) ∧
        (∀ e ∈ mid, e.isBroadcast = true) ∧ s1.db = s.db := by
    by_cases hi : session.CurrentQuestionIndex ≥ 0
    · refine ⟨NotifyQuestionEnd env client.SessionID (loadSessionAndQuestions env
        client.SessionID s).2, ?_, ?_⟩
      · simp [handleNextQuestion, hhost, hload, hactive, hi, hnext, hcount, hlast]
      · obtain ⟨⟨b, hb⟩, hd, _⟩ := NotifyQuestionEnd_facts env client.SessionID
          (loadSessionAndQuestions env client.SessionID s).2
        refine ⟨[Event.BroadcastToRoom client.SessionID b none], ?_, ?_, ?_⟩
        · rw [hb, hload]
          simp
        · intro e he
          rw [List.mem_singleton.mp he]
          rfl
        · rw [hd, hload]
    · refine ⟨(loadSessionAndQuestions env client.SessionID s).2, ?_, [], ?_, ?_, ?_⟩
      · simp [handleNextQuestion, hhost, hload, hactive, hi, hnext, hcount, hlast]
      · rw [hload]
        simp
      · intro e he
        cases he
      · rw [hload]
  have hev : newEvents s (HandleMessage env client wsMsg s).1 =
      [Event.repo (RepoCall.GetSessionByID client.SessionID) true,
       Event.repo (RepoCall.GetSessionByID client.SessionID) true,
       Event.repo (RepoCall.GetQuestionListByQuiz session.QuizID) true] ++ mid ++
      [Event.SendToClient client.ID
        (errorEnvelope "NO_MORE_QUESTIONS" "No more questions available"
          (env.clock s1.ticks))] := by
    rw [hrun, hs1]
    apply newEvents_append
    simp [sendError, sendToClient, timeNow, errorEnvelope, hlog, List.append_assoc]
  have hmidcodes : rejections mid = [] := by
    unfold rejections
    rw [List.filterMap_eq_nil_iff]
    intro e he
    have := hmid e he
    cases e <;> simp_all [Event.isBroadcast, Event.rejection]
  refine ⟨?_, ⟨env.clock s1.ticks, ?_⟩, ?_, ?_⟩
  · rw [hev]
    unfold rejections at *
    rw [List.filterMap_append, List.filterMap_append, hmidcodes]
    rfl
  · rw [hev, List.getLast?_append]
    rfl
  · intro e he
    rw [hev] at he
    simp only [List.mem_append, List.mem_cons, List.mem_singleton, List.not_mem_nil,
      or_false] at he
    rcases he with ((h | h | h) | h) | h
    · rw [h]; rfl
    · rw [h]; rfl
    · rw [h]; rfl
    · have := hmid e h
      cases e <;> simp_all [Event.isBroadcast, Event.isUpdateSessionQuestion]
    · rw [h]; rfl
  · rw [hrun, hs1]
    simpa [sendError, sendToClient, timeNow] using hdb

/-- The host sends next_question while the last question (index 1 of 2) is open. -/
theorem C8_next_question_on_last_witness :
    rejections (newEvents (newEngine (demoStore SessionStatusActive 1))
      (HandleMessage memEnv hostClient (bareMessage WSMsgTypeNextQuestion)
        (newEngine (demoStore SessionStatusActive 1))).1) = [("c-host", "NO_MORE_QUESTIONS")] :=
  (C8_next_question_on_last memEnv hostClient (bareMessage WSMsgTypeNextQuestion)
    (newEngine (demoStore SessionStatusActive 1))
    ⟨7, 3, some 100, "ABC123", SessionStatusActive, 1, none, 2⟩
    (demoQuestions.filter (fun q => decide (q.QuizID = 3)))
    rfl rfl (by decide) (by decide) rfl (by decide) (by decide) (by decide) (by decide)).1

/-! ## Rejected messages (claim C7) -/

/-- C7 (counterexample): three rejected host messages during which a `question_end` is
broadcast to room 7 and the room's armed question timer is removed from the timer map:
next_question on the last question (`NO_MORE_QUESTIONS`), next_question when the index update
fails (`UPDATE_FAILED`), and end_quiz when ending the session fails (`END_FAILED`). -/
theorem C7_rejected_yet_broadcast :
    (newEvents (runningEngine 1)
        (HandleMessage memEnv hostClient (bareMessage WSMsgTypeNextQuestion)
          (runningEngine 1)).1 =
      [Event.repo (RepoCall.GetSessionByID 7) true,
       Event.repo (RepoCall.GetSessionByID 7) true,
       Event.repo (RepoCall.GetQuestionListByQuiz 3) true,
       Event.BroadcastToRoom 7 (jsonMarshal ⟨WSMsgTypeQuestionEnd,
         Payload.questionEnd 7 1700000000000000000, 1700000000001000000⟩) none,
       Event.SendToClient "c-host" (errorEnvelope "NO_MORE_QUESTIONS"
         "No more questions available" 1700000000002000000)] ∧
     (runningEngine 1).questionTimers = [(7, 0)] ∧
     (HandleMessage memEnv hostClient (bareMessage WSMsgTypeNextQuestion)
        (runningEngine 1)).1.questionTimers = []) ∧
    (rejections (newEvents (runningEngine 0)
        (HandleMessage failingEnv hostClient (bareMessage WSMsgTypeNextQuestion)
          (runningEngine 0)).1) = [("c-host", "UPDATE_FAILED")] ∧
     (newEvents (runningEngine 0)
        (HandleMessage failingEnv hostClient (bareMessage WSMsgTypeNextQuestion)
          (runningEngine 0)).1).any Event.isBroadcast = true ∧
     (HandleMessage failingEnv hostClient (bareMessage WSMsgTypeNextQuestion)
        (runningEngine 0)).1.questionTimers = []) ∧
    (rejections (newEvents (runningEngine 0)
        (HandleMessage failingEnv hostClient (bareMessage WSMsgTypeEndQuiz)
          (runningEngine 0)).1) = [("c-host", "END_FAILED")] ∧
     (newEvents (runningEngine 0)
        (HandleMessage failingEnv hostClient (bareMessage WSMsgTypeEndQuiz)
          (runningEngine 0)).1).any Event.isBroadcast = true ∧
     (HandleMessage failingEnv hostClient (bareMessage WSMsgTypeEndQuiz)
        (runningEngine 0)).1.questionTimers = []) := by
  decide

theorem Silent.thenBroadcast {s s1 : Engine σ} (h : Silent s s1) (sessionID : Int)
    (message : WSMessage) (excludeClient : Option Client) :
    Silent s (broadcastToRoom sessionID message excludeClient s1) := by
  obtain ⟨⟨b, hb⟩, _⟩ := broadcastToRoom_facts sessionID message excludeClient s1
  exact h.andThen (Silent.of_event _ hb rfl)

theorem Silent.thenLogRepo {s s1 : Engine σ} (h : Silent s s1) (call : RepoCall) (ok : Bool) :
    Silent s (logRepo call ok s1) :=
  h.andThen (Silent.of_event (Event.repo call ok) rfl rfl)

theorem NotifyGameStart_silent (env : Env σ) (sessionID : Int) (s : Engine σ) :
    Silent s (NotifyGameStart env sessionID s) := by
  unfold NotifyGameStart
  have h0 : Silent s (timeNow env (timeNow env s).2).2 := Silent.of_log_eq rfl
  exact h0.thenBroadcast _ _ _

theorem NotifyQuestionStart_silent (env : Env σ) (sessionID : Int) (question : Question)
    (s : Engine σ) : Silent s (NotifyQuestionStart env sessionID question s) := by
  unfold NotifyQuestionStart
  refine Silent.thenBroadcast (Silent.of_log_eq ?_) _ _ _
  rw [(startQuestionTimer_facts _ _ _).1]
  rfl

theorem Outcome.clean {env : Env σ} {client : Client} {s s1 : Engine σ} (h : ReadsOnly s s1)
    (code message : String) :
    Outcome env client s (sendError env client code message s1, client) :=
  Or.inr (Or.inl ⟨code, h.roSendError env client code message, rfl⟩)

theorem Outcome.ofSilent {env : Env σ} {client client1 : Client} {s s1 : Engine σ}
    (h : Silent s s1) : Outcome env client s (s1, client1) :=
  Or.inl h.none_rejected

theorem Silent.thenTimeNow {s s1 : Engine σ} (h : Silent s s1) (env : Env σ) :
    Silent s (timeNow env s1).2 :=
  h.andThen (Silent.of_log_eq rfl)

theorem Silent.thenSetDb {s s1 : Engine σ} (h : Silent s s1) (db' : σ) :
    Silent s { s1 with db := db' } :=
  h.andThen (Silent.of_log_eq rfl)

theorem Silent.thenAfterFunc {s s1 : Engine σ} (h : Silent s s1) (delay : Int) (task : Deferred) :
    Silent s (afterFunc delay task s1).2 :=
  h.andThen (Silent.of_log_eq rfl)

theorem Silent.thenSendToClient {s s1 : Engine σ} (h : Silent s s1) (client : Client)
    (message : WSMessage)
    (hm : (Event.SendToClient client.ID (jsonMarshal message)).rejection = none) :
    Silent s (sendToClient client message s1) :=
  h.andThen (Silent.of_event _ rfl hm)

theorem outcome_handleSubmitAnswer (env : Env σ) (client : Client) (wsMsg : WSMessageIn)
    (s : Engine σ) : Outcome env client s (handleSubmitAnswer env client wsMsg s, client) := by
  unfold handleSubmitAnswer
  split
  · exact Outcome.clean (ReadsOnly.roRefl s) _ _
  · split
    · exact Outcome.clean ((ReadsOnly.roRefl s).roLogRepo _ _) _ _
    · dsimp only
      split
      · exact Outcome.clean ((ReadsOnly.roRefl s).roLogRepo _ _) _ _
      · split
        · exact Outcome.clean (((ReadsOnly.roRefl s).roLogRepo _ _).roLogRepo _ _) _ _
        · refine Outcome.ofSilent ?_
          refine Silent.thenSendToClient ?_ _ _ ?_
          swap
          · rfl
          apply Silent.thenTimeNow
          apply Silent.thenLogRepo
          apply Silent.thenSetDb
          apply Silent.thenLogRepo
          exact Silent.here s

theorem outcome_handlePing (env : Env σ) (client : Client) (wsMsg : WSMessageIn)
    (s : Engine σ) : Outcome env client s (handlePing env client wsMsg s, client) :=
  Outcome.ofSilent (Silent.of_event _ rfl rfl)

theorem outcome_handlePauseGame (env : Env σ) (client : Client) (wsMsg : WSMessageIn)
    (s : Engine σ) : Outcome env client s (handlePauseGame env client wsMsg s, client) := by
  unfold handlePauseGame
  split
  · exact Outcome.clean (ReadsOnly.roRefl s) _ _
  · have h0 : Silent s (timeNow env (timeNow env s).2).2 := Silent.of_log_eq rfl
    exact Outcome.ofSilent (h0.thenBroadcast _ _ _)

theorem outcome_handleResumeGame (env : Env σ) (client : Client) (wsMsg : WSMessageIn)
    (s : Engine σ) : Outcome env client s (handleResumeGame env client wsMsg s, client) := by
  unfold handleResumeGame
  split
  · exact Outcome.clean (ReadsOnly.roRefl s) _ _
  · have h0 : Silent s (timeNow env (timeNow env s).2).2 := Silent.of_log_eq rfl
    exact Outcome.ofSilent (h0.thenBroadcast _ _ _)

theorem outcome_handleStartGame (env : Env σ) (client : Client) (wsMsg : WSMessageIn)
    (s : Engine σ) : Outcome env client s (handleStartGame env client wsMsg s, client) := by
  unfold handleStartGame
  have hload := loadSessionAndQuestions_readsOnly env client.SessionID s
  split
  · exact Outcome.clean (ReadsOnly.roRefl s) _ _
  · dsimp only
    split
    · exact Outcome.clean hload _ _
    · split
      · exact Outcome.clean hload _ _
      · split
        · exact Outcome.clean hload _ _
        · split
          · exact Outcome.clean (hload.roLogRepo _ _) _ _
          · rename_i db' _
            refine Outcome.ofSilent ?_
            have h1 : Silent s { (loadSessionAndQuestions env client.SessionID s).2 with
                db := db' } := hload.toSilent.andThen (Silent.of_log_eq rfl)
            have h2 := h1.thenLogRepo (RepoCall.StartSession client.SessionID) true
            have h3 := h2.andThen (NotifyGameStart_silent env client.SessionID _)
            exact h3.andThen (Silent.of_log_eq rfl)

theorem Outcome.late {env : Env σ} {client : Client} {s s1 : Engine σ} (h : Silent s s1)
    (code message : String)
    (hcode : code = "NO_MORE_QUESTIONS" ∨ code = "UPDATE_FAILED" ∨ code = "END_FAILED") :
    Outcome env client s (sendError env client code message s1, client) :=
  Or.inr (Or.inr ⟨code, hcode, h.thenSendError env client code message⟩)

theorem outcome_handleNextQuestion (env : Env σ) (client : Client) (wsMsg : WSMessageIn)
    (s : Engine σ) : Outcome env client s (handleNextQuestion env client wsMsg s, client) := by
  unfold handleNextQuestion
  have hload := loadSessionAndQuestions_readsOnly env client.SessionID s
  split
  · exact Outcome.clean (ReadsOnly.roRefl s) _ _
  · dsimp only
    split
    · exact Outcome.clean hload _ _
    · rename_i session questions _
      have hs1 : Silent s (if session.CurrentQuestionIndex ≥ 0 then
          NotifyQuestionEnd env client.SessionID (loadSessionAndQuestions env client.SessionID s).2
          else (loadSessionAndQuestions env client.SessionID s).2) := by
        split
        · exact hload.toSilent.andThen (NotifyQuestionEnd_silent env client.SessionID _)
        · exact hload.toSilent
      split
      · exact Outcome.clean hload _ _
      · split
        · exact Outcome.late hs1 _ _ (Or.inl rfl)
        · split
          · exact Outcome.late (hs1.thenLogRepo _ _) _ _ (Or.inr (Or.inl rfl))
          · rename_i db' _
            have hs2 := (hs1.thenSetDb db').thenLogRepo (RepoCall.UpdateSessionQuestion client.SessionID
              (int32 (session.CurrentQuestionIndex + 1))) true
            split
            · exact Outcome.ofSilent (hs2.andThen (Silent.of_event Event.crashed rfl rfl))
            · split
              · exact Outcome.ofSilent (hs2.andThen (Silent.of_event Event.crashed rfl rfl))
              · exact Outcome.ofSilent
                  (hs2.andThen (NotifyQuestionStart_silent env client.SessionID _ _))

theorem outcome_handleEndGame (env : Env σ) (client : Client) (wsMsg : WSMessageIn)
    (s : Engine σ) : Outcome env client s (handleEndGame env client wsMsg s, client) := by
  unfold handleEndGame
  split
  · exact Outcome.clean (ReadsOnly.roRefl s) _ _
  · split
    · exact Outcome.clean ((ReadsOnly.roRefl s).roLogRepo _ _) _ _
    · rename_i session _
      dsimp only
      split
      · exact Outcome.clean ((ReadsOnly.roRefl s).roLogRepo _ _) _ _
      · have h0 : Silent s (stopQuestionTimer client.SessionID
            (logRepo (RepoCall.GetSessionByID client.SessionID) true s)) :=
          ((Silent.here s).thenLogRepo _ _).andThen
            (Silent.of_log_eq (stopQuestionTimer_facts _ _).1)
        have h2 : Silent s (if session.Status = SessionStatusActive then
            NotifyQuestionEnd env client.SessionID (stopQuestionTimer client.SessionID
              (logRepo (RepoCall.GetSessionByID client.SessionID) true s))
            else stopQuestionTimer client.SessionID
              (logRepo (RepoCall.GetSessionByID client.SessionID) true s)) := by
          split
          · exact h0.andThen (NotifyQuestionEnd_silent env client.SessionID _)
          · exact h0
        split
        · refine Outcome.ofSilent ?_
          apply Silent.thenBroadcast
          apply Silent.thenTimeNow
          apply Silent.thenTimeNow
          apply Silent.thenLogRepo
          apply Silent.thenLogRepo
          apply Silent.thenSetDb
          exact h2
        · refine Outcome.late ?_ _ _ (Or.inr (Or.inr rfl))
          apply Silent.thenLogRepo
          apply Silent.thenLogRepo
          apply Silent.thenSetDb
          exact h2

theorem outcome_handleGetSessionState (env : Env σ) (client : Client) (wsMsg : WSMessageIn)
    (s : Engine σ) :
    Outcome env client s (handleGetSessionState env client wsMsg s, client) := by
  unfold handleGetSessionState
  have h3 := (((ReadsOnly.roRefl s).roLogRepo (RepoCall.GetSessionByID client.SessionID)
    (env.repos.GetSessionByID s.db client.SessionID).isSome).roLogRepo
    (RepoCall.GetSessionParticipants client.SessionID)
    (env.repos.GetSessionParticipants s.db client.SessionID).isSome).roLogRepo
    (RepoCall.GetSessionLeaderboard client.SessionID)
    (env.repos.GetSessionLeaderboard s.db client.SessionID).isSome
  dsimp only
  split
  · refine Outcome.ofSilent ?_
    refine Silent.thenSendToClient ?_ _ _ ?_
    swap
    · rfl
    apply Silent.thenTimeNow
    split
    · split
      · split
        · exact h3.toSilent.thenLogRepo _ _
        · exact h3.toSilent.thenLogRepo _ _
      · exact h3.toSilent.thenLogRepo _ _
    · exact h3.toSilent
  · exact Outcome.clean h3 _ _

theorem outcome_handleJoinRoom (env : Env σ) (client : Client) (wsMsg : WSMessageIn)
    (s : Engine σ) : Outcome env client s (handleJoinRoom env client wsMsg s) := by
  unfold handleJoinRoom
  have h2 := ((ReadsOnly.roRefl s).roLogRepo (RepoCall.GetSessionByID client.SessionID)
    (env.repos.GetSessionByID s.db client.SessionID).isSome).roLogRepo
    (RepoCall.GetSessionParticipants client.SessionID)
    (env.repos.GetSessionParticipants s.db client.SessionID).isSome
  split
  · exact Outcome.clean (ReadsOnly.roRefl s) _ _
  · split
    · exact Outcome.clean (ReadsOnly.roRefl s) _ _
    · dsimp only
      split
      · split
        · exact Outcome.clean h2 _ _
        · refine Outcome.ofSilent ?_
          apply Silent.thenAfterFunc
          refine Silent.thenSendToClient ?_ _ _ ?_
          swap
          · rfl
          apply Silent.thenTimeNow
          exact h2.toSilent
      · exact Outcome.clean h2 _ _

theorem outcome_HandleMessage (env : Env σ) (client : Client) (wsMsg : WSMessageIn)
    (s : Engine σ) : Outcome env client s (HandleMessage env client wsMsg s) := by
  unfold HandleMessage
  split
  · exact outcome_handleSubmitAnswer env client wsMsg s
  split
  · exact outcome_handlePing env client wsMsg s
  split
  · exact outcome_handleJoinRoom env client wsMsg s
  split
  · exact outcome_handleStartGame env client wsMsg s
  split
  · exact outcome_handleNextQuestion env client wsMsg s
  split
  · exact outcome_handleEndGame env client wsMsg s
  split
  · exact outcome_handlePauseGame env client wsMsg s
  split
  · exact outcome_handleResumeGame env client wsMsg s
  split
  · exact outcome_handleGetSessionState env client wsMsg s
  · exact Outcome.ofSilent (Silent.here s)

theorem CleanReject.quiet {env : Env σ} {client : Client} {s s' : Engine σ} {code : String}
    (h : CleanReject env client s s' code) :
    (∀ e ∈ newEvents s s', e.isBroadcast = false) ∧ s'.questionTimers = s.questionTimers ∧
      s'.scheduled = s.scheduled ∧ s'.marshalCache = s.marshalCache ∧ s'.db = s.db := by
  obtain ⟨reads, message, hr, rfl⟩ := h
  refine ⟨?_, rfl, rfl, rfl, rfl⟩
  intro e he
  rw [newEvents_append _ _ (reads ++ [Event.SendToClient client.ID
    (errorEnvelope code message (env.clock s.ticks))]) (by simp [List.append_assoc])] at he
  rcases List.mem_append.mp he with h1 | h1
  · have := hr e h1
    cases e <;> simp_all [Event.isRepo, Event.isBroadcast]
  · rw [List.mem_singleton.mp h1]
    rfl

/-- C7 (amended): when the handling of a message sends an error envelope, it sends exactly
one, and to the requesting connection. Unless its code is `NO_MORE_QUESTIONS`,
`UPDATE_FAILED` or `END_FAILED`, the rejection is clean: besides repository calls that leave
the store as it was and one clock reading, nothing happens; in particular nothing is
broadcast, and the timer map, the scheduled timers and goroutines, the marshal cache, the
store and the connection's participant fields are unchanged. -/
theorem C7_rejections_amended (env : Env σ) (client : Client) (wsMsg : WSMessageIn)
    (s : Engine σ) (clientID code : String)
    (hrej : (clientID, code) ∈ rejections (newEvents s (HandleMessage env client wsMsg s).1)) :
    rejections (newEvents s (HandleMessage env client wsMsg s).1) = [(client.ID, code)] ∧
    (code ≠ "NO_MORE_QUESTIONS" → code ≠ "UPDATE_FAILED" → code ≠ "END_FAILED" →
      CleanReject env client s (HandleMessage env client wsMsg s).1 code ∧
      (∀ e ∈ newEvents s (HandleMessage env client wsMsg s).1, e.isBroadcast = false) ∧
      (HandleMessage env client wsMsg s).1.questionTimers = s.questionTimers ∧
      (HandleMessage env client wsMsg s).1.scheduled = s.scheduled ∧
      (HandleMessage env client wsMsg s).1.marshalCache = s.marshalCache ∧
      (HandleMessage env client wsMsg s).1.db = s.db ∧
      (HandleMessage env client wsMsg s).2 = client) := by
  rcases outcome_HandleMessage env client wsMsg s with h | ⟨code', hclean, hclient⟩ |
    ⟨code', hlate, hcodes⟩
  · rw [h] at hrej
    cases hrej
  · have hcodes := hclean.rejected
    rw [hcodes, List.mem_singleton, Prod.mk.injEq] at hrej
    obtain ⟨_, rfl⟩ := hrej
    exact ⟨hcodes, fun _ _ _ => ⟨hclean, hclean.quiet.1, hclean.quiet.2.1, hclean.quiet.2.2.1,
      hclean.quiet.2.2.2.1, hclean.quiet.2.2.2.2, hclient⟩⟩
  · rw [hcodes, List.mem_singleton, Prod.mk.injEq] at hrej
    obtain ⟨_, rfl⟩ := hrej
    refine ⟨hcodes, fun h1 h2 h3 => ?_⟩
    rcases hlate with h | h | h
    · exact absurd h h1
    · exact absurd h h2
    · exact absurd h h3

/-- The player's next_question is rejected with one `UNAUTHORIZED` envelope. -/
theorem C7_rejections_amended_witness :
    rejections (newEvents (runningEngine 0)
      (HandleMessage memEnv playerClient (bareMessage WSMsgTypeNextQuestion)
        (runningEngine 0)).1) = [("c-ann", "UNAUTHORIZED")] :=
  (C7_rejections_amended memEnv playerClient (bareMessage WSMsgTypeNextQuestion)
    (runningEngine 0) "c-ann" "UNAUTHORIZED" (by decide)).1

/-! ## Joining with an unknown user id (claim C18) -/

/-- C18: for a join message whose payload decodes and carries a user id, when the session and
its participants load and no participant has that user id, `handleJoinRoom` makes the two
reads and sends one `PARTICIPANT_NOT_FOUND` error envelope to the requesting connection:
nothing is broadcast, nothing else of the engine changes, and the connection (its participant
id, user id, nickname and host flag) is returned as it was. -/
theorem C18_join_unknown_participant (env : Env σ) (client : Client) (wsMsg : WSMessageIn)
    (s : Engine σ) (payload : WSJoinPayload) (userID : Int) (session : QuizSession)
    (participants : List SessionParticipant)
    (hp : wsMsg.joinPayload = some payload)
    (hu : payload.UserID = some userID)
    (hs : env.repos.GetSessionByID s.db client.SessionID = some session)
    (hps : env.repos.GetSessionParticipants s.db client.SessionID = some participants)
    (hno : ∀ p ∈ participants, p.UserID ≠ some userID) :
    handleJoinRoom env client wsMsg s =
      ({ s with
          ticks := s.ticks + 1
          log := s.log ++
            [Event.repo (RepoCall.GetSessionByID client.SessionID) true,
             Event.repo (RepoCall.GetSessionParticipants client.SessionID) true,
             Event.SendToClient client.ID (errorEnvelope "PARTICIPANT_NOT_FOUND"
               "No participant found with this user_id. Please call CreateSession or JoinSession API first"
               (env.clock s.ticks))] },
       client) := by
  have hfind : participants.find? (fun p => decide (p.UserID = some userID)) = none := by
    rw [List.find?_eq_none]
    intro p hp'
    simpa using hno p hp'
  simp [handleJoinRoom, hp, hu, hs, hps, hfind, logRepo, sendError, sendToClient, timeNow,
    errorEnvelope]

/-- A connection to room 7 sends join with user id 42, which no participant of the session
has. -/
theorem C18_join_unknown_participant_witness :
    handleJoinRoom memEnv ⟨"c-new", 7, 0, none, "", false⟩
        ⟨WSMsgTypeJoin, some ⟨"7", "zed", some 42⟩, none⟩
        (newEngine (demoStore SessionStatusWaiting (-1))) =
      ({ newEngine (demoStore SessionStatusWaiting (-1)) with
          ticks := 1
          log :=
            [Event.repo (RepoCall.GetSessionByID 7) true,
             Event.repo (RepoCall.GetSessionParticipants 7) true,
             Event.SendToClient "c-new" (errorEnvelope "PARTICIPANT_NOT_FOUND"
               "No participant found with this user_id. Please call CreateSession or JoinSession API first"
               1700000000000000000)] },
       ⟨"c-new", 7, 0, none, "", false⟩) :=
  C18_join_unknown_participant memEnv ⟨"c-new", 7, 0, none, "", false⟩
    ⟨WSMsgTypeJoin, some ⟨"7", "zed", some 42⟩, none⟩
    (newEngine (demoStore SessionStatusWaiting (-1))) ⟨"7", "zed", some 42⟩ 42
    ⟨7, 3, some 100, "ABC123", SessionStatusWaiting, -1, none, 2⟩
    [⟨1, 7, some 100, "host", 0, true⟩, ⟨2, 7, some 200, "ann", 0, false⟩]
    rfl rfl (by decide) (by decide) (by decide)

/-! ## What clients see of a question (claim C19) -/

/-- C19: for two questions that agree in everything but the is-correct flags of their
answers, `NotifyQuestionStart` leaves the engine in the same state, log included, so it
broadcasts the same bytes, and the `current_question` projection of `handleGetSessionState` is
the same; in both projections every answer is reduced to its text. -/
theorem C19_projection_hides_flags (q1 q2 : Question) (h : sameButFlags q1 q2) :
    (∀ (env : Env σ) (sessionID : Int) (s : Engine σ),
      NotifyQuestionStart env sessionID q1 s = NotifyQuestionStart env sessionID q2 s) ∧
    currentQuestionView q1 = currentQuestionView q2 ∧
    (currentQuestionView q1).answers = q1.Answers.map (fun a => a.Text) := by
  obtain ⟨h1, _, h3, h4, h5, h6, h7⟩ := h
  refine ⟨?_, ?_, rfl⟩
  · intro env sessionID s
    simp only [NotifyQuestionStart, h1, h3, h4, h5, h6, h7]
  · simp only [currentQuestionView, h1, h3, h4, h5, h6, h7]

/-- Question 11 with the flags of its two answers swapped is projected as question 11 is. -/
theorem C19_projection_hides_flags_witness :
    currentQuestionView
        ⟨11, 3, "Capital of France?", QuestionTypeSingleChoice,
          [⟨"Paris", true⟩, ⟨"Rome", false⟩], TimeLimitType5, 0⟩ =
      currentQuestionView
        ⟨11, 3, "Capital of France?", QuestionTypeSingleChoice,
          [⟨"Paris", false⟩, ⟨"Rome", true⟩], TimeLimitType5, 0⟩ :=
  (C19_projection_hides_flags (σ := Store)
    ⟨11, 3, "Capital of France?", QuestionTypeSingleChoice,
      [⟨"Paris", true⟩, ⟨"Rome", false⟩], TimeLimitType5, 0⟩
    ⟨11, 3, "Capital of France?", QuestionTypeSingleChoice,
      [⟨"Paris", false⟩, ⟨"Rome", true⟩], TimeLimitType5, 0⟩
    ⟨rfl, rfl, rfl, rfl, rfl, rfl, rfl⟩).2.1

/-! ## What the engine's operations add to the log -/

theorem Grows.gEvents {P : Event → Prop} {s s' : Engine σ} (h : Grows P s s') :
    ∀ e ∈ newEvents s s', P e := by
  obtain ⟨l, hl, hP⟩ := h
  rw [newEvents_append s s' l hl]
  exact hP

theorem Grows.gRefl (P : Event → Prop) (s : Engine σ) : Grows P s s :=
  ⟨[], by simp, by simp⟩

theorem Grows.gTrans {P : Event → Prop} {s s1 s2 : Engine σ} (h1 : Grows P s s1)
    (h2 : Grows P s1 s2) : Grows P s s2 := by
  obtain ⟨l1, e1, p1⟩ := h1
  obtain ⟨l2, e2, p2⟩ := h2
  refine ⟨l1 ++ l2, by rw [e2, e1, List.append_assoc], ?_⟩
  intro e he
  rcases List.mem_append.mp he with h | h
  · exact p1 e h
  · exact p2 e h

theorem Grows.gLogEq {P : Event → Prop} {s s1 s2 : Engine σ} (h : Grows P s s1)
    (hlog : s2.log = s1.log) : Grows P s s2 :=
  h.gTrans ⟨[], by simp [hlog], by simp⟩

theorem Grows.gEvent {P : Event → Prop} {s s1 s2 : Engine σ} (h : Grows P s s1) (e : Event)
    (hlog : s2.log = s1.log ++ [e]) (he : P e) : Grows P s s2 :=
  h.gTrans ⟨[e], hlog, by simpa using he⟩

theorem Grows.gLogRepo {P : Event → Prop} {s s1 : Engine σ} (h : Grows P s s1)
    (call : RepoCall) (ok : Bool) (he : P (Event.repo call ok)) :
    Grows P s (logRepo call ok s1) :=
  h.gEvent (Event.repo call ok) rfl he

theorem Grows.gSetDb {P : Event → Prop} {s s1 : Engine σ} (h : Grows P s s1) (db' : σ) :
    Grows P s { s1 with db := db' } :=
  h.gLogEq rfl

theorem Grows.gTimeNow {P : Event → Prop} {s s1 : Engine σ} (h : Grows P s s1)
    (env : Env σ) : Grows P s (timeNow env s1).2 :=
  h.gLogEq rfl

theorem Grows.gAfterFunc {P : Event → Prop} {s s1 : Engine σ} (h : Grows P s s1)
    (delay : Int) (task : Deferred) : Grows P s (afterFunc delay task s1).2 :=
  h.gLogEq rfl

theorem Grows.gStopTimer {P : Event → Prop} {s s1 : Engine σ} (h : Grows P s s1)
    (sessionID : Int) : Grows P s (stopQuestionTimer sessionID s1) :=
  h.gLogEq (stopQuestionTimer_facts sessionID s1).1

theorem Grows.gStartTimer {P : Event → Prop} {s s1 : Engine σ} (h : Grows P s s1)
    (sessionID timeLimit : Int) : Grows P s (startQuestionTimer sessionID timeLimit s1) :=
  h.gLogEq (startQuestionTimer_facts sessionID timeLimit s1).1

theorem Grows.gBroadcast {P : Event → Prop} {s s1 : Engine σ} (h : Grows P s s1)
    (hQ : ∀ e, e.isSessionWrite = false → P e) (sessionID : Int) (message : WSMessage)
    (excludeClient : Option Client) :
    Grows P s (broadcastToRoom sessionID message excludeClient s1) := by
  obtain ⟨⟨b, hb⟩, _⟩ := broadcastToRoom_facts sessionID message excludeClient s1
  exact h.gEvent _ hb (hQ _ rfl)

theorem Grows.gSendToClient {P : Event → Prop} {s s1 : Engine σ} (h : Grows P s s1)
    (hQ : ∀ e, e.isSessionWrite = false → P e) (client : Client) (message : WSMessage) :
    Grows P s (sendToClient client message s1) :=
  h.gEvent _ rfl (hQ _ rfl)

theorem Grows.gSendError {P : Event → Prop} {s s1 : Engine σ} (h : Grows P s s1)
    (hQ : ∀ e, e.isSessionWrite = false → P e) (env : Env σ) (client : Client)
    (code message : String) : Grows P s (sendError env client code message s1) := by
  unfold sendError
  exact (h.gTimeNow env).gSendToClient hQ _ _

theorem Grows.gQuestionEnd {P : Event → Prop} {s s1 : Engine σ} (h : Grows P s s1)
    (hQ : ∀ e, e.isSessionWrite = false → P e) (env : Env σ) (sessionID : Int) :
    Grows P s (NotifyQuestionEnd env sessionID s1) := by
  unfold NotifyQuestionEnd
  exact (((h.gStopTimer sessionID).gTimeNow env).gTimeNow env).gBroadcast hQ _ _ _

theorem Grows.gQuestionStart {P : Event → Prop} {s s1 : Engine σ} (h : Grows P s s1)
    (hQ : ∀ e, e.isSessionWrite = false → P e) (env : Env σ) (sessionID : Int)
    (question : Question) : Grows P s (NotifyQuestionStart env sessionID question s1) := by
  unfold NotifyQuestionStart
  exact ((h.gTimeNow env).gStartTimer _ _).gBroadcast hQ _ _ _

theorem Grows.gGameStart {P : Event → Prop} {s s1 : Engine σ} (h : Grows P s s1)
    (hQ : ∀ e, e.isSessionWrite = false → P e) (env : Env σ) (sessionID : Int) :
    Grows P s (NotifyGameStart env sessionID s1) := by
  unfold NotifyGameStart
  exact ((h.gTimeNow env).gTimeNow env).gBroadcast hQ _ _ _

theorem Grows.gLeaderboard {P : Event → Prop} {s s1 : Engine σ} (h : Grows P s s1)
    (hQ : ∀ e, e.isSessionWrite = false → P e) (env : Env σ) (sessionID : Int) :
    Grows P s (showIntermediateLeaderboard env sessionID s1) := by
  unfold showIntermediateLeaderboard
  split
  · refine Grows.gLogRepo h _ _ (hQ _ ?_)
    rfl
  · refine Grows.gBroadcast ?_ hQ _ _ _
    refine Grows.gTimeNow (Grows.gTimeNow ?_ env) env
    refine Grows.gLogRepo h _ _ (hQ _ ?_)
    rfl

theorem Grows.gReads {P : Event → Prop} {s s1 s2 : Engine σ} (h : Grows P s s1)
    (hQ : ∀ e, e.isSessionWrite = false → P e) (hr : ReadsOnly s1 s2)
    (hreads : ∀ e ∈ newEvents s1 s2, e.isSessionWrite = false) : Grows P s s2 := by
  obtain ⟨reads, _, rfl⟩ := hr
  refine h.gTrans ⟨reads, rfl, ?_⟩
  intro e he
  apply hQ
  apply hreads
  rw [newEvents_append _ _ reads rfl]
  exact he

theorem loadSessionAndQuestions_noWrite (env : Env σ) (sessionID : Int) (s : Engine σ) :
    ∀ e ∈ newEvents s (loadSessionAndQuestions env sessionID s).2,
      e.isSessionWrite = false := by
  have h : Grows (fun e => e.isSessionWrite = false) s
      (loadSessionAndQuestions env sessionID s).2 := by
    unfold loadSessionAndQuestions
    dsimp only
    split
    · refine Grows.gLogRepo (Grows.gLogRepo (Grows.gRefl _ s) _ _ ?_) _ _ ?_ <;> rfl
    · split
      · refine Grows.gLogRepo (Grows.gLogRepo (Grows.gLogRepo (Grows.gRefl _ s) _ _ ?_)
          _ _ ?_) _ _ ?_ <;> rfl
      · refine Grows.gLogRepo (Grows.gLogRepo (Grows.gLogRepo (Grows.gRefl _ s) _ _ ?_)
          _ _ ?_) _ _ ?_ <;> rfl
  exact h.gEvents

theorem Grows.gLoad {P : Event → Prop} {s s1 : Engine σ} (h : Grows P s s1)
    (hQ : ∀ e, e.isSessionWrite = false → P e) (env : Env σ) (sessionID : Int) :
    Grows P s (loadSessionAndQuestions env sessionID s1).2 :=
  h.gReads hQ (loadSessionAndQuestions_readsOnly env sessionID s1)
    (loadSessionAndQuestions_noWrite env sessionID s1)

theorem loadSessionAndQuestions_some (env : Env σ) (sessionID : Int) (s : Engine σ)
    (session : QuizSession) (questions : List Question)
    (h : (loadSessionAndQuestions env sessionID s).1 = some (session, questions)) :
    env.repos.GetSessionByID s.db sessionID = some session ∧
      env.repos.GetQuestionListByQuiz s.db session.QuizID = some questions := by
  unfold loadSessionAndQuestions at h
  cases hs : env.repos.GetSessionByID s.db sessionID with
  | none => simp [logRepo, hs] at h
  | some session2 =>
    cases hl : env.repos.GetQuestionListByQuiz s.db session2.QuizID with
    | none => simp [logRepo, hs, hl] at h
    | some qs =>
      simp only [logRepo, hs, hl, Option.some.injEq, Prod.mk.injEq] at h
      obtain ⟨rfl, rfl⟩ := h
      exact ⟨rfl, hl⟩

/-! ## Persisted question indices (claim C12) -/

theorem persistedIndex_of_not_write (e : Event) (h : e.isSessionWrite = false) :
    e.persistedIndex = none := by
  cases e with
  | repo call ok => cases call <;> simp_all [Event.isSessionWrite, RepoCall.isSessionWrite,
      Event.persistedIndex]
  | _ => rfl

theorem broadcastToRoom_scheduled (sessionID : Int) (message : WSMessage)
    (excludeClient : Option Client) (s : Engine σ) :
    ∀ t ∈ (broadcastToRoom sessionID message excludeClient s).scheduled,
      t ∈ s.scheduled ∨ ∃ key, t.task = Deferred.marshalCacheDelete key := by
  unfold broadcastToRoom
  dsimp only
  split
  · split
    · exact fun t ht => Or.inl ht
    · intro t ht
      simp only [afterFunc, List.mem_append, List.mem_singleton] at ht
      rcases ht with h | h
      · exact Or.inl h
      · exact Or.inr ⟨_, by rw [h]⟩
  · exact fun t ht => Or.inl ht

theorem ReadsOnly.roScheduled {s s1 : Engine σ} (h : ReadsOnly s s1) :
    s1.scheduled = s.scheduled := by
  obtain ⟨reads, _, rfl⟩ := h
  rfl

theorem handleStartGame_scheduled (env : Env σ) (client : Client) (wsMsg : WSMessageIn)
    (s : Engine σ) :
    ∀ t ∈ (handleStartGame env client wsMsg s).scheduled,
      t ∈ s.scheduled ∨ (∃ key, t.task = Deferred.marshalCacheDelete key) ∨
      ∃ session questions,
        env.repos.GetSessionByID s.db client.SessionID = some session ∧
        env.repos.GetQuestionListByQuiz s.db session.QuizID = some questions ∧
        questions ≠ [] ∧ t.task = Deferred.firstQuestion client.SessionID questions := by
  have hload := loadSessionAndQuestions_readsOnly env client.SessionID s
  have hsame : ∀ (code message : String) (s1 : Engine σ), ReadsOnly s s1 →
      ∀ t ∈ (sendError env client code message s1).scheduled, t ∈ s.scheduled := by
    intro code message s1 h1 t ht
    have : (sendError env client code message s1).scheduled = s1.scheduled := rfl
    rw [this, h1.roScheduled] at ht
    exact ht
  unfold handleStartGame
  split
  · exact fun t ht => Or.inl (hsame _ _ s (ReadsOnly.roRefl s) t ht)
  · dsimp only
    split
    · exact fun t ht => Or.inl (hsame _ _ _ hload t ht)
    · rename_i session questions heq
      obtain ⟨hs, hl⟩ := loadSessionAndQuestions_some env client.SessionID s session questions heq
      split
      · exact fun t ht => Or.inl (hsame _ _ _ hload t ht)
      · split
        · exact fun t ht => Or.inl (hsame _ _ _ hload t ht)
        · rename_i hlen
          have hne : questions ≠ [] := fun h => hlen (by rw [h]; rfl)
          split
          · exact fun t ht => Or.inl (hsame _ _ _ (hload.roLogRepo _ _) t ht)
          · intro t ht
            simp only [afterFunc, List.mem_append, List.mem_singleton] at ht
            rcases ht with h | h
            · unfold NotifyGameStart at h
              rcases broadcastToRoom_scheduled _ _ _ _ t h with h' | h'
              · left
                have : (loadSessionAndQuestions env client.SessionID s).2.scheduled =
                    s.scheduled := hload.roScheduled
                simpa [timeNow, logRepo, this] using h'
              · exact Or.inr (Or.inl h')
            · exact Or.inr (Or.inr ⟨session, questions, hs, hl, hne, by rw [h]⟩)

theorem firstQuestionStep_index (env : Env σ) (sessionID : Int) (questions : List Question)
    (s : Engine σ) :
    ∀ e ∈ newEvents s (firstQuestionStep env sessionID questions s),
      ∀ idx, e.persistedIndex = some idx → idx = 0 := by
  have hQ : ∀ e : Event, e.isSessionWrite = false →
      ∀ idx, e.persistedIndex = some idx → idx = 0 := by
    intro e he idx hidx
    rw [persistedIndex_of_not_write e he] at hidx
    cases hidx
  have hW : ∀ ok idx,
      (Event.repo (RepoCall.UpdateSessionQuestion sessionID 0) ok).persistedIndex = some idx →
        idx = 0 := by
    intro ok idx h
    simp only [Event.persistedIndex, Option.some.injEq] at h
    exact h.symm
  have h : Grows (fun e => ∀ idx, e.persistedIndex = some idx → idx = 0) s
      (firstQuestionStep env sessionID questions s) := by
    unfold firstQuestionStep
    split
    · exact (Grows.gRefl _ s).gLogRepo _ _ (hW false)
    · dsimp only
      split
      · refine Grows.gEvent ?_ Event.crashed rfl (hQ _ rfl)
        exact ((Grows.gRefl _ s).gSetDb _).gLogRepo _ _ (hW true)
      · refine Grows.gQuestionStart ?_ hQ env sessionID _
        exact ((Grows.gRefl _ s).gSetDb _).gLogRepo _ _ (hW true)
  exact h.gEvents

theorem handleNextQuestion_index (env : Env σ) (client : Client) (wsMsg : WSMessageIn)
    (s : Engine σ)
    (hrange : ∀ session, env.repos.GetSessionByID s.db client.SessionID = some session →
      -1 ≤ session.CurrentQuestionIndex ∧ session.CurrentQuestionIndex < 2147483647)
    (hlen : ∀ quizID questions, env.repos.GetQuestionListByQuiz s.db quizID = some questions →
      (questions.length : Int) < 2147483648) :
    ∀ e ∈ newEvents s (handleNextQuestion env client wsMsg s),
      ∀ idx, e.persistedIndex = some idx →
        ∃ session questions,
          env.repos.GetSessionByID s.db client.SessionID = some session ∧
          env.repos.GetQuestionListByQuiz s.db session.QuizID = some questions ∧
          idx = session.CurrentQuestionIndex + 1 ∧ 0 ≤ idx ∧ idx < questions.length := by
  have hQ : ∀ e : Event, e.isSessionWrite = false →
      ∀ idx, e.persistedIndex = some idx →
        ∃ session questions,
          env.repos.GetSessionByID s.db client.SessionID = some session ∧
          env.repos.GetQuestionListByQuiz s.db session.QuizID = some questions ∧
          idx = session.CurrentQuestionIndex + 1 ∧ 0 ≤ idx ∧ idx < questions.length := by
    intro e he idx hidx
    rw [persistedIndex_of_not_write e he] at hidx
    cases hidx
  refine Grows.gEvents ?_
  unfold handleNextQuestion
  split
  · exact (Grows.gRefl _ s).gSendError hQ _ _ _ _
  · dsimp only
    split
    · exact ((Grows.gRefl _ s).gLoad hQ env _).gSendError hQ _ _ _ _
    · rename_i session questions heq
      obtain ⟨hs, hl⟩ := loadSessionAndQuestions_some env client.SessionID s session questions heq
      obtain ⟨hlo, hhi⟩ := hrange session hs
      have hcount := hlen _ _ hl
      have hnext : int32 (session.CurrentQuestionIndex + 1) = session.CurrentQuestionIndex + 1 :=
        int32_of_isInt32 (by unfold isInt32; omega)
      have hlen32 : int32 (questions.length : Int) = questions.length :=
        int32_of_isInt32 (by unfold isInt32; omega)
      have hs1 : Grows (fun e => ∀ idx, e.persistedIndex = some idx →
          ∃ session questions,
            env.repos.GetSessionByID s.db client.SessionID = some session ∧
            env.repos.GetQuestionListByQuiz s.db session.QuizID = some questions ∧
            idx = session.CurrentQuestionIndex + 1 ∧ 0 ≤ idx ∧ idx < questions.length) s
          (if session.CurrentQuestionIndex ≥ 0 then
            NotifyQuestionEnd env client.SessionID
              (loadSessionAndQuestions env client.SessionID s).2
           else (loadSessionAndQuestions env client.SessionID s).2) := by
        split
        · exact ((Grows.gRefl _ s).gLoad hQ env _).gQuestionEnd hQ env _
        · exact (Grows.gRefl _ s).gLoad hQ env _
      split
      · exact ((Grows.gRefl _ s).gLoad hQ env _).gSendError hQ _ _ _ _
      · split
        · exact hs1.gSendError hQ _ _ _ _
        · rename_i hlt
          have hW : ∀ ok idx, (Event.repo (RepoCall.UpdateSessionQuestion client.SessionID
              (int32 (session.CurrentQuestionIndex + 1))) ok).persistedIndex = some idx →
              ∃ session questions,
                env.repos.GetSessionByID s.db client.SessionID = some session ∧
                env.repos.GetQuestionListByQuiz s.db session.QuizID = some questions ∧
                idx = session.CurrentQuestionIndex + 1 ∧ 0 ≤ idx ∧ idx < questions.length := by
            intro ok idx h
            simp only [Event.persistedIndex, Option.some.injEq] at h
            rw [hnext, hlen32] at hlt
            rw [hnext] at h
            exact ⟨session, questions, hs, hl, h.symm, by omega, by omega⟩
          split
          · exact (hs1.gLogRepo _ _ (hW false)).gSendError hQ _ _ _ _
          · rename_i db' _
            have hs2 := (hs1.gSetDb db').gLogRepo
              (RepoCall.UpdateSessionQuestion client.SessionID
                (int32 (session.CurrentQuestionIndex + 1))) true (hW true)
            split
            · exact hs2.gEvent Event.crashed rfl (hQ _ rfl)
            · split
              · exact hs2.gEvent Event.crashed rfl (hQ _ rfl)
              · exact hs2.gQuestionStart hQ env _ _

theorem Grows.gAutoEnd {P : Event → Prop} {s s1 : Engine σ} (h : Grows P s s1)
    (hN : ∀ e, e.persistedIndex = none → P e) (env : Env σ) (sessionID : Int) :
    Grows P s (autoEndGame env sessionID s1) := by
  have hQ : ∀ e : Event, e.isSessionWrite = false → P e :=
    fun e he => hN e (persistedIndex_of_not_write e he)
  unfold autoEndGame
  split
  · exact h.gLogRepo _ _ (hN _ rfl)
  · rename_i db' _
    refine Grows.gStopTimer ?_ _
    refine Grows.gBroadcast ?_ hQ _ _ _
    refine Grows.gTimeNow (Grows.gTimeNow ?_ env) env
    refine Grows.gLogRepo ?_ _ _ (hN _ rfl)
    exact (h.gSetDb db').gLogRepo (RepoCall.EndSession sessionID) true (hN _ rfl)

theorem autoNextQuestion_index (env : Env σ) (sessionID : Int) (s : Engine σ)
    (hrange : ∀ session, env.repos.GetSessionByID s.db sessionID = some session →
      -1 ≤ session.CurrentQuestionIndex ∧ session.CurrentQuestionIndex < 2147483647)
    (hlen : ∀ quizID questions, env.repos.GetQuestionListByQuiz s.db quizID = some questions →
      (questions.length : Int) < 2147483648) :
    ∀ e ∈ newEvents s (autoNextQuestion env sessionID s), PersistsNext env sessionID s e := by
  have hN : ∀ e : Event, e.persistedIndex = none → PersistsNext env sessionID s e := by
    intro e he idx hidx
    rw [he] at hidx
    cases hidx
  have hQ : ∀ e : Event, e.isSessionWrite = false → PersistsNext env sessionID s e :=
    fun e he => hN e (persistedIndex_of_not_write e he)
  refine Grows.gEvents ?_
  unfold autoNextQuestion
  split
  · exact (Grows.gRefl _ s).gLogRepo _ _ (hN _ rfl)
  · rename_i session hs
    have h1 : Grows (PersistsNext env sessionID s) s
        (logRepo (RepoCall.GetSessionByID sessionID) true s) :=
      (Grows.gRefl _ s).gLogRepo _ _ (hN _ rfl)
    dsimp only
    split
    · exact h1
    · split
      · exact h1.gLogRepo _ _ (hN _ rfl)
      · rename_i questions hl
        have hl' : env.repos.GetQuestionListByQuiz s.db session.QuizID = some questions := hl
        have h2 := h1.gLogRepo (RepoCall.GetQuestionListByQuiz session.QuizID) true (hN _ rfl)
        obtain ⟨hlo, hhi⟩ := hrange session hs
        have hcount := hlen _ _ hl'
        have hnext : int32 (session.CurrentQuestionIndex + 1) =
            session.CurrentQuestionIndex + 1 :=
          int32_of_isInt32 (by unfold isInt32; omega)
        have hlen32 : int32 (questions.length : Int) = questions.length :=
          int32_of_isInt32 (by unfold isInt32; omega)
        split
        · exact h2.gAutoEnd hN env sessionID
        · rename_i hlt
          have hW : ∀ ok, PersistsNext env sessionID s
              (Event.repo (RepoCall.UpdateSessionQuestion sessionID
                (int32 (session.CurrentQuestionIndex + 1))) ok) := by
            intro ok idx h
            simp only [Event.persistedIndex, Option.some.injEq] at h
            rw [hnext, hlen32] at hlt
            rw [hnext] at h
            exact ⟨session, questions, hs, hl', h.symm, by omega, by omega⟩
          split
          · exact h2.gLogRepo _ _ (hW false)
          · rename_i db' _
            have h3 := (h2.gSetDb db').gLogRepo
              (RepoCall.UpdateSessionQuestion sessionID
                (int32 (session.CurrentQuestionIndex + 1))) true (hW true)
            split
            · exact h3.gEvent Event.crashed rfl (hQ _ rfl)
            · split
              · exact h3.gEvent Event.crashed rfl (hQ _ rfl)
              · exact (h3.gQuestionStart hQ env _ _).gStartTimer _ _

theorem handleStartGame_noIndex (env : Env σ) (client : Client) (wsMsg : WSMessageIn)
    (s : Engine σ) :
    ∀ e ∈ newEvents s (handleStartGame env client wsMsg s), e.persistedIndex = none := by
  have hQ : ∀ e : Event, e.isSessionWrite = false → e.persistedIndex = none :=
    persistedIndex_of_not_write
  refine Grows.gEvents ?_
  unfold handleStartGame
  split
  · exact (Grows.gRefl _ s).gSendError hQ _ _ _ _
  · dsimp only
    have h0 : Grows (fun e => e.persistedIndex = none) s
        (loadSessionAndQuestions env client.SessionID s).2 := (Grows.gRefl _ s).gLoad hQ env _
    split
    · exact h0.gSendError hQ _ _ _ _
    · split
      · exact h0.gSendError hQ _ _ _ _
      · split
        · exact h0.gSendError hQ _ _ _ _
        · split
          · refine Grows.gSendError ?_ hQ _ _ _ _
            exact h0.gLogRepo (RepoCall.StartSession client.SessionID) false rfl
          · rename_i db' _
            refine Grows.gAfterFunc ?_ _ _
            refine Grows.gGameStart ?_ hQ env _
            exact (h0.gSetDb db').gLogRepo (RepoCall.StartSession client.SessionID) true rfl

theorem demoStore_index_range (status : SessionStatus) (index : Int) (hlo : -1 ≤ index)
    (hhi : index < 2147483647) (sid : Int) (session : QuizSession)
    (h : memEnv.repos.GetSessionByID (demoStore status index) sid = some session) :
    -1 ≤ session.CurrentQuestionIndex ∧ session.CurrentQuestionIndex < 2147483647 := by
  simp only [memEnv, memRepos, demoStore, List.find?] at h
  split at h
  · cases h
    exact ⟨hlo, hhi⟩
  · cases h

theorem demoStore_questions_short (status : SessionStatus) (index : Int) (quizID : Int)
    (questions : List Question)
    (h : memEnv.repos.GetQuestionListByQuiz (demoStore status index) quizID = some questions) :
    (questions.length : Int) < 2147483648 := by
  simp only [memEnv, memRepos, demoStore, Option.some.injEq] at h
  have hle : questions.length ≤ demoQuestions.length := by
    rw [← h]
    exact List.length_filter_le _ _
  have : demoQuestions.length = 3 := rfl
  omega

/-- C12: every index handed to `UpdateSessionQuestion` is non-negative and below the length of
the question list loaded by the operation that persists it. For `start_quiz`: the handler
itself persists no index, the only first-question step it schedules carries the non-empty
list it loaded, and that step persists index 0 only. For `next_question` and the automatic
advance: the persisted index is the loaded session's current index plus one and lies in
`0 ≤ idx < questions.length` for the loaded list. The stored index is taken to lie in
`-1 ≤ i < 2^31 - 1` and the list to have fewer than `2^31` entries, so the 32-bit arithmetic
of the source does not wrap. -/
theorem C12_persisted_index_in_range (env : Env σ) (client : Client) (wsMsg : WSMessageIn)
    (sessionID : Int) (s : Engine σ)
    (hrange : ∀ sid session, env.repos.GetSessionByID s.db sid = some session →
      -1 ≤ session.CurrentQuestionIndex ∧ session.CurrentQuestionIndex < 2147483647)
    (hlen : ∀ quizID questions, env.repos.GetQuestionListByQuiz s.db quizID = some questions →
      (questions.length : Int) < 2147483648) :
    (∀ e ∈ newEvents s (handleStartGame env client wsMsg s), e.persistedIndex = none) ∧
    (∀ t ∈ (handleStartGame env client wsMsg s).scheduled, t ∉ s.scheduled →
      ∀ sid captured, t.task = Deferred.firstQuestion sid captured →
        (∃ session, env.repos.GetSessionByID s.db client.SessionID = some session ∧
          env.repos.GetQuestionListByQuiz s.db session.QuizID = some captured) ∧
        ∀ s2 : Engine σ, ∀ e ∈ newEvents s2 (runDeferred env t.task s2),
          ∀ idx, e.persistedIndex = some idx → idx = 0 ∧ idx < captured.length) ∧
    (∀ e ∈ newEvents s (handleNextQuestion env client wsMsg s),
      ∀ idx, e.persistedIndex = some idx →
        ∃ session questions,
          env.repos.GetSessionByID s.db client.SessionID = some session ∧
          env.repos.GetQuestionListByQuiz s.db session.QuizID = some questions ∧
          idx = session.CurrentQuestionIndex + 1 ∧ 0 ≤ idx ∧ idx < questions.length) ∧
    (∀ e ∈ newEvents s (autoNextQuestion env sessionID s),
      ∀ idx, e.persistedIndex = some idx →
        ∃ session questions,
          env.repos.GetSessionByID s.db sessionID = some session ∧
          env.repos.GetQuestionListByQuiz s.db session.QuizID = some questions ∧
          idx = session.CurrentQuestionIndex + 1 ∧ 0 ≤ idx ∧ idx < questions.length) := by
  refine ⟨handleStartGame_noIndex env client wsMsg s, ?_,
    handleNextQuestion_index env client wsMsg s (hrange client.SessionID) hlen,
    autoNextQuestion_index env sessionID s (hrange sessionID) hlen⟩
  intro t ht hnew sid captured htask
  rcases handleStartGame_scheduled env client wsMsg s t ht with h | ⟨key, h⟩ | h
  · exact absurd h hnew
  · rw [h] at htask
    cases htask
  · obtain ⟨session, questions, hs, hl, hne, h⟩ := h
    rw [h] at htask
    cases htask
    refine ⟨⟨session, hs, hl⟩, ?_⟩
    intro s2 e he idx hidx
    rw [h] at he
    have h0 := firstQuestionStep_index env client.SessionID captured s2 e he idx hidx
    refine ⟨h0, ?_⟩
    rw [h0]
    have hpos : 0 < captured.length := List.length_pos.mpr hne
    omega

theorem C12_persisted_index_in_range_witness :
    (∀ e ∈ newEvents (newEngine (demoStore SessionStatusActive 0))
        (handleNextQuestion memEnv hostClient (bareMessage WSMsgTypeNextQuestion)
          (newEngine (demoStore SessionStatusActive 0))),
      ∀ idx, e.persistedIndex = some idx →
        ∃ session questions,
          memEnv.repos.GetSessionByID (newEngine (demoStore SessionStatusActive 0)).db
            hostClient.SessionID = some session ∧
          memEnv.repos.GetQuestionListByQuiz (newEngine (demoStore SessionStatusActive 0)).db
            session.QuizID = some questions ∧
          idx = session.CurrentQuestionIndex + 1 ∧ 0 ≤ idx ∧ idx < questions.length) ∧
    Event.repo (RepoCall.UpdateSessionQuestion 7 1) true ∈
      newEvents (newEngine (demoStore SessionStatusActive 0))
        (handleNextQuestion memEnv hostClient (bareMessage WSMsgTypeNextQuestion)
          (newEngine (demoStore SessionStatusActive 0))) :=
  ⟨(C12_persisted_index_in_range memEnv hostClient (bareMessage WSMsgTypeNextQuestion) 7
      (newEngine (demoStore SessionStatusActive 0))
      (demoStore_index_range SessionStatusActive 0 (by decide) (by decide))
      (demoStore_questions_short SessionStatusActive 0)).2.2.1,
   by decide⟩

/-! ## The marshal cache -/

theorem lookup_some_mem (key : CacheKey) (bytes : Bytes) :
    ∀ m : List (CacheKey × Bytes), m.lookup key = some bytes → (key, bytes) ∈ m := by
  intro m
  induction m with
  | nil => intro h; cases h
  | cons e m ih =>
    obtain ⟨k, v⟩ := e
    intro h
    by_cases hk : key = k
    · subst hk
      rw [List.lookup_cons, beq_self_eq_true] at h
      cases h
      exact List.mem_cons_self _ _
    · have hne : (key == k) = false := by simpa using hk
      rw [List.lookup_cons, hne] at h
      exact List.mem_cons_of_mem _ (ih h)

theorem broadcastToRoom_cache (sessionID : Int) (message : WSMessage)
    (excludeClient : Option Client) (s : Engine σ) :
    (broadcastToRoom sessionID message excludeClient s).marshalCache = s.marshalCache ∨
    (cachedType message.Type_ ∧
      (broadcastToRoom sessionID message excludeClient s).marshalCache =
        (⟨message.Type_, sessionID, unixSeconds message.Timestamp⟩, jsonMarshal message) ::
          s.marshalCache) := by
  unfold broadcastToRoom
  dsimp only
  split
  · rename_i hc
    split
    · exact Or.inl rfl
    · exact Or.inr ⟨hc, rfl⟩
  · exact Or.inl rfl

theorem broadcastToRoom_bytes (sessionID : Int) (message : WSMessage)
    (excludeClient : Option Client) (s : Engine σ) :
    ∃ b, (broadcastToRoom sessionID message excludeClient s).log =
        s.log ++ [Event.BroadcastToRoom sessionID b (excludeClient.map (fun c => c.ID))] ∧
      (b = jsonMarshal message ∨
        (cachedType message.Type_ ∧
          s.marshalCache.lookup ⟨message.Type_, sessionID, unixSeconds message.Timestamp⟩ =
            some b)) ∧
      (¬ cachedType message.Type_ → b = jsonMarshal message) ∧
      (s.marshalCache.lookup ⟨message.Type_, sessionID, unixSeconds message.Timestamp⟩ = none →
        b = jsonMarshal message) := by
  unfold broadcastToRoom
  dsimp only
  split
  · rename_i hc
    split
    · rename_i cached hhit
      refine ⟨cached, rfl, Or.inr ⟨hc, hhit⟩, fun hn => absurd hc hn, fun hmiss => ?_⟩
      rw [hhit] at hmiss
      cases hmiss
    · exact ⟨_, rfl, Or.inl rfl, fun _ => rfl, fun _ => rfl⟩
  · exact ⟨_, rfl, Or.inl rfl, fun _ => rfl, fun _ => rfl⟩

theorem CacheOK.ofCacheEq {s s1 : Engine σ} (h : CacheOK s)
    (heq : s1.marshalCache = s.marshalCache) : CacheOK s1 := by
  intro key bytes hmem
  rw [heq] at hmem
  exact h key bytes hmem

theorem CacheOK.okBroadcast {s : Engine σ} (h : CacheOK s) (sessionID : Int)
    (message : WSMessage) (excludeClient : Option Client) :
    CacheOK (broadcastToRoom sessionID message excludeClient s) := by
  rcases broadcastToRoom_cache sessionID message excludeClient s with heq | ⟨_, heq⟩
  · exact h.ofCacheEq heq
  · intro key bytes hmem
    rw [heq, List.mem_cons] at hmem
    rcases hmem with hnew | hold
    · cases hnew
      exact ⟨rfl, rfl⟩
    · exact h key bytes hold

theorem CacheOK.okDelete {s : Engine σ} (h : CacheOK s) (key : CacheKey) :
    CacheOK (marshalCacheDelete key s) := by
  intro k bytes hmem
  exact h k bytes (List.mem_filter.mp hmem).1

theorem broadcastToRoom_type {s : Engine σ} (h : CacheOK s) (sessionID : Int)
    (message : WSMessage) (excludeClient : Option Client) :
    ∃ b, (broadcastToRoom sessionID message excludeClient s).log =
        s.log ++ [Event.BroadcastToRoom sessionID b (excludeClient.map (fun c => c.ID))] ∧
      b.message.Type_ = message.Type_ ∧
      unixSeconds b.message.Timestamp = unixSeconds message.Timestamp := by
  obtain ⟨b, hlog, hb, _, _⟩ := broadcastToRoom_bytes sessionID message excludeClient s
  refine ⟨b, hlog, ?_⟩
  rcases hb with rfl | ⟨_, hhit⟩
  · exact ⟨rfl, rfl⟩
  · exact h _ _ (lookup_some_mem _ _ _ hhit)

theorem runCacheOps_snoc (ops : List CacheOp) (op : CacheOp) (s : Engine σ) :
    runCacheOps (ops ++ [op]) s = op.run (runCacheOps ops s) := by
  unfold runCacheOps
  rw [List.foldl_append]
  rfl

theorem runCacheOps_cacheFrom (db : σ) (ops : List CacheOp) :
    CacheFrom ops (runCacheOps ops (newEngine db)) := by
  induction ops using List.reverseRecOn with
  | nil =>
    intro key bytes hmem
    cases hmem
  | append_singleton ops op ih =>
    rw [runCacheOps_snoc]
    have hmono : ∀ key bytes, (key, bytes) ∈ (runCacheOps ops (newEngine db)).marshalCache →
        key.Type_ = bytes.message.Type_ ∧ key.unix = unixSeconds bytes.message.Timestamp ∧
        ∃ excludeClient,
          CacheOp.broadcast key.sessionID bytes.message excludeClient ∈ ops ++ [op] := by
      intro key bytes hmem
      obtain ⟨h1, h2, ex, h3⟩ := ih key bytes hmem
      exact ⟨h1, h2, ex, List.mem_append_left _ h3⟩
    cases op with
    | broadcast sessionID message excludeClient =>
      intro key bytes hmem
      change (key, bytes) ∈ (broadcastToRoom sessionID message excludeClient
        (runCacheOps ops (newEngine db))).marshalCache at hmem
      rcases broadcastToRoom_cache sessionID message excludeClient
        (runCacheOps ops (newEngine db)) with heq | ⟨_, heq⟩
      · rw [heq] at hmem
        exact hmono key bytes hmem
      · rw [heq, List.mem_cons] at hmem
        rcases hmem with hnew | hold
        · cases hnew
          exact ⟨rfl, rfl, excludeClient, List.mem_append_right _ (List.mem_singleton.mpr rfl)⟩
        · exact hmono key bytes hold
    | expire key0 =>
      intro key bytes hmem
      exact hmono key bytes (List.mem_filter.mp hmem).1

/-- C20: the marshal cache changes the bytes that are broadcast. Two leaderboard messages for
room 7 are broadcast within one Unix second, the first showing the player with 0 points and
the second with 1000. The second broadcast hands the hub the cached bytes of the first, which
are not the serialization of the second message. The same happens through the handlers: when
the host sends `next_question` and then `end_quiz` within a second, the `question_end` of
`end_quiz` goes out with the bytes of the `question_end` of `next_question`, stamped with the
first two clock readings. -/
theorem C20_second_broadcast_stale :
    (runCacheOps
        [CacheOp.broadcast 7 (boardMessage 0 0) none, CacheOp.broadcast 7 (boardMessage 1000 1) none]
        (newEngine (demoStore SessionStatusActive 0))).log =
      [Event.BroadcastToRoom 7 (jsonMarshal (boardMessage 0 0)) none,
       Event.BroadcastToRoom 7 (jsonMarshal (boardMessage 0 0)) none] ∧
    jsonMarshal (boardMessage 1000 1) ≠ jsonMarshal (boardMessage 0 0) ∧
    ((handleEndGame memEnv hostClient (bareMessage WSMsgTypeEndQuiz)
        (handleNextQuestion memEnv hostClient (bareMessage WSMsgTypeNextQuestion)
          (newEngine (demoStore SessionStatusActive 0)))).log.filter
        (fun e => e.isBroadcast)).map
        (fun e => decide (e = Event.BroadcastToRoom 7
          (jsonMarshal ⟨WSMsgTypeQuestionEnd, Payload.questionEnd 7 (memEnv.clock 0),
            memEnv.clock 1⟩) none)) =
      [true, false, true, false] := by
  refine ⟨by decide, by decide, by decide⟩

/-- What does hold of the marshal cache: after any sequence of broadcasts and cache expiries on
a fresh engine, the bytes that `broadcastToRoom` hands to the hub are the serialization of the
message itself whenever its type is not one of the three cached types or the cache holds no
entry for its type, room and Unix second. Otherwise they are the serialization of a message
of the same type and the same Unix second that an earlier broadcast of the sequence sent to
the same room. -/
theorem broadcastToRoom_provenance (db : σ) (ops : List CacheOp) (sessionID : Int) (message : WSMessage)
    (excludeClient : Option Client) :
    ∃ b, (broadcastToRoom sessionID message excludeClient (runCacheOps ops (newEngine db))).log =
        (runCacheOps ops (newEngine db)).log ++
          [Event.BroadcastToRoom sessionID b (excludeClient.map (fun c => c.ID))] ∧
      (¬ cachedType message.Type_ → b = jsonMarshal message) ∧
      ((runCacheOps ops (newEngine db)).marshalCache.lookup
          ⟨message.Type_, sessionID, unixSeconds message.Timestamp⟩ = none →
        b = jsonMarshal message) ∧
      ∃ sent, b = jsonMarshal sent ∧ sent.Type_ = message.Type_ ∧
        unixSeconds sent.Timestamp = unixSeconds message.Timestamp ∧
        (sent = message ∨
          (cachedType message.Type_ ∧
            ∃ excluded, CacheOp.broadcast sessionID sent excluded ∈ ops)) := by
  obtain ⟨b, hlog, hb, hplain, hmiss⟩ :=
    broadcastToRoom_bytes sessionID message excludeClient (runCacheOps ops (newEngine db))
  refine ⟨b, hlog, hplain, hmiss, ?_⟩
  rcases hb with rfl | ⟨hc, hhit⟩
  · exact ⟨message, rfl, rfl, rfl, Or.inl rfl⟩
  · obtain ⟨h1, h2, ex, h3⟩ := runCacheOps_cacheFrom db ops _ _ (lookup_some_mem _ _ _ hhit)
    exact ⟨b.message, rfl, h1.symm, h2.symm, Or.inr ⟨hc, ex, h3⟩⟩

/-! ## The question timeout -/

theorem SchedFrom.sfRefl (s : Engine σ) : SchedFrom s s :=
  fun t ht => Or.inl ⟨t, ht, rfl, rfl⟩

theorem SchedFrom.sfTrans {s s1 s2 : Engine σ} (h1 : SchedFrom s s1) (h2 : SchedFrom s1 s2) :
    SchedFrom s s2 := by
  intro t ht
  rcases h2 t ht with ⟨t1, ht1, hid, htask⟩ | hkey
  · rcases h1 t1 ht1 with ⟨t0, ht0, hid0, htask0⟩ | ⟨key, hkey⟩
    · exact Or.inl ⟨t0, ht0, hid.trans hid0, htask.trans htask0⟩
    · exact Or.inr ⟨key, htask.trans hkey⟩
  · exact Or.inr hkey

theorem SchedFrom.sfEq {s s1 s2 : Engine σ} (h : SchedFrom s s1)
    (heq : s2.scheduled = s1.scheduled) : SchedFrom s s2 := by
  intro t ht
  rw [heq] at ht
  exact h t ht

theorem SchedFrom.sfStop (sessionID : Int) (s : Engine σ) :
    SchedFrom s (stopQuestionTimer sessionID s) := by
  unfold stopQuestionTimer
  split
  · intro t ht
    simp only [stopTimer, List.mem_map] at ht
    obtain ⟨t0, ht0, rfl⟩ := ht
    refine Or.inl ⟨t0, ht0, ?_, ?_⟩ <;> split <;> rfl
  · exact SchedFrom.sfRefl s

theorem SchedFrom.sfBroadcast (sessionID : Int) (message : WSMessage)
    (excludeClient : Option Client) (s : Engine σ) :
    SchedFrom s (broadcastToRoom sessionID message excludeClient s) := by
  intro t ht
  rcases broadcastToRoom_scheduled sessionID message excludeClient s t ht with h | h
  · exact Or.inl ⟨t, h, rfl, rfl⟩
  · exact Or.inr h

theorem NotifyQuestionEnd_typed (env : Env σ) (sessionID : Int) {s : Engine σ}
    (hc : CacheOK s) :
    ∃ b, b.message.Type_ = WSMsgTypeQuestionEnd ∧
      (NotifyQuestionEnd env sessionID s).log =
        s.log ++ [Event.BroadcastToRoom sessionID b none] ∧
      (NotifyQuestionEnd env sessionID s).db = s.db ∧
      (NotifyQuestionEnd env sessionID s).questionTimers.lookup sessionID = none ∧
      CacheOK (NotifyQuestionEnd env sessionID s) ∧
      SchedFrom s (NotifyQuestionEnd env sessionID s) := by
  have hfacts := NotifyQuestionEnd_facts env sessionID s
  unfold NotifyQuestionEnd at hfacts ⊢
  have hc1 : CacheOK (timeNow env (timeNow env (stopQuestionTimer sessionID s)).2).2 :=
    hc.ofCacheEq (stopQuestionTimer_facts sessionID s).2.2.2
  obtain ⟨b, hlog, htype, _⟩ := broadcastToRoom_type hc1 sessionID
    ⟨WSMsgTypeQuestionEnd,
      Payload.questionEnd sessionID (timeNow env (stopQuestionTimer sessionID s)).1,
      (timeNow env (timeNow env (stopQuestionTimer sessionID s)).2).1⟩ none
  refine ⟨b, htype, ?_, hfacts.2.1, hfacts.2.2.2, hc1.okBroadcast _ _ _, ?_⟩
  · rw [hlog]
    have : (timeNow env (timeNow env (stopQuestionTimer sessionID s)).2).2.log = s.log :=
      (stopQuestionTimer_facts sessionID s).1
    rw [this]
    rfl
  · refine SchedFrom.sfTrans ?_ (SchedFrom.sfBroadcast _ _ _ _)
    exact (SchedFrom.sfStop sessionID s).sfEq rfl

theorem showIntermediateLeaderboard_typed (env : Env σ) (sessionID : Int) {s : Engine σ}
    (hc : CacheOK s) :
    (∀ board, env.repos.GetSessionLeaderboard s.db sessionID = some board →
      ∃ b, b.message.Type_ = WSMsgTypeLeaderboard ∧
        (showIntermediateLeaderboard env sessionID s).log =
          s.log ++ [Event.repo (RepoCall.GetSessionLeaderboard sessionID) true,
            Event.BroadcastToRoom sessionID b none]) ∧
    (env.repos.GetSessionLeaderboard s.db sessionID = none →
      (showIntermediateLeaderboard env sessionID s).log =
        s.log ++ [Event.repo (RepoCall.GetSessionLeaderboard sessionID) false]) ∧
    (showIntermediateLeaderboard env sessionID s).questionTimers = s.questionTimers ∧
    SchedFrom s (showIntermediateLeaderboard env sessionID s) := by
  unfold showIntermediateLeaderboard
  split
  · rename_i hnone
    refine ⟨fun board hb => ?_, fun _ => rfl, rfl, SchedFrom.sfRefl s⟩
    rw [hnone] at hb
    cases hb
  · rename_i leaderboard hsome
    dsimp only
    have hc1 : CacheOK (timeNow env (timeNow env
        (logRepo (RepoCall.GetSessionLeaderboard sessionID) true s)).2).2 := hc.ofCacheEq rfl
    obtain ⟨b, hlog, htype, _⟩ := broadcastToRoom_type hc1 sessionID
      ⟨WSMsgTypeLeaderboard,
        Payload.leaderboard sessionID (formatLeaderboard leaderboard) 5 "auto_next_question"
          true (timeNow env (logRepo (RepoCall.GetSessionLeaderboard sessionID) true s)).1,
        (timeNow env (timeNow env
          (logRepo (RepoCall.GetSessionLeaderboard sessionID) true s)).2).1⟩ none
    refine ⟨fun board _ => ⟨b, htype, ?_⟩, fun hnone => ?_,
      (broadcastToRoom_facts _ _ _ _).2.2.2, ?_⟩
    · rw [hlog]
      simp [timeNow, logRepo]
    · rw [hsome] at hnone
      cases hnone
    · exact (SchedFrom.sfRefl s).sfTrans
        ((SchedFrom.sfRefl _).sfEq rfl |>.sfTrans (SchedFrom.sfBroadcast _ _ _ _))

/-- C14 (counterexample): the timer of room 7 fires with the session and its two questions
loading, while the leaderboard query fails. `handleQuestionTimeout` broadcasts `question_end`
and schedules the automatic next question, and broadcasts no leaderboard: the only call on
the hub is the `question_end` broadcast. -/
theorem C14_no_leaderboard_broadcast :
    ((loadSessionAndQuestions noLeaderboardEnv 7 (runningEngine 0)).1.isSome = true) ∧
    newEvents (runningEngine 0) (handleQuestionTimeout noLeaderboardEnv 7 (runningEngine 0)) =
      [Event.repo (RepoCall.GetSessionByID 7) true,
       Event.repo (RepoCall.GetSessionByID 7) true,
       Event.repo (RepoCall.GetQuestionListByQuiz 3) true,
       Event.BroadcastToRoom 7
         (jsonMarshal ⟨WSMsgTypeQuestionEnd, Payload.questionEnd 7 (memEnv.clock 0),
           memEnv.clock 1⟩) none,
       Event.repo (RepoCall.GetSessionLeaderboard 7) false] ∧
    ((handleQuestionTimeout noLeaderboardEnv 7 (runningEngine 0)).scheduled.map
        (fun t => (t.delay, t.task, t.stopped))).getLast? =
      some (5000, Deferred.autoNextQuestion 7, false) := by
  refine ⟨by decide, by decide, by decide⟩

/-- C14 (amended): when the load of the session and the question list fails,
`handleQuestionTimeout` only makes the repository reads: it broadcasts nothing, schedules
nothing and leaves the timer map as it is. When the load succeeds, it broadcasts
`question_end` to the room, the room has no timer entry afterwards, it queries the
leaderboard and broadcasts a `leaderboard` message after `question_end` if the query
succeeds and nothing more if the query fails, and in both cases its last act is to schedule,
5000 ms later and outside the timer map, the automatic end of the game if the current index is
at least the question count minus one and the automatic next question otherwise. Everything
else it registers is the expiry of a marshal-cache entry. -/
theorem C14_timeout_amended (env : Env σ) (sessionID : Int) (s : Engine σ) (hc : CacheOK s) :
    ((loadSessionAndQuestions env sessionID s).1 = none →
      ReadsOnly s (handleQuestionTimeout env sessionID s)) ∧
    (∀ session questions,
      (loadSessionAndQuestions env sessionID s).1 = some (session, questions) →
      (questions.length : Int) < 2147483648 →
      ∃ b1 earlier,
        b1.message.Type_ = WSMsgTypeQuestionEnd ∧
        (handleQuestionTimeout env sessionID s).questionTimers.lookup sessionID = none ∧
        (∀ board, env.repos.GetSessionLeaderboard s.db sessionID = some board →
          ∃ b2, b2.message.Type_ = WSMsgTypeLeaderboard ∧
            newEvents s (handleQuestionTimeout env sessionID s) =
              newEvents s (loadSessionAndQuestions env sessionID s).2 ++
                [Event.BroadcastToRoom sessionID b1 none,
                 Event.repo (RepoCall.GetSessionLeaderboard sessionID) true,
                 Event.BroadcastToRoom sessionID b2 none]) ∧
        (env.repos.GetSessionLeaderboard s.db sessionID = none →
          newEvents s (handleQuestionTimeout env sessionID s) =
            newEvents s (loadSessionAndQuestions env sessionID s).2 ++
              [Event.BroadcastToRoom sessionID b1 none,
               Event.repo (RepoCall.GetSessionLeaderboard sessionID) false]) ∧
        (handleQuestionTimeout env sessionID s).scheduled =
          earlier ++ [⟨earlier.length, 5000,
            if session.CurrentQuestionIndex ≥ (questions.length : Int) - 1
            then Deferred.autoEndGame sessionID else Deferred.autoNextQuestion sessionID,
            false⟩] ∧
        ∀ t ∈ earlier,
          (∃ t0 ∈ s.scheduled, t.id = t0.id ∧ t.task = t0.task) ∨
          ∃ key, t.task = Deferred.marshalCacheDelete key) := by
  have hload := loadSessionAndQuestions_readsOnly env sessionID s
  constructor
  · intro hnone
    unfold handleQuestionTimeout
    dsimp only
    rw [hnone]
    exact hload
  · intro session questions hsome hlen
    obtain ⟨reads, hreads, hstate⟩ := hload
    have hc0 : CacheOK (loadSessionAndQuestions env sessionID s).2 :=
      hc.ofCacheEq (by rw [hstate])
    have hdb0 : (loadSessionAndQuestions env sessionID s).2.db = s.db := by rw [hstate]
    have hsch0 : (loadSessionAndQuestions env sessionID s).2.scheduled = s.scheduled := by
      rw [hstate]
    have hlog0 : (loadSessionAndQuestions env sessionID s).2.log = s.log ++ reads := by
      rw [hstate]
    obtain ⟨b1, htype1, hlog1, hdb1, hlook1, hc1, hsf1⟩ :=
      NotifyQuestionEnd_typed env sessionID hc0
    obtain ⟨hboard, hnoboard, htimers2, hsf2⟩ :=
      showIntermediateLeaderboard_typed env sessionID hc1
    have hcond : (session.CurrentQuestionIndex ≥ int32 (int32 (questions.length : Int) - 1)) ↔
        (session.CurrentQuestionIndex ≥ (questions.length : Int) - 1) := by
      have h1 : int32 (questions.length : Int) = questions.length :=
        int32_of_isInt32 (by unfold isInt32; omega)
      have h2 : int32 ((questions.length : Int) - 1) = (questions.length : Int) - 1 :=
        int32_of_isInt32 (by unfold isInt32; omega)
      rw [h1, h2]
    have hsf : SchedFrom s (showIntermediateLeaderboard env sessionID
        (NotifyQuestionEnd env sessionID (loadSessionAndQuestions env sessionID s).2)) :=
      ((SchedFrom.sfRefl s).sfEq hsch0).sfTrans (hsf1.sfTrans hsf2)
    have hrun : handleQuestionTimeout env sessionID s =
        (afterFunc 5000
          (if session.CurrentQuestionIndex ≥ (questions.length : Int) - 1
            then Deferred.autoEndGame sessionID else Deferred.autoNextQuestion sessionID)
          (showIntermediateLeaderboard env sessionID
            (NotifyQuestionEnd env sessionID (loadSessionAndQuestions env sessionID s).2))).2 := by
      unfold handleQuestionTimeout
      dsimp only
      rw [hsome]
      dsimp only
      by_cases hlast : session.CurrentQuestionIndex ≥ (questions.length : Int) - 1
      · rw [if_pos (hcond.mpr hlast), if_pos hlast]
      · rw [if_neg (fun h => hlast (hcond.mp h)), if_neg hlast]
    have hlogEq : (handleQuestionTimeout env sessionID s).log =
        (showIntermediateLeaderboard env sessionID
          (NotifyQuestionEnd env sessionID (loadSessionAndQuestions env sessionID s).2)).log := by
      rw [hrun]
      rfl
    have hnew0 : newEvents s (loadSessionAndQuestions env sessionID s).2 = reads :=
      newEvents_append _ _ _ hlog0
    refine ⟨b1, _, htype1, ?_, ?_, ?_, ?_, hsf⟩
    · rw [hrun]
      change (showIntermediateLeaderboard env sessionID _).questionTimers.lookup sessionID = none
      rw [htimers2]
      exact hlook1
    · intro board hb
      rw [← hdb0, ← hdb1] at hb
      obtain ⟨b2, htype2, hlog2⟩ := hboard board hb
      refine ⟨b2, htype2, ?_⟩
      rw [hnew0]
      apply newEvents_append
      rw [hlogEq, hlog2, hlog1, hlog0]
      simp
    · intro hb
      rw [← hdb0, ← hdb1] at hb
      rw [hnew0]
      apply newEvents_append
      rw [hlogEq, hnoboard hb, hlog1, hlog0]
      simp
    · rw [hrun]
      rfl

theorem C14_timeout_amended_witness :
    ∃ b1 earlier,
      b1.message.Type_ = WSMsgTypeQuestionEnd ∧
      (handleQuestionTimeout memEnv 7 (runningEngine 0)).questionTimers.lookup 7 = none ∧
      (∀ board, memEnv.repos.GetSessionLeaderboard (runningEngine 0).db 7 = some board →
        ∃ b2, b2.message.Type_ = WSMsgTypeLeaderboard ∧
          newEvents (runningEngine 0) (handleQuestionTimeout memEnv 7 (runningEngine 0)) =
            newEvents (runningEngine 0) (loadSessionAndQuestions memEnv 7 (runningEngine 0)).2 ++
              [Event.BroadcastToRoom 7 b1 none,
               Event.repo (RepoCall.GetSessionLeaderboard 7) true,
               Event.BroadcastToRoom 7 b2 none]) ∧
      (memEnv.repos.GetSessionLeaderboard (runningEngine 0).db 7 = none →
        newEvents (runningEngine 0) (handleQuestionTimeout memEnv 7 (runningEngine 0)) =
          newEvents (runningEngine 0) (loadSessionAndQuestions memEnv 7 (runningEngine 0)).2 ++
            [Event.BroadcastToRoom 7 b1 none,
             Event.repo (RepoCall.GetSessionLeaderboard 7) false]) ∧
      (handleQuestionTimeout memEnv 7 (runningEngine 0)).scheduled =
        earlier ++ [⟨earlier.length, 5000,
          if (0 : Int) ≥ ((demoQuestions.filter (fun q => decide (q.QuizID = 3))).length : Int) - 1
          then Deferred.autoEndGame 7 else Deferred.autoNextQuestion 7,
          false⟩] ∧
      ∀ t ∈ earlier,
        (∃ t0 ∈ (runningEngine 0).scheduled, t.id = t0.id ∧ t.task = t0.task) ∨
        ∃ key, t.task = Deferred.marshalCacheDelete key :=
  (C14_timeout_amended memEnv 7 (runningEngine 0)
    (fun _ _ hmem => by cases hmem)).2
    ⟨7, 3, some 100, "ABC123", SessionStatusActive, 0, none, 2⟩
    (demoQuestions.filter (fun q => decide (q.QuizID = 3))) (by decide) (by decide)

/-! ## Terminal statuses -/

/-- C11: the delayed first-question step of `start_quiz` and the automatic end write to a
session whose status is completed. The host starts the waiting session 7 and ends it within
the second: the session is completed, and the first-question step is still registered, not
stopped. When it runs it calls `UpdateSessionQuestion 7 0`, broadcasts `question_start` and
arms the room's timer. With a `next_question` between the two messages the stored index of
the completed session goes from 1 back to 0. `autoEndGame` on the completed session calls
`EndSession`, whereas `autoNextQuestion` checks the status and makes no write. -/
theorem C11_write_after_completed :
    storedState startedThenEnded.db 7 = some (SessionStatusCompleted, 0) ∧
    startedThenEnded.scheduled.filter (fun t => !t.stopped && decide (t.delay = 1000)) =
      [⟨1, 1000, Deferred.firstQuestion 7 (demoQuestions.filter (fun q => decide (q.QuizID = 3))),
        false⟩] ∧
    (newEvents startedThenEnded
        (runDeferred memEnv
          (Deferred.firstQuestion 7 (demoQuestions.filter (fun q => decide (q.QuizID = 3))))
          startedThenEnded)).map (fun e => (e.isSessionWrite, e.isBroadcast)) =
      [(true, false), (false, true)] ∧
    Event.repo (RepoCall.UpdateSessionQuestion 7 0) true ∈
      newEvents startedThenEnded
        (runDeferred memEnv
          (Deferred.firstQuestion 7 (demoQuestions.filter (fun q => decide (q.QuizID = 3))))
          startedThenEnded) ∧
    (armedTimers 7 (runDeferred memEnv
      (Deferred.firstQuestion 7 (demoQuestions.filter (fun q => decide (q.QuizID = 3))))
      startedThenEnded)).length = 1 ∧
    storedState advancedThenEnded.db 7 = some (SessionStatusCompleted, 1) ∧
    storedState (runDeferred memEnv
      (Deferred.firstQuestion 7 (demoQuestions.filter (fun q => decide (q.QuizID = 3))))
      advancedThenEnded).db 7 = some (SessionStatusCompleted, 0) ∧
    Event.repo (RepoCall.EndSession 7) true ∈
      newEvents startedThenEnded (runDeferred memEnv (Deferred.autoEndGame 7) startedThenEnded) ∧
    newEvents startedThenEnded
        (runDeferred memEnv (Deferred.autoNextQuestion 7) startedThenEnded) =
      [Event.repo (RepoCall.GetSessionByID 7) true] := by
  refine ⟨by decide, by decide, by decide, by decide, by decide, by decide, by decide,
    by decide, by decide⟩

/-! ## One timer per room -/

theorem lookup_filter_other (sessionID other : Int) (hne : other ≠ sessionID)
    (m : List (Int × Nat)) :
    (m.filter (fun e => decide (e.1 ≠ sessionID))).lookup other = m.lookup other := by
  induction m with
  | nil => rfl
  | cons e m ih =>
    obtain ⟨k, v⟩ := e
    by_cases hk : k = sessionID
    · have hbeq : (other == k) = false := by
        rw [hk]
        simpa using hne
      rw [List.filter_cons_of_neg (by simpa using hk), List.lookup_cons, hbeq]
      exact ih
    · rw [List.filter_cons_of_pos (by simpa using hk)]
      by_cases ho : other = k
      · have hbeq : (other == k) = true := by simpa using ho
        rw [List.lookup_cons, List.lookup_cons, hbeq]
      · have hbeq : (other == k) = false := by simpa using ho
        rw [List.lookup_cons, List.lookup_cons, hbeq]
        exact ih

theorem stopTimer_armed (id : Nat) (sessionID : Int) (s : Engine σ) :
    ∀ t ∈ armedTimers sessionID (stopTimer id s), t ∈ armedTimers sessionID s ∧ t.id ≠ id := by
  intro t ht
  unfold armedTimers stopTimer at ht
  simp only [List.mem_filter, List.mem_map] at ht
  obtain ⟨⟨t0, ht0, rfl⟩, hp⟩ := ht
  by_cases hid : t0.id = id
  · rw [if_pos hid] at hp
    simp at hp
  · rw [if_neg hid] at hp ⊢
    exact ⟨List.mem_filter.mpr ⟨ht0, hp⟩, hid⟩

theorem stopTimer_ids (id : Nat) (s : Engine σ) :
    (stopTimer id s).scheduled.map (fun t => t.id) = s.scheduled.map (fun t => t.id) := by
  unfold stopTimer
  simp only [List.map_map]
  apply List.map_congr_left
  intro t _
  simp only [Function.comp]
  split <;> rfl

theorem length_le_one_of_const {l : List Nat} (hnd : l.Nodup) (v : Nat)
    (hall : ∀ x ∈ l, x = v) : l.length ≤ 1 := by
  match l, hnd, hall with
  | [], _, _ => simp
  | [a], _, _ => simp
  | a :: b :: rest, hnd, hall =>
    have ha := hall a (by simp)
    have hb := hall b (by simp)
    rw [List.nodup_cons] at hnd
    exact absurd (by rw [ha, hb]; simp) hnd.1

theorem TimersOK.armed_le_one {s : Engine σ} (h : TimersOK s) (sessionID : Int) :
    (armedTimers sessionID s).length ≤ 1 := by
  obtain ⟨hids, hmap⟩ := h
  have hnd : ((armedTimers sessionID s).map (fun t => t.id)).Nodup := by
    have hsub : ((armedTimers sessionID s).map (fun t => t.id)).Sublist
        (s.scheduled.map (fun t => t.id)) :=
      (List.filter_sublist _).map _
    rw [hids] at hsub
    exact hsub.nodup (List.nodup_range _)
  cases hl : s.questionTimers.lookup sessionID with
  | none =>
    cases ha : armedTimers sessionID s with
    | nil => simp
    | cons t rest =>
      have := hmap sessionID t (by rw [ha]; simp)
      rw [hl] at this
      cases this
  | some v =>
    have hall : ∀ x ∈ (armedTimers sessionID s).map (fun t => t.id), x = v := by
      intro x hx
      obtain ⟨t, ht, rfl⟩ := List.mem_map.mp hx
      have := hmap sessionID t ht
      rw [hl] at this
      cases this
      rfl
    have := length_le_one_of_const hnd v hall
    simpa using this

theorem TimersOK.okNew (db : σ) : TimersOK (newEngine db) :=
  ⟨rfl, fun _ t ht => by cases ht⟩

theorem TimersOK.okStop {s : Engine σ} (h : TimersOK s) (sessionID : Int) :
    TimersOK (stopQuestionTimer sessionID s) := by
  obtain ⟨hids, hmap⟩ := h
  unfold stopQuestionTimer
  split
  · rename_i timer hl
    refine ⟨?_, ?_⟩
    · have hlen : (stopTimer timer s).scheduled.length = s.scheduled.length := by
        simp [stopTimer]
      change (stopTimer timer s).scheduled.map (fun t => t.id) =
        List.range (stopTimer timer s).scheduled.length
      rw [stopTimer_ids, hlen]
      exact hids
    · intro sid t ht
      have ht1 : t ∈ armedTimers sid (stopTimer timer s) := ht
      obtain ⟨hold, hne⟩ := stopTimer_armed timer sid s t ht1
      have hlook := hmap sid t hold
      by_cases hs : sid = sessionID
      · subst hs
        rw [hl] at hlook
        cases hlook
        exact absurd rfl hne
      · change ((stopTimer timer s).questionTimers.filter
          (fun e => decide (e.1 ≠ sessionID))).lookup sid = some t.id
        rw [lookup_filter_other sessionID sid hs]
        exact hlook
  · exact ⟨hids, hmap⟩

theorem startQuestionTimer_shape (sessionID timeLimit : Int) (s : Engine σ) :
    ∃ s1 : Engine σ,
      (s1 = s ∨ ∃ timer, s.questionTimers.lookup sessionID = some timer ∧ s1 = stopTimer timer s) ∧
      s1.questionTimers = s.questionTimers ∧
      s1.scheduled.length = s.scheduled.length ∧
      s1.scheduled.map (fun t => t.id) = s.scheduled.map (fun t => t.id) ∧
      (s.questionTimers.lookup sessionID = none → s1 = s) ∧
      (∀ timer, s.questionTimers.lookup sessionID = some timer → s1 = stopTimer timer s) ∧
      startQuestionTimer sessionID timeLimit s =
        { s1 with
          scheduled := s1.scheduled ++
            [⟨s1.scheduled.length, timeLimit * 1000, Deferred.handleQuestionTimeout sessionID,
              false⟩]
          questionTimers := (sessionID, s1.scheduled.length) ::
            s1.questionTimers.filter (fun e => decide (e.1 ≠ sessionID)) } := by
  unfold startQuestionTimer
  cases hl : s.questionTimers.lookup sessionID with
  | none =>
    refine ⟨s, Or.inl rfl, rfl, rfl, rfl, fun _ => rfl, fun timer h => (by cases h), rfl⟩
  | some timer =>
    refine ⟨stopTimer timer s, Or.inr ⟨timer, rfl, rfl⟩, rfl, by simp [stopTimer],
      stopTimer_ids timer s, fun h => (by cases h), fun t h => (by cases h; rfl), rfl⟩

theorem startQuestionTimer_noneArmedBefore {s : Engine σ} (h : TimersOK s)
    (sessionID : Int) (s1 : Engine σ)
    (hnone : s.questionTimers.lookup sessionID = none → s1 = s)
    (hsome : ∀ timer, s.questionTimers.lookup sessionID = some timer → s1 = stopTimer timer s) :
    armedTimers sessionID s1 = [] := by
  apply List.eq_nil_iff_forall_not_mem.mpr
  intro t ht
  cases hl : s.questionTimers.lookup sessionID with
  | none =>
    rw [hnone hl] at ht
    have := h.2 sessionID t ht
    rw [hl] at this
    cases this
  | some timer =>
    rw [hsome timer hl] at ht
    obtain ⟨hold, hne⟩ := stopTimer_armed timer sessionID s t ht
    have := h.2 sessionID t hold
    rw [hl] at this
    cases this
    exact hne rfl

theorem armed_of_shape (sessionID : Int) (s s1 : Engine σ)
    (hshape : s1 = s ∨ ∃ timer, s.questionTimers.lookup sessionID = some timer ∧
      s1 = stopTimer timer s) (sid : Int) :
    ∀ t ∈ armedTimers sid s1, t ∈ armedTimers sid s := by
  intro t ht
  rcases hshape with rfl | ⟨timer, _, rfl⟩
  · exact ht
  · exact (stopTimer_armed timer sid s t ht).1

theorem TimersOK.okStart {s : Engine σ} (h : TimersOK s) (sessionID timeLimit : Int) :
    TimersOK (startQuestionTimer sessionID timeLimit s) := by
  obtain ⟨s1, hshape, htimers, hlen, hids1, hnone, hsome, hrun⟩ :=
    startQuestionTimer_shape sessionID timeLimit s
  have hempty := startQuestionTimer_noneArmedBefore h sessionID s1 hnone hsome
  rw [hrun]
  refine ⟨?_, ?_⟩
  · simp only [List.map_append, List.map_cons, List.map_nil, List.length_append,
      List.length_singleton]
    rw [hids1, h.1, hlen, List.range_succ]
  · intro sid t ht
    unfold armedTimers at ht
    simp only [List.filter_append, List.mem_append] at ht
    by_cases hs : sid = sessionID
    · subst hs
      rcases ht with hold | hnew
      · have : t ∈ armedTimers sid s1 := hold
        rw [hempty] at this
        cases this
      · have ht' : t = ⟨s1.scheduled.length, timeLimit * 1000,
            Deferred.handleQuestionTimeout sid, false⟩ := by
          have := (List.mem_filter.mp hnew).1
          simpa using this
        rw [ht']
        simp [List.lookup_cons]
    · rcases ht with hold | hnew
      · have hin : t ∈ armedTimers sid s := armed_of_shape sessionID s s1 hshape sid t hold
        have hlook := h.2 sid t hin
        have hbeq : (sid == sessionID) = false := by simpa using hs
        simp only [List.lookup_cons, hbeq]
        rw [htimers, lookup_filter_other sessionID sid hs]
        exact hlook
      · have hp := (List.mem_filter.mp hnew)
        have ht' : t = ⟨s1.scheduled.length, timeLimit * 1000,
            Deferred.handleQuestionTimeout sessionID, false⟩ := by simpa using hp.1
        have htask := hp.2
        rw [ht'] at htask
        simp at htask
        exact absurd htask.symm hs

theorem runTimerOps_snoc (ops : List TimerOp) (op : TimerOp) (s : Engine σ) :
    runTimerOps (ops ++ [op]) s = op.run (runTimerOps ops s) := by
  unfold runTimerOps
  rw [List.foldl_append]
  rfl

theorem runTimerOps_ok (db : σ) (ops : List TimerOp) :
    TimersOK (runTimerOps ops (newEngine db)) := by
  induction ops using List.reverseRecOn with
  | nil => exact TimersOK.okNew db
  | append_singleton ops op ih =>
    rw [runTimerOps_snoc]
    cases op with
    | start sessionID timeLimit => exact ih.okStart sessionID timeLimit
    | stop sessionID => exact ih.okStop sessionID

/-- C13: after any sequence of question starts and stops on a fresh engine, every room has at
most one armed timer that was not stopped. A further start for a room stops the timer the room
had, registers a new one, and leaves the timer map with exactly one entry for the room, which
holds the handle of the new timer, the only armed timer of the room; the entries of the other
rooms are as before. -/
theorem C13_one_timer_per_room (db : σ) (ops : List TimerOp) (sessionID timeLimit : Int) :
    (∀ sid, (armedTimers sid (runTimerOps ops (newEngine db))).length ≤ 1) ∧
    (startQuestionTimer sessionID timeLimit
        (runTimerOps ops (newEngine db))).questionTimers.lookup sessionID =
      some (runTimerOps ops (newEngine db)).scheduled.length ∧
    (startQuestionTimer sessionID timeLimit
        (runTimerOps ops (newEngine db))).questionTimers.filter
        (fun e => decide (e.1 = sessionID)) =
      [(sessionID, (runTimerOps ops (newEngine db)).scheduled.length)] ∧
    armedTimers sessionID
        (startQuestionTimer sessionID timeLimit (runTimerOps ops (newEngine db))) =
      [⟨(runTimerOps ops (newEngine db)).scheduled.length, timeLimit * 1000,
        Deferred.handleQuestionTimeout sessionID, false⟩] ∧
    (∀ t ∈ armedTimers sessionID (runTimerOps ops (newEngine db)),
      ∃ t1 ∈ (startQuestionTimer sessionID timeLimit
          (runTimerOps ops (newEngine db))).scheduled,
        t1.id = t.id ∧ t1.stopped = true) ∧
    (∀ other, other ≠ sessionID →
      (startQuestionTimer sessionID timeLimit
          (runTimerOps ops (newEngine db))).questionTimers.lookup other =
        (runTimerOps ops (newEngine db)).questionTimers.lookup other) := by
  have hok := runTimerOps_ok db ops
  generalize runTimerOps ops (newEngine db) = s at hok ⊢
  obtain ⟨s1, hshape, htimers, hlen, hids1, hnone, hsome, hrun⟩ :=
    startQuestionTimer_shape sessionID timeLimit s
  have hempty := startQuestionTimer_noneArmedBefore hok sessionID s1 hnone hsome
  refine ⟨fun sid => hok.armed_le_one sid, ?_, ?_, ?_, ?_, ?_⟩
  · rw [hrun, ← hlen]
    simp [List.lookup_cons]
  · rw [hrun, ← hlen]
    simp only [List.filter_cons, decide_True, if_true, List.filter_filter]
    have : s1.questionTimers.filter
        (fun a => decide (a.1 = sessionID) && decide (a.1 ≠ sessionID)) = [] := by
      apply List.filter_eq_nil_iff.mpr
      intro a _
      by_cases ha : a.1 = sessionID <;> simp [ha]
    rw [this]
  · unfold armedTimers at hempty ⊢
    rw [hrun, ← hlen]
    simp only [List.filter_append, hempty, List.nil_append]
    simp
  · intro t ht
    have hlook := hok.2 sessionID t ht
    have hs1 := hsome t.id hlook
    rw [hrun, hs1]
    refine ⟨{ t with stopped := true }, ?_, rfl, rfl⟩
    apply List.mem_append_left
    unfold stopTimer
    simp only [List.mem_map]
    exact ⟨t, (List.mem_filter.mp ht).1, by rw [if_pos rfl]⟩
  · intro other hne
    have hbeq : (other == sessionID) = false := by simpa using hne
    rw [hrun]
    simp only [List.lookup_cons, hbeq]
    rw [htimers, lookup_filter_other sessionID other hne]

/-! ## The hub: local broadcast -/

theorem deliverOne_step (roomID : Int) (message : Bytes) (excludeClient : Option String)
    (h : Hub) (a : String) (hc : h.crashed = false) (hopen : (h.send a).closed = false) :
    (deliverOne roomID message excludeClient h a).crashed = false ∧
    (deliverOne roomID message excludeClient h a).send a =
      queueAfterBroadcast message excludeClient h a ∧
    (∀ id, id ≠ a → (deliverOne roomID message excludeClient h a).send id = h.send id) ∧
    (deliverOne roomID message excludeClient h a).roomClients roomID =
      (h.roomClients roomID).map (fun cs => cs.filter
        (fun id => decide (id ≠ a) || keptByBroadcast excludeClient h a)) ∧
    (∀ r, r ≠ roomID → (deliverOne roomID message excludeClient h a).roomClients r =
      h.roomClients r) ∧
    (deliverOne roomID message excludeClient h a).published = h.published ∧
    (deliverOne roomID message excludeClient h a).presence = h.presence ∧
    (deliverOne roomID message excludeClient h a).serverID = h.serverID := by
  unfold deliverOne queueAfterBroadcast keptByBroadcast
  rw [if_neg (by simp [hc])]
  by_cases hex : excludeClient = some a
  · rw [if_pos hex, if_pos hex]
    refine ⟨hc, rfl, fun _ _ => rfl, ?_, fun _ _ => rfl, rfl, rfl, rfl⟩
    simp [hex]
  · rw [if_neg hex, if_neg hex, if_neg (by simp [hopen])]
    by_cases hroom : (h.send a).buf.length < ClientSendBufferSize
    · rw [if_pos hroom, if_pos hroom]
      refine ⟨hc, by simp, fun id hid => by simp [hid], ?_, fun _ _ => rfl, rfl, rfl, rfl⟩
      simp [hroom]
    · rw [if_neg hroom, if_neg hroom]
      refine ⟨hc, by simp, fun id hid => by simp [hid], ?_, fun r hr => by simp [hr], rfl, rfl,
        rfl⟩
      simp [hex, hroom]

theorem keptByBroadcast_congr (excludeClient : Option String) (h h1 : Hub) (id : String)
    (heq : h1.send id = h.send id) :
    keptByBroadcast excludeClient h1 id = keptByBroadcast excludeClient h id := by
  unfold keptByBroadcast
  rw [heq]

theorem queueAfterBroadcast_congr (message : Bytes) (excludeClient : Option String)
    (h h1 : Hub) (id : String) (heq : h1.send id = h.send id) :
    queueAfterBroadcast message excludeClient h1 id =
      queueAfterBroadcast message excludeClient h id := by
  unfold queueAfterBroadcast
  rw [heq]

theorem deliver_fold (roomID : Int) (message : Bytes) (excludeClient : Option String) :
    ∀ (l : List String) (h : Hub), l.Nodup → h.crashed = false →
      (∀ id ∈ l, (h.send id).closed = false) →
      (l.foldl (deliverOne roomID message excludeClient) h).crashed = false ∧
      (∀ id ∈ l, (l.foldl (deliverOne roomID message excludeClient) h).send id =
        queueAfterBroadcast message excludeClient h id) ∧
      (∀ id, id ∉ l → (l.foldl (deliverOne roomID message excludeClient) h).send id =
        h.send id) ∧
      (l.foldl (deliverOne roomID message excludeClient) h).roomClients roomID =
        (h.roomClients roomID).map (fun cs => cs.filter
          (fun id => decide (id ∉ l) || keptByBroadcast excludeClient h id)) ∧
      (∀ r, r ≠ roomID → (l.foldl (deliverOne roomID message excludeClient) h).roomClients r =
        h.roomClients r) ∧
      (l.foldl (deliverOne roomID message excludeClient) h).published = h.published ∧
      (l.foldl (deliverOne roomID message excludeClient) h).presence = h.presence ∧
      (l.foldl (deliverOne roomID message excludeClient) h).serverID = h.serverID := by
  intro l
  induction l with
  | nil =>
    intro h _ hc _
    refine ⟨hc, fun id hid => (by cases hid), fun _ _ => rfl, ?_, fun _ _ => rfl, rfl, rfl, rfl⟩
    cases hr : h.roomClients roomID <;> simp [hr]
  | cons a rest ih =>
    intro h hnd hc hopen
    obtain ⟨hnotin, hndrest⟩ := List.nodup_cons.mp hnd
    obtain ⟨hc1, hsa, hsother, hroom1, hrother1, hpub1, hpres1, hsrv1⟩ :=
      deliverOne_step roomID message excludeClient h a hc (hopen a (List.mem_cons_self _ _))
    have hopen1 : ∀ id ∈ rest,
        ((deliverOne roomID message excludeClient h a).send id).closed = false := by
      intro id hid
      have hne : id ≠ a := fun heq => hnotin (heq ▸ hid)
      rw [hsother id hne]
      exact hopen id (List.mem_cons_of_mem _ hid)
    obtain ⟨hc2, hsin, hsout, hroom2, hrother2, hpub2, hpres2, hsrv2⟩ :=
      ih (deliverOne roomID message excludeClient h a) hndrest hc1 hopen1
    rw [List.foldl_cons]
    refine ⟨hc2, ?_, ?_, ?_, ?_, hpub2.trans hpub1, hpres2.trans hpres1, hsrv2.trans hsrv1⟩
    · intro id hid
      rcases List.mem_cons.mp hid with heq | hin
      · subst heq
        rw [hsout id hnotin]
        exact hsa
      · have hne : id ≠ a := fun heq => hnotin (heq ▸ hin)
        rw [hsin id hin]
        exact queueAfterBroadcast_congr message excludeClient h _ id (hsother id hne)
    · intro id hid
      have hne : id ≠ a := fun heq => hid (heq ▸ List.mem_cons_self _ _)
      have hnr : id ∉ rest := fun hin => hid (List.mem_cons_of_mem _ hin)
      rw [hsout id hnr]
      exact hsother id hne
    · rw [hroom2, hroom1]
      cases h.roomClients roomID with
      | none => rfl
      | some cs =>
        simp only [Option.map_some', List.filter_filter]
        congr 1
        apply List.filter_congr
        intro id _
        by_cases heq : id = a
        · subst heq
          simp [hnotin]
        · have hk := keptByBroadcast_congr excludeClient h
            (deliverOne roomID message excludeClient h a) id (hsother id heq)
          rw [hk]
          simp [heq]
    · intro r hr
      rw [hrother2 r hr]
      exact hrother1 r hr

theorem broadcastToLocalRoom_ok (roomID : Int) (message : Bytes)
    (excludeClient : Option String) (h : Hub) (clients : List String)
    (hok : RoomOK h roomID clients) :
    (broadcastToLocalRoom roomID message excludeClient h).crashed = false ∧
    (∀ id ∈ clients, (broadcastToLocalRoom roomID message excludeClient h).send id =
      queueAfterBroadcast message excludeClient h id) ∧
    (∀ id, id ∉ clients → (broadcastToLocalRoom roomID message excludeClient h).send id =
      h.send id) ∧
    (broadcastToLocalRoom roomID message excludeClient h).roomClients roomID =
      some (clients.filter (keptByBroadcast excludeClient h)) ∧
    (∀ r, r ≠ roomID → (broadcastToLocalRoom roomID message excludeClient h).roomClients r =
      h.roomClients r) ∧
    (broadcastToLocalRoom roomID message excludeClient h).published = h.published ∧
    (broadcastToLocalRoom roomID message excludeClient h).presence = h.presence ∧
    (broadcastToLocalRoom roomID message excludeClient h).serverID = h.serverID := by
  obtain ⟨hroom, hnd, hopen, hc⟩ := hok
  obtain ⟨h1, h2, h3, h4, h5, h6, h7, h8⟩ :=
    deliver_fold roomID message excludeClient clients h hnd hc hopen
  unfold broadcastToLocalRoom
  rw [hroom]
  refine ⟨h1, h2, h3, ?_, h5, h6, h7, h8⟩
  rw [h4, hroom, Option.map_some']
  congr 1
  apply List.filter_congr
  intro id hid
  simp [hid]

theorem deliverOne_published (roomID : Int) (message : Bytes) (excludeClient : Option String)
    (h : Hub) (a : String) :
    (deliverOne roomID message excludeClient h a).published = h.published := by
  unfold deliverOne
  split
  · rfl
  · split
    · rfl
    · split
      · rfl
      · split <;> rfl

theorem broadcastToLocalRoom_published (roomID : Int) (message : Bytes)
    (excludeClient : Option String) (h : Hub) :
    (broadcastToLocalRoom roomID message excludeClient h).published = h.published := by
  unfold broadcastToLocalRoom
  split
  · rename_i roomClients _
    generalize h = h0
    have : ∀ (l : List String) (h1 : Hub),
        (l.foldl (deliverOne roomID message excludeClient) h1).published = h1.published := by
      intro l
      induction l with
      | nil => intro h1; rfl
      | cons a rest ih =>
        intro h1
        rw [List.foldl_cons, ih]
        exact deliverOne_published roomID message excludeClient h1 a
    exact this roomClients h0
  · rfl

/-- C16: on a room whose connections are listed once each with open send queues,
`broadcastToLocalRoom` appends the bytes at the tail of the queue of every connection of the
room that is not the excluded one and whose queue is not full; it leaves the queue of the
excluded connection and of every connection outside the room as they are, and the other
rooms as they are; every connection of the room that is not excluded and whose queue is full
has its queue closed, with its content unchanged, and is removed from the room, and no other
connection is removed. Nothing is published and no panic occurs. -/
theorem C16_local_broadcast (roomID : Int) (message : Bytes) (excludeClient : Option String)
    (h : Hub) (clients : List String) (hok : RoomOK h roomID clients) :
    (∀ id ∈ clients, excludeClient ≠ some id →
      (h.send id).buf.length < ClientSendBufferSize →
      (broadcastToLocalRoom roomID message excludeClient h).send id =
        ⟨(h.send id).buf ++ [message], false⟩ ∧
      id ∈ GetRoomClients roomID (broadcastToLocalRoom roomID message excludeClient h)) ∧
    (∀ id ∈ clients, excludeClient = some id →
      (broadcastToLocalRoom roomID message excludeClient h).send id = h.send id ∧
      id ∈ GetRoomClients roomID (broadcastToLocalRoom roomID message excludeClient h)) ∧
    (∀ id, id ∉ clients →
      (broadcastToLocalRoom roomID message excludeClient h).send id = h.send id) ∧
    (∀ r, r ≠ roomID →
      (broadcastToLocalRoom roomID message excludeClient h).roomClients r = h.roomClients r) ∧
    (∀ id ∈ clients, excludeClient ≠ some id →
      ¬ (h.send id).buf.length < ClientSendBufferSize →
      (broadcastToLocalRoom roomID message excludeClient h).send id =
        ⟨(h.send id).buf, true⟩ ∧
      id ∉ GetRoomClients roomID (broadcastToLocalRoom roomID message excludeClient h)) ∧
    GetRoomClients roomID (broadcastToLocalRoom roomID message excludeClient h) =
      clients.filter (keptByBroadcast excludeClient h) ∧
    (broadcastToLocalRoom roomID message excludeClient h).published = h.published ∧
    (broadcastToLocalRoom roomID message excludeClient h).crashed = false := by
  obtain ⟨h1, h2, h3, h4, h5, h6, _, _⟩ :=
    broadcastToLocalRoom_ok roomID message excludeClient h clients hok
  have hopen := hok.2.2.1
  have hget : GetRoomClients roomID (broadcastToLocalRoom roomID message excludeClient h) =
      clients.filter (keptByBroadcast excludeClient h) := by
    unfold GetRoomClients
    rw [h4]
  refine ⟨?_, ?_, h3, h5, ?_, hget, h6, h1⟩
  · intro id hid hex hroom
    refine ⟨?_, ?_⟩
    · rw [h2 id hid]
      unfold queueAfterBroadcast
      rw [if_neg hex, if_pos hroom]
      have := hopen id hid
      cases hs : h.send id with
      | mk buf closed =>
        rw [hs] at this
        simp only at this
        rw [this]
    · rw [hget]
      apply List.mem_filter.mpr
      refine ⟨hid, ?_⟩
      unfold keptByBroadcast
      simp [hroom]
  · intro id hid hex
    refine ⟨?_, ?_⟩
    · rw [h2 id hid]
      unfold queueAfterBroadcast
      rw [if_pos hex]
    · rw [hget]
      apply List.mem_filter.mpr
      refine ⟨hid, ?_⟩
      unfold keptByBroadcast
      simp [hex]
  · intro id hid hex hfull
    refine ⟨?_, ?_⟩
    · rw [h2 id hid]
      unfold queueAfterBroadcast
      rw [if_neg hex, if_neg hfull]
    · rw [hget]
      intro hmem
      have := (List.mem_filter.mp hmem).2
      unfold keptByBroadcast at this
      simp [hex, hfull] at this

theorem demoHub_roomOK : RoomOK demoHub 7 ["c-host", "c-ann", "c-bob"] := by
  refine ⟨rfl, by decide, ?_, rfl⟩
  intro id hid
  simp only [List.mem_cons, List.mem_singleton, List.not_mem_nil, or_false] at hid
  rcases hid with rfl | rfl | rfl <;> rfl

set_option maxRecDepth 100000 in
theorem C16_local_broadcast_witness :
    GetRoomClients 7 (broadcastToLocalRoom 7 pongBytes (some "c-host") demoHub) =
      ["c-host", "c-ann"] ∧
    (broadcastToLocalRoom 7 pongBytes (some "c-host") demoHub).send "c-ann" =
      ⟨[pongBytes], false⟩ :=
  ⟨((C16_local_broadcast 7 pongBytes (some "c-host") demoHub ["c-host", "c-ann", "c-bob"]
      demoHub_roomOK).2.2.2.2.2.1).trans (by decide),
   ((C16_local_broadcast 7 pongBytes (some "c-host") demoHub ["c-host", "c-ann", "c-bob"]
      demoHub_roomOK).1 "c-ann" (by decide) (by decide) (by decide)).1⟩

/-! ## The hub: messages from the backbone -/

theorem find_id (target : String) (l : List String) :
    l.find? (fun id => decide (id = target)) = if target ∈ l then some target else none := by
  induction l with
  | nil => rfl
  | cons a rest ih =>
    by_cases ha : a = target
    · subst ha
      simp
    · have hne : ¬ target = a := fun h => ha h.symm
      rw [List.find?_cons_of_neg _ (by simpa using ha), ih]
      simp [hne]

/-- C17: a message whose publisher is this hub's own server id, or that does not decode,
leaves the hub as it is. A message from another publisher is delivered by
`broadcastToLocalRoom` to the message's room with the excluded connection resolved among the
room's local connections: on a well-formed room, the connection whose id is the non-empty
excluded id keeps its queue, every other connection of the room gets the bytes at the tail of
its queue (or, with a full queue, is closed and dropped), and connections outside the room
are untouched. In no case is anything published to the backbone. -/
theorem C17_redis_message (h : Hub) (msg : CrossServerMessage) :
    (msg.ServerID = h.serverID → handleRedisMessage (some msg) h = h) ∧
    handleRedisMessage none h = h ∧
    (handleRedisMessage (some msg) h).published = h.published ∧
    (msg.ServerID ≠ h.serverID →
      handleRedisMessage (some msg) h =
        broadcastToLocalRoom msg.RoomID msg.Message
          (if msg.ExcludeClient ≠ "" ∧ msg.ExcludeClient ∈ GetRoomClients msg.RoomID h
           then some msg.ExcludeClient else none) h) ∧
    (msg.ServerID ≠ h.serverID → ∀ clients, RoomOK h msg.RoomID clients →
      (∀ id ∈ clients, id = msg.ExcludeClient → msg.ExcludeClient ≠ "" →
        (handleRedisMessage (some msg) h).send id = h.send id) ∧
      (∀ id ∈ clients, (id ≠ msg.ExcludeClient ∨ msg.ExcludeClient = "") →
        (h.send id).buf.length < ClientSendBufferSize →
        (handleRedisMessage (some msg) h).send id = ⟨(h.send id).buf ++ [msg.Message], false⟩) ∧
      (∀ id ∈ clients, (id ≠ msg.ExcludeClient ∨ msg.ExcludeClient = "") →
        ¬ (h.send id).buf.length < ClientSendBufferSize →
        (handleRedisMessage (some msg) h).send id = ⟨(h.send id).buf, true⟩ ∧
        id ∉ GetRoomClients msg.RoomID (handleRedisMessage (some msg) h)) ∧
      (∀ id, id ∉ clients → (handleRedisMessage (some msg) h).send id = h.send id) ∧
      (∀ r, r ≠ msg.RoomID →
        (handleRedisMessage (some msg) h).roomClients r = h.roomClients r)) := by
  have hresolve : msg.ServerID ≠ h.serverID →
      handleRedisMessage (some msg) h =
        broadcastToLocalRoom msg.RoomID msg.Message
          (if msg.ExcludeClient ≠ "" ∧ msg.ExcludeClient ∈ GetRoomClients msg.RoomID h
           then some msg.ExcludeClient else none) h := by
    intro hne
    unfold handleRedisMessage
    simp only [if_neg hne]
    congr 1
    by_cases hx : msg.ExcludeClient ≠ ""
    · rw [if_pos hx, find_id]
      by_cases hm : msg.ExcludeClient ∈ GetRoomClients msg.RoomID h
      · rw [if_pos hm, if_pos ⟨hx, hm⟩]
      · rw [if_neg hm, if_neg (fun hboth => hm hboth.2)]
    · rw [if_neg hx, if_neg (fun hboth => hx hboth.1)]
  refine ⟨?_, rfl, ?_, hresolve, ?_⟩
  · intro heq
    unfold handleRedisMessage
    simp only [if_pos heq]
  · by_cases heq : msg.ServerID = h.serverID
    · unfold handleRedisMessage
      simp only [if_pos heq]
    · rw [hresolve heq]
      exact broadcastToLocalRoom_published _ _ _ _
  · intro hne clients hok
    rw [hresolve hne]
    have hget : GetRoomClients msg.RoomID h = clients := by
      unfold GetRoomClients
      rw [hok.1]
    rw [hget]
    obtain ⟨_, hsend, hout, hrooms, hother, _, _, _⟩ := broadcastToLocalRoom_ok msg.RoomID
      msg.Message (if msg.ExcludeClient ≠ "" ∧ msg.ExcludeClient ∈ clients
       then some msg.ExcludeClient else none) h clients hok
    have hopen := hok.2.2.1
    have hnot : ∀ id, (id ≠ msg.ExcludeClient ∨ msg.ExcludeClient = "") →
        (if msg.ExcludeClient ≠ "" ∧ msg.ExcludeClient ∈ clients
          then some msg.ExcludeClient else none) ≠ some id := by
      intro id hcase
      by_cases hboth : msg.ExcludeClient ≠ "" ∧ msg.ExcludeClient ∈ clients
      · rw [if_pos hboth]
        rcases hcase with hne | hempty
        · exact fun h => hne (Option.some.inj h).symm
        · exact absurd hempty hboth.1
      · rw [if_neg hboth]
        exact fun h => nomatch h
    refine ⟨?_, ?_, ?_, hout, hother⟩
    · intro id hid heq hx
      rw [hsend id hid]
      unfold queueAfterBroadcast
      rw [if_pos (by rw [if_pos ⟨hx, heq ▸ hid⟩, heq])]
    · intro id hid hcase hroom
      rw [hsend id hid]
      unfold queueAfterBroadcast
      rw [if_neg (hnot id hcase), if_pos hroom]
      have hcl := hopen id hid
      cases hs : h.send id with
      | mk buf closed =>
        rw [hs] at hcl
        simp only at hcl
        rw [hcl]
    · intro id hid hcase hfull
      refine ⟨?_, ?_⟩
      · rw [hsend id hid]
        unfold queueAfterBroadcast
        rw [if_neg (hnot id hcase), if_neg hfull]
      · unfold GetRoomClients
        rw [hrooms]
        intro hmem
        have hkept := (List.mem_filter.mp hmem).2
        unfold keptByBroadcast at hkept
        simp [hnot id hcase, hfull] at hkept

set_option maxRecDepth 100000 in
theorem C17_redis_message_witness :
    (handleRedisMessage (some ⟨"server-b", 7, pongBytes, "c-host"⟩) demoHub).send "c-host" =
      ⟨[], false⟩ ∧
    (handleRedisMessage (some ⟨"server-b", 7, pongBytes, "c-host"⟩) demoHub).send "c-ann" =
      ⟨[pongBytes], false⟩ ∧
    (handleRedisMessage (some ⟨"server-b", 7, pongBytes, "c-host"⟩) demoHub).published = [] :=
  ⟨(((C17_redis_message demoHub ⟨"server-b", 7, pongBytes, "c-host"⟩).2.2.2.2 (by decide)
      ["c-host", "c-ann", "c-bob"] demoHub_roomOK).1 "c-host" (by decide) rfl (by decide)).trans
      rfl,
   ((C17_redis_message demoHub ⟨"server-b", 7, pongBytes, "c-host"⟩).2.2.2.2 (by decide)
      ["c-host", "c-ann", "c-bob"] demoHub_roomOK).2.1 "c-ann" (by decide) (by decide)
      (by decide),
   (C17_redis_message demoHub ⟨"server-b", 7, pongBytes, "c-host"⟩).2.2.1⟩

/-! ## The hub: unregister -/

set_option maxRecDepth 100000 in
/-- C15: the connection `c-ann` of the player is the only one in room 7 and its send queue is
full when it is unregistered. The disconnect hook, which runs first, broadcasts
`participant_left` to the room; the broadcast finds the queue full, closes it and deletes the
connection from the room without deleting the room. `handleUnregister` then finds the
connection gone and does nothing: the registry keeps room 7 with an empty set of connections
and the server presence of the room is not withdrawn. With an empty queue the same unregister
removes the room and withdraws the presence. In both runs the connection is no longer listed,
its queue is closed and room 8 is unchanged. -/
theorem C15_empty_room_kept :
    (lastInRoom 256).hub.roomClients 7 = some ["c-ann"] ∧
    ((lastInRoom 256).hub.send "c-ann").closed = false ∧
    (handleUnregister memEnv playerClient (lastInRoom 256)).hub.roomClients 7 = some [] ∧
    (handleUnregister memEnv playerClient (lastInRoom 256)).hub.presence =
      [(7, true), (8, true)] ∧
    GetRoomClients 7 (handleUnregister memEnv playerClient (lastInRoom 256)).hub = [] ∧
    ((handleUnregister memEnv playerClient (lastInRoom 256)).hub.send "c-ann").closed = true ∧
    (handleUnregister memEnv playerClient (lastInRoom 256)).hub.roomClients 8 =
      some ["c-eve"] ∧
    (handleUnregister memEnv playerClient (lastInRoom 256)).hub.crashed = false ∧
    (handleUnregister memEnv playerClient (lastInRoom 0)).hub.roomClients 7 = none ∧
    (handleUnregister memEnv playerClient (lastInRoom 0)).hub.presence =
      [(7, true), (8, true), (7, false)] ∧
    ((handleUnregister memEnv playerClient (lastInRoom 0)).hub.send "c-ann").closed = true ∧
    (handleUnregister memEnv playerClient (lastInRoom 0)).hub.roomClients 8 =
      some ["c-eve"] := by
  refine ⟨by decide, by decide, by decide, by decide, by decide, by decide, by decide,
    by decide, by decide, by decide, by decide, by decide⟩

/-! ## The disconnect hook -/

theorem broadcastToRoom_plain (sessionID : Int) (message : WSMessage)
    (excludeClient : Option Client) (s : Engine σ) (h : ¬ cachedType message.Type_) :
    broadcastToRoom sessionID message excludeClient s =
      { s with log := s.log ++
          [Event.BroadcastToRoom sessionID (jsonMarshal message)
            (excludeClient.map (fun c => c.ID))] } := by
  unfold broadcastToRoom
  unfold cachedType at h
  dsimp only
  rw [if_neg h]

theorem stopQuestionTimer_stops (sessionID : Int) (s : Engine σ) (timer : Nat)
    (h : s.questionTimers.lookup sessionID = some timer) :
    ∀ t ∈ (stopQuestionTimer sessionID s).scheduled, t.id = timer → t.stopped = true := by
  unfold stopQuestionTimer
  rw [h]
  intro t ht hid
  simp only [stopTimer, List.mem_map] at ht
  obtain ⟨t0, _, rfl⟩ := ht
  by_cases h0 : t0.id = timer
  · rw [if_pos h0]
  · rw [if_neg h0] at hid
    exact absurd hid h0

theorem stopQuestionTimer_other (sessionID other : Int) (hne : other ≠ sessionID)
    (s : Engine σ) :
    (stopQuestionTimer sessionID s).questionTimers.lookup other =
      s.questionTimers.lookup other := by
  unfold stopQuestionTimer
  split
  · exact lookup_filter_other sessionID other hne _
  · rfl

theorem stopQuestionTimer_keeps (sessionID : Int) (s : Engine σ) :
    ∀ t0 ∈ s.scheduled, ∃ t ∈ (stopQuestionTimer sessionID s).scheduled,
      t.task = t0.task ∧ t.id = t0.id := by
  intro t0 ht0
  unfold stopQuestionTimer
  split
  · rename_i timer _
    refine ⟨if t0.id = timer then { t0 with stopped := true } else t0, ?_, ?_, ?_⟩
    · simp only [stopTimer, List.mem_map]
      exact ⟨t0, ht0, rfl⟩
    · split <;> rfl
    · split <;> rfl
  · exact ⟨t0, ht0, rfl, rfl⟩

theorem NotifyParticipantLeft_eq (env : Env σ) (sessionID participantID : Int)
    (s : Engine σ) :
    NotifyParticipantLeft env sessionID participantID s =
      { s with
        ticks := s.ticks + 2
        log := s.log ++
          [Event.BroadcastToRoom sessionID
            (jsonMarshal ⟨WSMsgTypeParticipantLeft,
              Payload.participantLeft sessionID participantID (env.clock s.ticks),
              env.clock (s.ticks + 1)⟩) none] } := by
  have hleft : ¬ cachedType WSMsgTypeParticipantLeft := by unfold cachedType; decide
  unfold NotifyParticipantLeft
  dsimp only
  rw [broadcastToRoom_plain _ _ _ _ hleft]
  rfl

/-- C24: for a connection whose participant id is 0, `HandleClientDisconnect` leaves the
engine as it is. For a joined connection it broadcasts `participant_left` to the room,
excluding nobody, and registers the participant-list update. When the connection is not the
host that is all: the timer map is unchanged and nothing else is broadcast. When it is the
host, the room's timer is stopped and its entry removed from the timer map, and a
`game_paused` message with reason `host_disconnected` is broadcast to the room, excluding the
disconnecting connection. The timers of other rooms are untouched. -/
theorem C24_disconnect (env : Env σ) (client : Client) (s : Engine σ) :
    (client.ParticipantID = 0 → HandleClientDisconnect env client s = s) ∧
    (client.ParticipantID ≠ 0 →
      newEvents s (HandleClientDisconnect env client s) =
        Event.BroadcastToRoom client.SessionID
          (jsonMarshal ⟨WSMsgTypeParticipantLeft,
            Payload.participantLeft client.SessionID client.ParticipantID (env.clock s.ticks),
            env.clock (s.ticks + 1)⟩) none ::
        (if client.IsHost then
          [Event.BroadcastToRoom client.SessionID
            (jsonMarshal ⟨WSMsgTypeGamePaused,
              Payload.gamePaused client.SessionID (some "host_disconnected")
                (env.clock (s.ticks + 2)),
              env.clock (s.ticks + 3)⟩) (some client.ID)]
         else []) ∧
      (∃ t ∈ (HandleClientDisconnect env client s).scheduled,
        t.task = Deferred.participantListUpdate client.SessionID "participant_disconnect"
          (some client)) ∧
      (client.IsHost = true →
        (HandleClientDisconnect env client s).questionTimers.lookup client.SessionID = none ∧
        ∀ timer, s.questionTimers.lookup client.SessionID = some timer →
          ∀ t ∈ (HandleClientDisconnect env client s).scheduled,
            t.id = timer → t.stopped = true) ∧
      (client.IsHost = false →
        (HandleClientDisconnect env client s).questionTimers = s.questionTimers ∧
        (HandleClientDisconnect env client s).scheduled =
          s.scheduled ++ [⟨s.scheduled.length, 0,
            Deferred.participantListUpdate client.SessionID "participant_disconnect"
              (some client), false⟩]) ∧
      ∀ other, other ≠ client.SessionID →
        (HandleClientDisconnect env client s).questionTimers.lookup other =
          s.questionTimers.lookup other) := by
  have hpaused : ¬ cachedType WSMsgTypeGamePaused := by unfold cachedType; decide
  constructor
  · intro h0
    unfold HandleClientDisconnect
    rw [if_pos h0]
  · intro hne
    unfold HandleClientDisconnect
    rw [if_neg hne]
    dsimp only
    rw [NotifyParticipantLeft_eq]
    by_cases hhost : client.IsHost = true
    · rw [if_pos hhost, if_pos hhost]
      rw [broadcastToRoom_plain _ _ _ _ hpaused]
      generalize hs2 : (afterFunc 0 (Deferred.participantListUpdate client.SessionID
        "participant_disconnect" (some client))
        { s with
          ticks := s.ticks + 2
          log := s.log ++
            [Event.BroadcastToRoom client.SessionID
              (jsonMarshal ⟨WSMsgTypeParticipantLeft,
                Payload.participantLeft client.SessionID client.ParticipantID
                  (env.clock s.ticks), env.clock (s.ticks + 1)⟩) none] }).2 = s2
      have hs2log : s2.log = s.log ++
            [Event.BroadcastToRoom client.SessionID
              (jsonMarshal ⟨WSMsgTypeParticipantLeft,
                Payload.participantLeft client.SessionID client.ParticipantID
                  (env.clock s.ticks), env.clock (s.ticks + 1)⟩) none] := by
        rw [← hs2]; rfl
      have hs2ticks : s2.ticks = s.ticks + 2 := by rw [← hs2]; rfl
      have hs2timers : s2.questionTimers = s.questionTimers := by rw [← hs2]; rfl
      have hs2sched : s2.scheduled = s.scheduled ++ [⟨s.scheduled.length, 0,
          Deferred.participantListUpdate client.SessionID "participant_disconnect"
            (some client), false⟩] := by
        rw [← hs2]; rfl
      have hfacts := stopQuestionTimer_facts client.SessionID s2
      refine ⟨?_, ?_, ?_, ?_, ?_⟩
      · apply newEvents_append
        simp only [timeNow, hfacts.1, hfacts.2.2.1, hs2log, hs2ticks, List.append_assoc,
          List.singleton_append, Option.map_some']
      · obtain ⟨t, ht, htask, _⟩ := stopQuestionTimer_keeps client.SessionID s2
          ⟨s.scheduled.length, 0,
            Deferred.participantListUpdate client.SessionID "participant_disconnect"
              (some client), false⟩
          (by rw [hs2sched]; exact List.mem_append_right _ (List.mem_singleton.mpr rfl))
        exact ⟨t, ht, htask⟩
      · intro _
        refine ⟨stopQuestionTimer_lookup client.SessionID s2, ?_⟩
        intro timer htimer
        rw [← hs2timers] at htimer
        exact stopQuestionTimer_stops client.SessionID s2 timer htimer
      · intro hfalse
        rw [hhost] at hfalse
        cases hfalse
      · intro other hother
        change (stopQuestionTimer client.SessionID s2).questionTimers.lookup other = _
        rw [stopQuestionTimer_other client.SessionID other hother, hs2timers]
    · rw [if_neg hhost, if_neg hhost]
      refine ⟨?_, ?_, ?_, ?_, ?_⟩
      · apply newEvents_append
        rfl
      · exact ⟨_, List.mem_append_right _ (List.mem_singleton.mpr rfl), rfl⟩
      · intro htrue
        exact absurd htrue hhost
      · intro _
        exact ⟨rfl, rfl⟩
      · intro other _
        rfl

theorem C24_disconnect_witness :
    newEvents (runningEngine 0) (HandleClientDisconnect memEnv hostClient (runningEngine 0)) =
      [Event.BroadcastToRoom 7
        (jsonMarshal ⟨WSMsgTypeParticipantLeft,
          Payload.participantLeft 7 1 1700000000000000000, 1700000000001000000⟩) none,
       Event.BroadcastToRoom 7
        (jsonMarshal ⟨WSMsgTypeGamePaused,
          Payload.gamePaused 7 (some "host_disconnected") 1700000000002000000,
          1700000000003000000⟩) (some "c-host")] ∧
    (HandleClientDisconnect memEnv hostClient (runningEngine 0)).questionTimers.lookup 7 = none :=
  ⟨((C24_disconnect memEnv hostClient (runningEngine 0)).2 (by decide)).1,
   (((C24_disconnect memEnv hostClient (runningEngine 0)).2 (by decide)).2.2.1 rfl).1⟩

/-! ## Answers from a connection that has not joined -/

theorem handleSubmitAnswer_update (env : Env σ) (client : Client) (wsMsg : WSMessageIn)
    (s : Engine σ) (payload : WSAnswerPayload) (question : Question)
    (hp : wsMsg.answerPayload = some payload)
    (hq : env.repos.GetQuestionByID s.db payload.QuestionID = some question)
    (hv : validateAnswerPayload question payload = none) :
    (∃ ok, Event.repo (RepoCall.UpdateParticipantScore client.ParticipantID
        (scoreEarned (evaluateAnswer env.caseTable question payload) payload.TimeTaken)) ok ∈
      newEvents s (handleSubmitAnswer env client wsMsg s)) ∧
    ((env.repos.UpdateParticipantScore s.db client.ParticipantID
        (scoreEarned (evaluateAnswer env.caseTable question payload)
          payload.TimeTaken)).isSome = true →
      Event.SendToClient client.ID
        (jsonMarshal ⟨WSMsgTypeAnswerReceived,
          Payload.answerReceived (evaluateAnswer env.caseTable question payload)
            (scoreEarned (evaluateAnswer env.caseTable question payload) payload.TimeTaken)
            payload.TimeTaken,
          env.clock s.ticks⟩) ∈
      newEvents s (handleSubmitAnswer env client wsMsg s)) := by
  unfold handleSubmitAnswer
  rw [hp]
  dsimp only
  rw [hq]
  dsimp only
  rw [hv]
  dsimp only
  have hdb : (logRepo (RepoCall.GetQuestionByID payload.QuestionID) true s).db = s.db := rfl
  rw [hdb]
  cases hu : env.repos.UpdateParticipantScore s.db client.ParticipantID
      (scoreEarned (evaluateAnswer env.caseTable question payload) payload.TimeTaken) with
  | none =>
    refine ⟨⟨false, ?_⟩, fun h => by cases h⟩
    simp [newEvents, sendError, sendToClient, timeNow, logRepo]
  | some db' =>
    refine ⟨⟨true, ?_⟩, fun _ => ?_⟩
    · simp [newEvents, sendToClient, timeNow, logRepo]
    · simp [newEvents, sendToClient, timeNow, logRepo]

/-- C28: a connection to room 7 that never sent `join` (participant id 0) submits the correct
answer to question 11 after 1.5 seconds. Whatever the store does with the update,
`handleSubmitAnswer` calls `UpdateParticipantScore` with participant id 0 and 985 points, and
when the store reports success the connection is told that it earned 985 points. Over the
in-memory store, on which the update of a missing row is an error, the call is made and the
connection gets `SCORE_UPDATE_FAILED`. -/
theorem C28_score_update_without_join (update : Store → Int → Int → Option Store) :
    freshClient.ParticipantID = 0 ∧
    (∃ ok, Event.repo (RepoCall.UpdateParticipantScore 0 985) ok ∈
      newEvents (runningEngine 0)
        (handleSubmitAnswer (scoreUpdateEnv update) freshClient
          (answerMessage ⟨11, "single_choice", some "Paris", [], 1500⟩) (runningEngine 0))) ∧
    ((update (runningEngine 0).db 0 985).isSome = true →
      Event.SendToClient "c-new"
        (jsonMarshal ⟨WSMsgTypeAnswerReceived, Payload.answerReceived true 985 1500,
          memEnv.clock 0⟩) ∈
      newEvents (runningEngine 0)
        (handleSubmitAnswer (scoreUpdateEnv update) freshClient
          (answerMessage ⟨11, "single_choice", some "Paris", [], 1500⟩) (runningEngine 0))) ∧
    newEvents (runningEngine 0)
        (HandleMessage memEnv freshClient
          (answerMessage ⟨11, "single_choice", some "Paris", [], 1500⟩) (runningEngine 0)).1 =
      [Event.repo (RepoCall.GetQuestionByID 11) true,
       Event.repo (RepoCall.UpdateParticipantScore 0 985) false,
       Event.SendToClient "c-new"
         (errorEnvelope "SCORE_UPDATE_FAILED" "Failed to update score" (memEnv.clock 0))] := by
  have hq : memRepos.GetQuestionByID (runningEngine 0).db 11 =
      some ⟨11, 3, "Capital of France?", QuestionTypeSingleChoice,
        [⟨"Paris", true⟩, ⟨"Rome", false⟩], TimeLimitType5, 0⟩ := by decide
  have hv : validateAnswerPayload
      ⟨11, 3, "Capital of France?", QuestionTypeSingleChoice,
        [⟨"Paris", true⟩, ⟨"Rome", false⟩], TimeLimitType5, 0⟩
      ⟨11, "single_choice", some "Paris", [], 1500⟩ = none := by decide
  have heval : evaluateAnswer id
      ⟨11, 3, "Capital of France?", QuestionTypeSingleChoice,
        [⟨"Paris", true⟩, ⟨"Rome", false⟩], TimeLimitType5, 0⟩
      ⟨11, "single_choice", some "Paris", [], 1500⟩ = true := by decide
  have hscore : scoreEarned true 1500 = 985 := by decide
  have h := handleSubmitAnswer_update (scoreUpdateEnv update) freshClient
    (answerMessage ⟨11, "single_choice", some "Paris", [], 1500⟩) (runningEngine 0)
    ⟨11, "single_choice", some "Paris", [], 1500⟩
    ⟨11, 3, "Capital of France?", QuestionTypeSingleChoice,
      [⟨"Paris", true⟩, ⟨"Rome", false⟩], TimeLimitType5, 0⟩ rfl hq hv
  have hcase : (scoreUpdateEnv update).caseTable = id := rfl
  rw [hcase, heval, hscore] at h
  exact ⟨rfl, h.1, h.2, by decide⟩

/-! ## Empty rooms and closed queues -/

theorem handleRegister_noEmptyRoom (client : Client) (h : Hub) (hok : NoEmptyRoom h) :
    NoEmptyRoom (handleRegister client h) := by
  intro roomID
  unfold handleRegister trackServerPresence
  dsimp only
  by_cases hr : roomID = client.SessionID
  · rw [if_pos hr]
    intro hempty
    have hnil := Option.some.inj hempty
    split at hnil
    · rename_i hmem
      rw [hnil] at hmem
      cases hmem
    · exact absurd hnil (by simp)
  · rw [if_neg hr]
    exact hok roomID

theorem lastInRoom_noEmptyRoom (queued : Nat) : NoEmptyRoom (lastInRoom queued).hub := by
  intro roomID
  unfold lastInRoom newHub
  dsimp only
  split
  · simp
  · split <;> simp

set_option maxRecDepth 100000 in
/-- C26: a local broadcast that drops the last connection of a room leaves the room in the
registry with no connection. In the hub whose room 7 holds only `c-ann`, with a full send
queue, no room is empty; after `broadcastToLocalRoom` on room 7 the connection is dropped and
room 7 is still present, with an empty set of connections, so the count of its connections
is 0 for a room that exists. -/
theorem C26_broadcast_leaves_empty_room :
    NoEmptyRoom (lastInRoom 256).hub ∧
    (broadcastToLocalRoom 7 pongBytes none (lastInRoom 256).hub).roomClients 7 = some [] ∧
    ((broadcastToLocalRoom 7 pongBytes none (lastInRoom 256).hub).send "c-ann").closed = true ∧
    (broadcastToLocalRoom 7 pongBytes none (lastInRoom 256).hub).presence =
      [(7, true), (8, true)] ∧
    (broadcastToLocalRoom 7 pongBytes none (lastInRoom 256).hub).crashed = false :=
  ⟨lastInRoom_noEmptyRoom 256, by decide, by decide, by decide, by decide⟩

set_option maxRecDepth 100000 in
/-- C27: a reply is sent on a queue that a broadcast has closed. In `demoHub` the send queue
of `c-bob` is full and open. A broadcast to room 7 closes that queue and removes `c-bob` from
the room; the connection's read loop is still running. Its next message, a `ping`, is handled
and the `pong` reply is handed to `SendToClient`, which sends on the closed queue: a runtime
panic. The queue itself holds the 256 messages it held and is closed once. -/
theorem C27_reply_on_closed_queue :
    (demoHub.send "c-bob").closed = false ∧
    ((BroadcastToRoom 7 pongBytes none demoHub).send "c-bob").closed = true ∧
    (BroadcastToRoom 7 pongBytes none demoHub).roomClients 7 = some ["c-host", "c-ann"] ∧
    (BroadcastToRoom 7 pongBytes none demoHub).crashed = false ∧
    newEvents (runningEngine 0)
        (HandleMessage memEnv bobClient (bareMessage WSMsgTypePing) (runningEngine 0)).1 =
      [Event.SendToClient "c-bob" (jsonMarshal ⟨WSMsgTypePong, Payload.nil, memEnv.clock 0⟩)] ∧
    ((newEvents (runningEngine 0)
        (HandleMessage memEnv bobClient (bareMessage WSMsgTypePing) (runningEngine 0)).1).foldl
        applyEvent (BroadcastToRoom 7 pongBytes none demoHub)).crashed = true ∧
    (((newEvents (runningEngine 0)
        (HandleMessage memEnv bobClient (bareMessage WSMsgTypePing) (runningEngine 0)).1).foldl
        applyEvent (BroadcastToRoom 7 pongBytes none demoHub)).send "c-bob").buf.length = 256 :=
  ⟨by decide, by decide, by decide, by decide, by decide, by decide, by decide⟩

/-! ## Join codes -/

theorem isCodeChar_toUpperRune_ascii (upperTable : Char → Char) (c : Char)
    (hc : c.toNat ≤ 127) : isCodeChar (toUpperRune upperTable c) = asciiAlnum c := by
  unfold toUpperRune
  rw [if_pos hc]
  by_cases hl : 97 ≤ c.toNat ∧ c.toNat ≤ 122
  · rw [if_pos hl]
    have hn : (Char.ofNat (c.toNat - 32)).toNat = c.toNat - 32 :=
      toNat_ofNat_small (c.toNat - 32) (by omega)
    unfold isCodeChar asciiAlnum
    rw [hn]
    have h1 : decide (65 ≤ c.toNat - 32) = true := by simp; omega
    have h2 : decide (c.toNat - 32 ≤ 90) = true := by simp; omega
    have h3 : decide (97 ≤ c.toNat) = true := by simp; omega
    have h4 : decide (c.toNat ≤ 122) = true := by simp; omega
    simp [h1, h2, h3, h4]
  · rw [if_neg hl]
    unfold isCodeChar asciiAlnum
    have h : (decide (97 ≤ c.toNat) && decide (c.toNat ≤ 122)) = false := by
      simpa using hl
    rw [h]
    simp

theorem asciiAlnum_ascii (c : Char) (h : asciiAlnum c = true) : c.toNat ≤ 127 := by
  unfold asciiAlnum at h
  simp at h
  omega

theorem goLen_ascii (l : List Char) (h : ∀ c ∈ l, c.toNat ≤ 127) :
    (l.map utf8Len).sum = l.length := by
  induction l with
  | nil => rfl
  | cons a rest ih =>
    have ha : utf8Len a = 1 := by
      unfold utf8Len
      rw [if_pos (by have := h a (List.mem_cons_self _ _); omega)]
    rw [List.map_cons, List.sum_cons, ha, List.length_cons,
      ih (fun c hc => h c (List.mem_cons_of_mem _ hc))]
    omega

theorem ValidateJoinCode_of_alnum (upperTable : Char → Char) (code : String)
    (hlen : code.data.length = 6) (hall : ∀ c ∈ code.data, asciiAlnum c = true) :
    ValidateJoinCode upperTable code = true := by
  unfold ValidateJoinCode goLen
  rw [goLen_ascii code.data (fun c hc => asciiAlnum_ascii c (hall c hc)), hlen]
  simp only [ne_eq, not_true_eq_false, if_false, ToUpper, List.all_map, List.all_eq_true,
    Function.comp]
  intro c hc
  rw [isCodeChar_toUpperRune_ascii upperTable c (asciiAlnum_ascii c (hall c hc))]
  exact hall c hc

theorem randInt_lt (draw : ρ → Option (Nat × ρ)) (max : Nat) (hmax : 0 < max) (r r1 : ρ)
    (num : Nat) (h : randInt draw max r = some (num, r1)) : num < max := by
  unfold randInt at h
  split at h
  · cases h
  · cases h
    exact Nat.mod_lt _ hmax

theorem generateLoop_chars (draw : ρ → Option (Nat × ρ)) :
    ∀ (remaining : Nat) (result : List Char) (r : ρ) (code : String) (r1 : ρ),
      generateLoop draw remaining result r = (some code, r1) →
      code.data.length = result.length + remaining ∧
      ∀ c ∈ code.data, c ∈ result ∨ c ∈ joinCodeCharset.data := by
  intro remaining
  induction remaining with
  | zero =>
    intro result r code r1 h
    unfold generateLoop at h
    cases h
    exact ⟨rfl, fun c hc => Or.inl hc⟩
  | succ n ih =>
    intro result r code r1 h
    unfold generateLoop at h
    split at h
    · cases h
    · rename_i num r2 hdraw
      have hlt : num < joinCodeCharset.data.length :=
        randInt_lt draw joinCodeCharset.length (by decide) r r2 num hdraw
      obtain ⟨hlen, hmem⟩ := ih _ _ _ _ h
      refine ⟨?_, ?_⟩
      · rw [hlen, List.length_append, List.length_singleton]
        omega
      · intro c hc
        rcases hmem c hc with hin | hin
        · rcases List.mem_append.mp hin with hold | hnew
          · exact Or.inl hold
          · right
            rw [List.mem_singleton.mp hnew, List.getD_eq_getElem _ _ hlt]
            exact List.getElem_mem _
        · exact Or.inr hin

theorem generateLoop_total (draw : ρ → Option (Nat × ρ))
    (hdraw : ∀ r0, (draw r0).isSome = true) :
    ∀ (remaining : Nat) (result : List Char) (r : ρ),
      ∃ code r1, generateLoop draw remaining result r = (some code, r1) := by
  intro remaining
  induction remaining with
  | zero =>
    intro result r
    exact ⟨⟨result⟩, r, rfl⟩
  | succ n ih =>
    intro result r
    unfold generateLoop randInt
    cases hd : draw r with
    | none =>
      have := hdraw r
      rw [hd] at this
      cases this
    | some pair =>
      obtain ⟨raw, r2⟩ := pair
      exact ih _ _

theorem charset_alnum : ∀ c ∈ joinCodeCharset.data, asciiAlnum c = true ∧ isCodeChar c = true := by
  decide

/-- C23: a code that `helpers.GenerateJoinCode` returns has exactly 6 characters, each of them
one of the 36 characters of the charset and so an upper-case letter `A`..`Z` or a digit
`0`..`9`, and `ValidateJoinCode` accepts it whatever the case tables are. When no draw of
the random source fails, a code is returned. -/
theorem C23_generated_code (draw : ρ → Option (Nat × ρ)) (r : ρ) :
    (∀ code r1, helpers.GenerateJoinCode draw r = (some code, r1) →
      code.length = 6 ∧
      (∀ c ∈ code.data, c ∈ joinCodeCharset.data ∧ isCodeChar c = true) ∧
      ∀ upperTable, ValidateJoinCode upperTable code = true) ∧
    ((∀ r0, (draw r0).isSome = true) →
      ∃ code r1, helpers.GenerateJoinCode draw r = (some code, r1)) := by
  constructor
  · intro code r1 h
    unfold helpers.GenerateJoinCode at h
    obtain ⟨hlen, hmem⟩ := generateLoop_chars draw codeLength [] r code r1 h
    have hin : ∀ c ∈ code.data, c ∈ joinCodeCharset.data := by
      intro c hc
      rcases hmem c hc with hnil | hcs
      · cases hnil
      · exact hcs
    have hlen6 : code.data.length = 6 := by
      rw [hlen]
      rfl
    refine ⟨hlen6, fun c hc => ⟨hin c hc, (charset_alnum c (hin c hc)).2⟩, fun upperTable => ?_⟩
    exact ValidateJoinCode_of_alnum upperTable code hlen6
      (fun c hc => (charset_alnum c (hin c hc)).1)
  · intro hdraw
    exact generateLoop_total draw hdraw codeLength [] r

theorem C23_generated_code_witness :
    "A09BCD".length = 6 ∧
    (∀ c ∈ "A09BCD".data, c ∈ joinCodeCharset.data ∧ isCodeChar c = true) ∧
    ∀ upperTable, ValidateJoinCode upperTable "A09BCD" = true :=
  (C23_generated_code listSource [0, 26, 35, 1, 2, 3, 9]).1 "A09BCD" [9] (by decide)

/-- C25: `ValidateJoinCode` accepts strings that are not 6 ASCII letters or digits. The
length it checks is the number of bytes, and the upper-casing maps the long s (U+017F, two
bytes) to `S` and the dotless i (U+0131, two bytes) to `I`: the 5-character string that
starts with a long s and the 3-character string of dotless i are accepted, as are
`abc123` and `ABC123`; the 5-character `abc12` is rejected. -/
theorem C25_accepts_non_ascii :
    ValidateJoinCode foldingUpper "ſABCD" = true ∧
    "ſABCD".length = 5 ∧
    "ſABCD".data.all asciiAlnum = false ∧
    goLen "ſABCD" = 6 ∧
    ToUpper foldingUpper "ſABCD" = "SABCD" ∧
    ValidateJoinCode foldingUpper "ııı" = true ∧
    "ııı".length = 3 ∧
    ValidateJoinCode foldingUpper "abc123" = true ∧
    ValidateJoinCode foldingUpper "ABC123" = true ∧
    ValidateJoinCode foldingUpper "abc12" = false := by
  refine ⟨by decide, by decide, by decide, by decide, by decide, by decide, by decide,
    by decide, by decide, by decide⟩

theorem ValidateJoinCode_ascii_iff (upperTable : Char → Char) (code : String)
    (hascii : ∀ c ∈ code.data, c.toNat ≤ 127) :
    ValidateJoinCode upperTable code = true ↔
      code.data.length = 6 ∧ ∀ c ∈ code.data, asciiAlnum c = true := by
  constructor
  · intro h
    unfold ValidateJoinCode goLen at h
    rw [goLen_ascii code.data hascii] at h
    by_cases hlen : code.data.length = 6
    · refine ⟨hlen, ?_⟩
      rw [if_neg (by simpa using hlen)] at h
      simp only [ToUpper, List.all_map, List.all_eq_true, Function.comp] at h
      intro c hc
      rw [← isCodeChar_toUpperRune_ascii upperTable c (hascii c hc)]
      exact h c hc
    · rw [if_pos hlen] at h
      cases h
  · intro h
    exact ValidateJoinCode_of_alnum upperTable code h.1 h.2

/-! ## Ownership checks of the question service -/

theorem ValidateQuizOwnership_reads (env : SvcEnv σ ρ) (quizID userID : Int)
    (includeQuestions : Bool) (s : Svc σ ρ) :
    (ValidateQuizOwnership env quizID userID includeQuestions s).2 =
      s.record (SvcCall.GetQuizDetail quizID includeQuestions)
        (succeeded (env.repos.GetQuizDetail s.db quizID includeQuestions)) := by
  unfold ValidateQuizOwnership svcRead
  dsimp only
  split
  · split <;> rfl
  · split <;> rfl

theorem ValidateQuestionOwnership_reads (env : SvcEnv σ ρ) (questionID userID : Int)
    (s : Svc σ ρ) :
    (ValidateQuestionOwnership env questionID userID s).2.db = s.db ∧
    ∃ reads, (ValidateQuestionOwnership env questionID userID s).2.calls = s.calls ++ reads ∧
      ∀ e ∈ reads, e.1.isWrite = false := by
  unfold ValidateQuestionOwnership
  dsimp only
  split
  · have hstate : ∀ b, (svcRead s (SvcCall.GetQuestionByID questionID)
        (env.repos.GetQuestionByID s.db questionID)).2 =
        s.record (SvcCall.GetQuestionByID questionID) b →
        (s.record (SvcCall.GetQuestionByID questionID) b).db = s.db ∧
        ∃ reads, (s.record (SvcCall.GetQuestionByID questionID) b).calls = s.calls ++ reads ∧
          ∀ e ∈ reads, e.1.isWrite = false := by
      intro b _
      refine ⟨rfl, [(SvcCall.GetQuestionByID questionID, b)], rfl, ?_⟩
      intro e he
      rw [List.mem_singleton.mp he]
      rfl
    split
    · exact hstate _ rfl
    · exact hstate _ rfl
  · rename_i question _
    have hq : (ValidateQuizOwnership env question.QuizID userID false
        (svcRead s (SvcCall.GetQuestionByID questionID)
          (env.repos.GetQuestionByID s.db questionID)).2).2.db = s.db ∧
        ∃ reads, (ValidateQuizOwnership env question.QuizID userID false
          (svcRead s (SvcCall.GetQuestionByID questionID)
            (env.repos.GetQuestionByID s.db questionID)).2).2.calls = s.calls ++ reads ∧
          ∀ e ∈ reads, e.1.isWrite = false := by
      rw [ValidateQuizOwnership_reads]
      refine ⟨rfl, [(SvcCall.GetQuestionByID questionID,
          succeeded (env.repos.GetQuestionByID s.db questionID)),
        (SvcCall.GetQuizDetail question.QuizID false,
          succeeded (env.repos.GetQuizDetail s.db question.QuizID false))], ?_, ?_⟩
      · simp [Svc.record, svcRead]
      · intro e he
        simp only [List.mem_cons, List.mem_singleton, List.not_mem_nil, or_false] at he
        rcases he with rfl | rfl <;> rfl
    split
    · exact hq
    · exact hq

theorem DeleteQuestion_rejects (env : SvcEnv σ ρ) (authUser : UserSession) (questionID : Int)
    (s : Svc σ ρ) (appErr : AppError)
    (h : (ValidateQuestionOwnership env questionID authUser.UserID s).1 = Except.error appErr) :
    DeleteQuestion env authUser questionID s =
      (some appErr, (ValidateQuestionOwnership env questionID authUser.UserID s).2) := by
  unfold DeleteQuestion
  dsimp only
  rw [h]

theorem UpdateQuestionIndex_rejects (env : SvcEnv σ ρ) (authUser : UserSession)
    (first : QuestionIndexesPayload) (rest : List QuestionIndexesPayload) (s : Svc σ ρ)
    (appErr : AppError)
    (h : (ValidateQuestionOwnership env first.QuestionID authUser.UserID s).1 =
      Except.error appErr) :
    UpdateQuestionIndex env authUser (first :: rest) s =
      (some appErr, (ValidateQuestionOwnership env first.QuestionID authUser.UserID s).2) := by
  unfold UpdateQuestionIndex
  dsimp only
  rw [h]

theorem UpdateQuestion_writes (env : SvcEnv σ ρ) (authUser : UserSession)
    (req : UpdateQuestionRequest) (s : Svc σ ρ)
    (hformat : ValidateAnswersFormat req.Answers req.Type_ = none) :
    ∃ ok, (SvcCall.UpdateQuestion
        ⟨req.QuestionID, 0, req.Question, req.Type_, req.Answers, req.TimeLimit, 0⟩, ok) ∈
      (UpdateQuestion env authUser req s).2.calls := by
  unfold UpdateQuestion
  rw [hformat]
  dsimp only
  unfold svcWrite
  split
  · split
    · rename_i heq
      exact ⟨true, by simp [Svc.record]⟩
    · exact ⟨false, by simp [Svc.record]⟩
  · split
    · exact ⟨true, by simp [Svc.record]⟩
    · exact ⟨false, by simp [Svc.record]⟩

/-- C29: `UpdateQuestion` updates a question of another user's quiz. Quiz 3 and its question
11 belong to user 100. For user 200 `ValidateQuestionOwnership` fails with the 403 error,
and `DeleteQuestion` and `UpdateQuestionIndex` return that error without a write. Yet
`UpdateQuestion` by user 200 returns the updated question with no error: it calls the
repository update, and the stored question 11 then carries the new text and answers. For a
question that does not exist it also reaches the repository update, and reports the
repository's error as a 500 instead of the 404 of the validation. -/
theorem C29_update_ignores_ownership :
    (ValidateQuestionOwnership memSvcEnv 11 200 (newSvc quizStore [])).1 =
      Except.error ((Forbidden CodeUnauthorized ErrUnauthorizedAccess).WithDetails
        "Only the quiz owner can perform this action") ∧
    (UpdateQuestion memSvcEnv ⟨200, "mallory"⟩
        ⟨11, "Capital of Peru?", QuestionTypeSingleChoice, [⟨"Lima", true⟩, ⟨"Rome", false⟩],
          TimeLimitType5⟩ (newSvc quizStore [])).1 =
      Except.ok ⟨11, 3, "Capital of Peru?", QuestionTypeSingleChoice,
        [⟨"Lima", true⟩, ⟨"Rome", false⟩], TimeLimitType5, 0⟩ ∧
    ((UpdateQuestion memSvcEnv ⟨200, "mallory"⟩
        ⟨11, "Capital of Peru?", QuestionTypeSingleChoice, [⟨"Lima", true⟩, ⟨"Rome", false⟩],
          TimeLimitType5⟩ (newSvc quizStore [])).2.calls.map
        (fun e => (e.1.isWrite, e.2))) = [(false, true), (false, true), (true, true)] ∧
    (UpdateQuestion memSvcEnv ⟨200, "mallory"⟩
        ⟨11, "Capital of Peru?", QuestionTypeSingleChoice, [⟨"Lima", true⟩, ⟨"Rome", false⟩],
          TimeLimitType5⟩ (newSvc quizStore [])).2.db.questions =
      [⟨11, 3, "Capital of Peru?", QuestionTypeSingleChoice,
        [⟨"Lima", true⟩, ⟨"Rome", false⟩], TimeLimitType5, 0⟩] ∧
    (DeleteQuestion memSvcEnv ⟨200, "mallory"⟩ 11 (newSvc quizStore [])).1 =
      some ((Forbidden CodeUnauthorized ErrUnauthorizedAccess).WithDetails
        "Only the quiz owner can perform this action") ∧
    (DeleteQuestion memSvcEnv ⟨200, "mallory"⟩ 11 (newSvc quizStore [])).2.db = quizStore ∧
    (UpdateQuestionIndex memSvcEnv ⟨200, "mallory"⟩ [⟨11, 4⟩] (newSvc quizStore [])).1 =
      some ((Forbidden CodeUnauthorized ErrUnauthorizedAccess).WithDetails
        "Only the quiz owner can perform this action") ∧
    (UpdateQuestionIndex memSvcEnv ⟨200, "mallory"⟩ [⟨11, 4⟩] (newSvc quizStore [])).2.db =
      quizStore ∧
    (UpdateQuestion memSvcEnv ⟨100, "hana"⟩
        ⟨99, "Capital of Peru?", QuestionTypeSingleChoice, [⟨"Lima", true⟩, ⟨"Rome", false⟩],
          TimeLimitType5⟩ (newSvc quizStore [])).1 =
      Except.error (InternalError CodeDBError "no rows in result set") ∧
    ((UpdateQuestion memSvcEnv ⟨100, "hana"⟩
        ⟨99, "Capital of Peru?", QuestionTypeSingleChoice, [⟨"Lima", true⟩, ⟨"Rome", false⟩],
          TimeLimitType5⟩ (newSvc quizStore [])).2.calls.map
        (fun e => (e.1.isWrite, e.2))) = [(false, false), (true, false)] := by
  refine ⟨by decide, by decide, by decide, by decide, by decide, by decide, by decide,
    by decide, by decide, by decide⟩

/-! ## The join code of a new session -/

theorem joinCodeLoop_facts (env : SvcEnv σ ρ) :
    ∀ (retries : Nat) (generated : List String) (s : Svc σ ρ),
      ∃ taken last,
        (joinCodeLoop env retries generated s).generated = generated ++ (taken ++ last) ∧
        taken.length + last.length ≤ retries ∧
        (∀ c ∈ taken, env.repos.CheckJoinCodeExists s.db c = Except.ok true) ∧
        (joinCodeLoop env retries generated s).state.db = s.db ∧
        (joinCodeLoop env retries generated s).state.calls =
          s.calls ++ (taken ++ last).map (fun c =>
            (SvcCall.CheckJoinCodeExists c, succeeded (env.repos.CheckJoinCodeExists s.db c))) ∧
        (∀ code, (joinCodeLoop env retries generated s).result = Except.ok code →
          last = [code] ∧ env.repos.CheckJoinCodeExists s.db code = Except.ok false) ∧
        ((joinCodeLoop env retries generated s).result = Except.error JoinCodeError.exhausted ↔
          (last = [] ∧ taken.length = retries)) := by
  intro retries
  induction retries with
  | zero =>
    intro generated s
    refine ⟨[], [], by simp [joinCodeLoop], by simp, fun c hc => (by cases hc), rfl,
      by simp [joinCodeLoop], ?_, ?_⟩
    · intro code h
      simp [joinCodeLoop] at h
    · simp [joinCodeLoop]
  | succ n ih =>
    intro generated s
    unfold joinCodeLoop
    split
    · rename_i rand1 _
      refine ⟨[], [], by simp, by simp, fun c hc => (by cases hc), rfl, by simp, ?_, ?_⟩
      · intro code h
        cases h
      · constructor
        · intro h
          cases h
        · intro h
          exact absurd h.2 (by simp)
    · rename_i code rand1 _
      dsimp only
      cases hcheck : env.repos.CheckJoinCodeExists s.db code with
      | error err =>
        refine ⟨[], [code], by simp [svcRead, hcheck], by simp, fun c hc => (by cases hc),
          by simp [svcRead, hcheck, Svc.record],
          by simp [svcRead, hcheck, Svc.record, succeeded], ?_, ?_⟩
        · intro c h
          simp [svcRead, hcheck] at h
        · simp [svcRead, hcheck]
      | ok isTaken =>
        cases isTaken with
        | false =>
          refine ⟨[], [code], by simp [svcRead, hcheck], by simp, fun c hc => (by cases hc),
            by simp [svcRead, hcheck, Svc.record],
            by simp [svcRead, hcheck, Svc.record, succeeded], ?_, ?_⟩
          · intro c h
            simp [svcRead, hcheck] at h
            rw [← h]
            exact ⟨rfl, hcheck⟩
          · simp [svcRead, hcheck]
        | true =>
          simp only [svcRead, hcheck, Bool.not_eq_true, Bool.true_eq_false, if_false,
            not_true_eq_false, not_false_eq_true]
          obtain ⟨taken, last, hgen, hlen, htaken, hdb, hcalls, hok, hex⟩ :=
            ih (generated ++ [code])
              ({ s with rand := rand1 }.record (SvcCall.CheckJoinCodeExists code)
                (succeeded (Except.ok true : Except DbError Bool)))
          refine ⟨code :: taken, last, ?_, ?_, ?_, ?_, ?_, ?_, ?_⟩
          · rw [hgen]
            simp
          · simp only [List.length_cons]
            omega
          · intro c hc
            rcases List.mem_cons.mp hc with rfl | hin
            · exact hcheck
            · exact htaken c hin
          · rw [hdb]
            rfl
          · rw [hcalls]
            simp [Svc.record, hcheck, succeeded]
          · intro c h
            exact hok c h
          · rw [hex]
            simp

/-- C21: a run of `sessionRepository.GenerateJoinCode` generates at most 10 codes and checks
each of them against the store, in order, without changing the store. The codes it passed
over (`taken`) are codes for which the check returned true; a code is returned only as the
last one generated, and only when the check for that very code returned false; and the run
ends with the error of exhausted retries exactly when it generated 10 codes and the check
returned true for every one of them. -/
theorem C21_repository_join_code (env : SvcEnv σ ρ) (s : Svc σ ρ) :
    ∃ taken last,
      (sessionRepository.GenerateJoinCode env s).generated = taken ++ last ∧
      (sessionRepository.GenerateJoinCode env s).generated.length ≤ 10 ∧
      (∀ c ∈ taken, env.repos.CheckJoinCodeExists s.db c = Except.ok true) ∧
      (sessionRepository.GenerateJoinCode env s).state.db = s.db ∧
      (sessionRepository.GenerateJoinCode env s).state.calls =
        s.calls ++ (sessionRepository.GenerateJoinCode env s).generated.map (fun c =>
          (SvcCall.CheckJoinCodeExists c, succeeded (env.repos.CheckJoinCodeExists s.db c))) ∧
      (∀ code, (sessionRepository.GenerateJoinCode env s).result = Except.ok code →
        last = [code] ∧ env.repos.CheckJoinCodeExists s.db code = Except.ok false) ∧
      ((sessionRepository.GenerateJoinCode env s).result =
          Except.error JoinCodeError.exhausted ↔
        (last = [] ∧ taken.length = 10)) := by
  obtain ⟨taken, last, hgen, hlen, htaken, hdb, hcalls, hok, hex⟩ :=
    joinCodeLoop_facts env maxRetries [] s
  have hgen1 : (sessionRepository.GenerateJoinCode env s).generated = taken ++ last := by
    unfold sessionRepository.GenerateJoinCode
    rw [hgen]
    rfl
  refine ⟨taken, last, hgen1, ?_, htaken, hdb, ?_, hok, hex⟩
  · rw [hgen1, List.length_append]
    exact hlen
  · rw [hgen1]
    exact hcalls

/-! ## Answerable questions -/

theorem singleChoice_eq (caseTable : Char → Char) (q : Question) (p : WSAnswerPayload)
    (v : String) (hq : q.Type_ = QuestionTypeSingleChoice) (hv : p.AnswerValue = some v) :
    evaluateAnswer caseTable q p =
      q.Answers.any (fun a => a.IsCorrect && decide (a.Text = v)) := by
  unfold evaluateAnswer
  rw [hq, if_pos rfl, hv]

theorem exists_correct_of_filter {answers : List AnswerData}
    (h : (answers.filter (fun answer => answer.IsCorrect)).length ≠ 0) :
    ∃ a ∈ answers, a.IsCorrect = true := by
  cases hf : answers.filter (fun answer => answer.IsCorrect) with
  | nil => rw [hf] at h; exact absurd rfl h
  | cons a rest =>
    have hmem : a ∈ answers.filter (fun answer => answer.IsCorrect) := by
      rw [hf]
      exact List.mem_cons_self _ _
    exact ⟨a, (List.mem_filter.mp hmem).1, (List.mem_filter.mp hmem).2⟩

/-- C30 (counterexample): questions that pass `ValidateAnswersFormat` and that no well-formed
submission answers. A text_input question without any answer passes, and `evaluateAnswer`
is false for every submission. A single_choice question whose one correct answer has the
empty text passes, and every submission with a non-empty value is evaluated false. A
question of a type outside the three of the `switch` passes with any answers and is never
evaluated true. -/
theorem C30_unanswerable :
    ValidateAnswersFormat [] QuestionTypeTextInput = none ∧
    (∀ (caseTable : Char → Char) (payload : WSAnswerPayload),
      evaluateAnswer caseTable ⟨21, 3, "Name a prime", QuestionTypeTextInput, [], TimeLimitType5, 0⟩
        payload = false) ∧
    ValidateAnswersFormat [⟨"", true⟩, ⟨"Rome", false⟩] QuestionTypeSingleChoice = none ∧
    (∀ (caseTable : Char → Char) (payload : WSAnswerPayload),
      validateAnswerPayload
        ⟨22, 3, "Pick one", QuestionTypeSingleChoice, [⟨"", true⟩, ⟨"Rome", false⟩],
          TimeLimitType5, 0⟩ payload = none →
      evaluateAnswer caseTable
        ⟨22, 3, "Pick one", QuestionTypeSingleChoice, [⟨"", true⟩, ⟨"Rome", false⟩],
          TimeLimitType5, 0⟩ payload = false) ∧
    ValidateAnswersFormat [] "multiple_choice_checkbox" = none ∧
    (∀ (caseTable : Char → Char) (payload : WSAnswerPayload),
      evaluateAnswer caseTable
        ⟨23, 3, "Tick all", "multiple_choice_checkbox", [], TimeLimitType5, 0⟩ payload =
        false) := by
  refine ⟨by decide, ?_, by decide, ?_, by decide, ?_⟩
  · intro caseTable payload
    cases hv : payload.AnswerValue with
    | none => simp [evaluateAnswer, hv, QuestionTypeTextInput, QuestionTypeSingleChoice,
        QuestionTypeMultipleChoice]
    | some v =>
      rw [textInput_eq caseTable _ payload v rfl hv]
      rfl
  · intro caseTable payload hvalid
    cases hv : payload.AnswerValue with
    | none =>
      simp [validateAnswerPayload, hv, QuestionTypeSingleChoice] at hvalid
    | some v =>
      rw [singleChoice_eq caseTable _ payload v rfl hv]
      have hne : v ≠ "" := by
        intro hempty
        simp [validateAnswerPayload, hv, hempty, QuestionTypeSingleChoice] at hvalid
      have hne1 : ¬ ("" = v) := fun h => hne h.symm
      simp [hne1]
  · intro caseTable payload
    simp [evaluateAnswer, QuestionTypeTextInput, QuestionTypeSingleChoice,
      QuestionTypeMultipleChoice]

/-- C30 (amended): a single_choice question that passes `ValidateAnswersFormat` and whose
correct answer has a non-empty text, and every multiple_choice question that passes, is
answerable: some submission that `handleSubmitAnswer` accepts as well formed is evaluated
true. A text_input question passes whatever its answers are, and is answerable exactly when
one of its answers is flagged correct. -/
theorem C30_answerable_amended (caseTable : Char → Char) (question : Question) :
    (question.Type_ = QuestionTypeSingleChoice →
      ValidateAnswersFormat question.Answers question.Type_ = none →
      (∀ a ∈ question.Answers, a.IsCorrect = true → a.Text ≠ "") →
      ∃ payload, validateAnswerPayload question payload = none ∧
        evaluateAnswer caseTable question payload = true) ∧
    (question.Type_ = QuestionTypeMultipleChoice →
      ValidateAnswersFormat question.Answers question.Type_ = none →
      ∃ payload, validateAnswerPayload question payload = none ∧
        evaluateAnswer caseTable question payload = true) ∧
    (question.Type_ = QuestionTypeTextInput →
      ValidateAnswersFormat question.Answers question.Type_ = none ∧
      ((∃ a ∈ question.Answers, a.IsCorrect = true) ↔
        ∃ payload, validateAnswerPayload question payload = none ∧
          evaluateAnswer caseTable question payload = true)) := by
  have hms : ¬ (QuestionTypeMultipleChoice = QuestionTypeSingleChoice) := by decide
  have hts : ¬ (QuestionTypeTextInput = QuestionTypeSingleChoice) := by decide
  have htm : ¬ (QuestionTypeTextInput = QuestionTypeMultipleChoice) := by decide
  refine ⟨?_, ?_, ?_⟩
  · intro hq hformat htext
    have hcorrect : (question.Answers.filter (fun answer => answer.IsCorrect)).length ≠ 0 := by
      intro h0
      unfold ValidateAnswersFormat at hformat
      rw [hq, if_pos rfl] at hformat
      split at hformat
      · cases hformat
      · rw [h0] at hformat
        simp at hformat
    obtain ⟨a, ha, hac⟩ := exists_correct_of_filter hcorrect
    refine ⟨⟨question.ID, question.Type_, some a.Text, [], 0⟩, ?_, ?_⟩
    · unfold validateAnswerPayload
      rw [if_pos (Or.inl hq)]
      have hne := htext a ha hac
      simp [hne]
    · rw [singleChoice_eq caseTable question _ a.Text hq rfl]
      exact List.any_eq_true.mpr ⟨a, ha, by simp [hac]⟩
  · intro hq hformat
    have hcorrect : (question.Answers.filter (fun answer => answer.IsCorrect)).length ≠ 0 := by
      intro h0
      unfold ValidateAnswersFormat at hformat
      rw [hq, if_neg hms, if_pos rfl] at hformat
      split at hformat
      · cases hformat
      · cases hformat
    have hne : correctAnswers question ≠ [] := by
      intro hnil
      apply hcorrect
      unfold correctAnswers at hnil
      rw [List.map_eq_nil_iff] at hnil
      rw [hnil]
      rfl
    refine ⟨⟨question.ID, question.Type_, none, correctAnswers question, 0⟩, ?_, ?_⟩
    · unfold validateAnswerPayload
      rw [hq, if_neg (by decide : ¬ (QuestionTypeMultipleChoice =
        QuestionTypeSingleChoice ∨ QuestionTypeMultipleChoice = QuestionTypeTextInput)),
        if_pos rfl]
      have : (correctAnswers question).length ≠ 0 :=
        fun h => hne (List.length_eq_zero.mp h)
      simp [this]
    · exact (multipleChoice_eq caseTable question _ hq hne).mpr rfl
  · intro hq
    refine ⟨?_, ?_, ?_⟩
    · unfold ValidateAnswersFormat
      rw [hq, if_neg hts, if_neg htm]
    · rintro ⟨a, ha, hac⟩
      by_cases hempty : a.Text = ""
      · refine ⟨⟨question.ID, question.Type_, some " ", [], 0⟩, ?_, ?_⟩
        · unfold validateAnswerPayload
          rw [if_pos (Or.inr hq)]
          simp
        · rw [textInput_eq caseTable question _ " " hq rfl]
          refine List.any_eq_true.mpr ⟨a, ha, ?_⟩
          rw [hac, hempty]
          have htrim : TrimSpace " " = TrimSpace "" := by decide
          rw [htrim]
          simp
      · refine ⟨⟨question.ID, question.Type_, some a.Text, [], 0⟩, ?_, ?_⟩
        · unfold validateAnswerPayload
          rw [if_pos (Or.inr hq)]
          simp [hempty]
        · rw [textInput_eq caseTable question _ a.Text hq rfl]
          exact List.any_eq_true.mpr ⟨a, ha, by simp [hac]⟩
    · rintro ⟨payload, _, heval⟩
      cases hv : payload.AnswerValue with
      | none =>
        unfold evaluateAnswer at heval
        rw [hq, if_neg hts, if_neg htm, if_pos rfl, hv] at heval
        cases heval
      | some v =>
        rw [textInput_eq caseTable question payload v hq hv] at heval
        obtain ⟨a, ha, hcond⟩ := List.any_eq_true.mp heval
        refine ⟨a, ha, ?_⟩
        simp only [Bool.and_eq_true] at hcond
        exact hcond.1

theorem C30_answerable_amended_witness :
    ∃ payload,
      validateAnswerPayload
        ⟨12, 3, "Which are primes?", QuestionTypeMultipleChoice,
          [⟨"7", true⟩, ⟨"4", false⟩, ⟨"5", true⟩], TimeLimitType10, 1⟩ payload = none ∧
      evaluateAnswer id
        ⟨12, 3, "Which are primes?", QuestionTypeMultipleChoice,
          [⟨"7", true⟩, ⟨"4", false⟩, ⟨"5", true⟩], TimeLimitType10, 1⟩ payload = true :=
  (C30_answerable_amended id
    ⟨12, 3, "Which are primes?", QuestionTypeMultipleChoice,
      [⟨"7", true⟩, ⟨"4", false⟩, ⟨"5", true⟩], TimeLimitType10, 1⟩).2.1 rfl (by decide)

/-! ## The participant count -/

theorem addsOf_append (id : Int) (a b : List (SvcCall × Bool)) :
    addsOf id (a ++ b) = addsOf id a + addsOf id b := by
  unfold addsOf
  rw [List.filter_append, List.length_append]

theorem failedUpdatesOf_append (id : Int) (a b : List (SvcCall × Bool)) :
    failedUpdatesOf id (a ++ b) = failedUpdatesOf id a + failedUpdatesOf id b := by
  unfold failedUpdatesOf
  rw [List.filter_append, List.length_append]

theorem uncounted_zero (id : Int) (l : List (SvcCall × Bool))
    (h : ∀ e ∈ l, e.1.isCounted = false) : addsOf id l = 0 ∧ failedUpdatesOf id l = 0 := by
  induction l with
  | nil => exact ⟨rfl, rfl⟩
  | cons e rest ih =>
    obtain ⟨ih1, ih2⟩ := ih (fun x hx => h x (List.mem_cons_of_mem _ hx))
    have he := h e (List.mem_cons_self _ _)
    obtain ⟨call, ok⟩ := e
    have e1 : addsOf id ((call, ok) :: rest) = addsOf id [(call, ok)] + addsOf id rest :=
      addsOf_append id [(call, ok)] rest
    have e2 : failedUpdatesOf id ((call, ok) :: rest) =
        failedUpdatesOf id [(call, ok)] + failedUpdatesOf id rest :=
      failedUpdatesOf_append id [(call, ok)] rest
    rw [e1, e2, ih1, ih2]
    cases call <;> cases ok <;> first | exact ⟨rfl, rfl⟩ | (simp [SvcCall.isCounted] at he)

theorem CountInv.mono {count : σ → Int → Option Int} {b b1 : Nat} {s : Svc σ ρ}
    (h : CountInv count b s) (hb : b ≤ b1) : CountInv count b1 s := by
  intro id
  obtain ⟨h1, h2, h3, h4⟩ := h id
  exact ⟨h1, by omega, h3, h4⟩

theorem CountInv.sameCounts {count : σ → Int → Option Int} {b : Nat} {s s1 : Svc σ ρ}
    (h : CountInv count b s) (hdb : s1.db = s.db)
    (hadds : ∀ id, addsOf id s1.calls = addsOf id s.calls)
    (hfailed : ∀ id, failedUpdatesOf id s1.calls = failedUpdatesOf id s.calls) :
    CountInv count b s1 := by
  intro id
  obtain ⟨h1, h2, h3, h4⟩ := h id
  rw [hdb, hadds, hfailed]
  exact ⟨h1, h2, h3, h4⟩

theorem CountInv.quietCalls {count : σ → Int → Option Int} {b : Nat} {s s1 : Svc σ ρ}
    (h : CountInv count b s) (hdb : s1.db = s.db) (l : List (SvcCall × Bool))
    (hcalls : s1.calls = s.calls ++ l) (hl : ∀ e ∈ l, e.1.isCounted = false) :
    CountInv count b s1 := by
  refine h.sameCounts hdb (fun id => ?_) (fun id => ?_)
  · rw [hcalls, addsOf_append, (uncounted_zero id l hl).1, Nat.add_zero]
  · rw [hcalls, failedUpdatesOf_append, (uncounted_zero id l hl).2, Nat.add_zero]

theorem CountInv.read {count : σ → Int → Option Int} {b : Nat} {s : Svc σ ρ}
    (h : CountInv count b s) (call : SvcCall) (hcall : call.isCounted = false)
    (result : Except DbError α) : CountInv count b (svcRead s call result).2 := by
  refine h.quietCalls rfl [(call, succeeded result)] rfl ?_
  intro e he
  rw [List.mem_singleton.mp he]
  exact hcall

theorem CountInv.addFailed {count : σ → Int → Option Int} {b : Nat} {s : Svc σ ρ}
    (h : CountInv count b s) (participant : SessionParticipant) :
    CountInv count b (s.record (SvcCall.AddParticipant participant) false) := by
  refine h.sameCounts rfl (fun id => ?_) (fun id => ?_)
  · change addsOf id (s.calls ++ [(SvcCall.AddParticipant participant, false)]) = _
    rw [addsOf_append]
    rfl
  · change failedUpdatesOf id (s.calls ++ [(SvcCall.AddParticipant participant, false)]) = _
    rw [failedUpdatesOf_append]
    rfl

theorem CountInv.joinCode {count : σ → Int → Option Int} {b : Nat} {s : Svc σ ρ}
    (h : CountInv count b s) (env : SvcEnv σ ρ) :
    CountInv count b (sessionRepository.GenerateJoinCode env s).state := by
  obtain ⟨taken, last, _, _, _, hdb, hcalls, _, _⟩ := joinCodeLoop_facts env maxRetries [] s
  refine h.quietCalls hdb _ hcalls ?_
  intro e he
  obtain ⟨c, _, rfl⟩ := List.mem_map.mp he
  rfl

theorem CountInv.addThenUpdate {count : σ → Int → Option Int} {b : Nat} {s : Svc σ ρ}
    (h : CountInv count b s) (repos : ServiceRepos σ) {good : σ → Prop}
    (laws : StoreLaws repos count good) (hg : good s.db)
    (participant created : SessionParticipant) (db1 : σ) (counted : QuizSession) (n : Int)
    (hadd : repos.AddParticipant s.db participant = Except.ok (created, db1))
    (hsid : participant.SessionID = counted.ID)
    (hn : count s.db counted.ID = some n)
    (hcount : counted.ParticipantCount = n + 1) :
    good (svcWrite (svcWrite s (SvcCall.AddParticipant participant)
          (repos.AddParticipant s.db participant)).2
        (SvcCall.UpdateSession counted)
        (repos.UpdateSession (svcWrite s (SvcCall.AddParticipant participant)
          (repos.AddParticipant s.db participant)).2.db counted)).2.db ∧
    CountInv count (b + 1)
      (svcWrite (svcWrite s (SvcCall.AddParticipant participant)
          (repos.AddParticipant s.db participant)).2
        (SvcCall.UpdateSession counted)
        (repos.UpdateSession (svcWrite s (SvcCall.AddParticipant participant)
          (repos.AddParticipant s.db participant)).2.db counted)).2 := by
  obtain ⟨hg1, hcountAdd⟩ := laws.add s.db participant created db1 hg hadd
  have hs1 : (svcWrite s (SvcCall.AddParticipant participant)
      (repos.AddParticipant s.db participant)).2 =
      { s with db := db1 }.record (SvcCall.AddParticipant participant) true := by
    rw [hadd]
    rfl
  rw [hs1]
  have hadds : ∀ id, addsOf id [(SvcCall.AddParticipant participant, true)] =
      if id = counted.ID then 1 else 0 := by
    intro id
    unfold addsOf
    by_cases hid : id = counted.ID
    · simp [hid, hsid]
    · have : ¬ participant.SessionID = id := fun heq => hid (heq.symm.trans hsid)
      simp [hid, this]
  cases hupd : repos.UpdateSession db1 counted with
  | error e =>
    have hstate : (svcWrite ({ s with db := db1 }.record (SvcCall.AddParticipant participant) true)
        (SvcCall.UpdateSession counted)
        (repos.UpdateSession ({ s with db := db1 }.record
          (SvcCall.AddParticipant participant) true).db counted)).2 =
        ({ s with db := db1 }.record (SvcCall.AddParticipant participant) true).record
          (SvcCall.UpdateSession counted) false := by
      change (svcWrite _ _ (repos.UpdateSession db1 counted)).2 = _
      rw [hupd]
      rfl
    rw [hstate]
    refine ⟨hg1, ?_⟩
    intro id
    obtain ⟨h1, h2, h3, h4⟩ := h id
    have hf : failedUpdatesOf id [(SvcCall.UpdateSession counted, false)] =
        if id = counted.ID then 1 else 0 := by
      unfold failedUpdatesOf
      by_cases hid : id = counted.ID
      · simp [hid]
      · have : ¬ counted.ID = id := fun heq => hid heq.symm
        simp [hid, this]
    have ecalls : (({ s with db := db1 }.record (SvcCall.AddParticipant participant)
        true).record (SvcCall.UpdateSession counted) false).calls =
        s.calls ++ ([(SvcCall.AddParticipant participant, true)] ++
          [(SvcCall.UpdateSession counted, false)]) := by
      simp [Svc.record]
    have edb : (({ s with db := db1 }.record (SvcCall.AddParticipant participant)
        true).record (SvcCall.UpdateSession counted) false).db = db1 := rfl
    rw [ecalls, edb, addsOf_append, failedUpdatesOf_append, addsOf_append,
      failedUpdatesOf_append, hadds, hf, hcountAdd id]
    have z1 : addsOf id [(SvcCall.UpdateSession counted, false)] = 0 := rfl
    have z2 : failedUpdatesOf id [(SvcCall.AddParticipant participant, true)] = 0 := rfl
    rw [z1, z2]
    by_cases hid : id = counted.ID
    · rw [if_pos hid]
      refine ⟨by omega, by omega, ?_, ?_⟩
      · intro hnone
        rw [hid, hn] at hnone
        cases hnone
      · intro m hm
        have := h4 m hm
        push_cast
        omega
    · rw [if_neg hid]
      exact ⟨by omega, by omega, by simpa using h3, by simpa using h4⟩
  | ok pair =>
    obtain ⟨updated, db2⟩ := pair
    have hstate : (svcWrite ({ s with db := db1 }.record (SvcCall.AddParticipant participant) true)
        (SvcCall.UpdateSession counted)
        (repos.UpdateSession ({ s with db := db1 }.record
          (SvcCall.AddParticipant participant) true).db counted)).2 =
        ({ ({ s with db := db1 }.record (SvcCall.AddParticipant participant) true) with
          db := db2 }).record (SvcCall.UpdateSession counted) true := by
      change (svcWrite _ _ (repos.UpdateSession db1 counted)).2 = _
      rw [hupd]
      rfl
    rw [hstate]
    obtain ⟨hg2, _, hset, hother⟩ := laws.update db1 counted updated db2 hg1 hupd
    refine ⟨hg2, ?_⟩
    intro id
    obtain ⟨h1, h2, h3, h4⟩ := h id
    have ecalls : (({ ({ s with db := db1 }.record (SvcCall.AddParticipant participant)
        true) with db := db2 }).record (SvcCall.UpdateSession counted) true).calls =
        s.calls ++ ([(SvcCall.AddParticipant participant, true)] ++
          [(SvcCall.UpdateSession counted, true)]) := by
      simp [Svc.record]
    have edb : (({ ({ s with db := db1 }.record (SvcCall.AddParticipant participant)
        true) with db := db2 }).record (SvcCall.UpdateSession counted) true).db = db2 := rfl
    rw [ecalls, edb, addsOf_append, failedUpdatesOf_append, addsOf_append,
      failedUpdatesOf_append, hadds]
    have z1 : addsOf id [(SvcCall.UpdateSession counted, true)] = 0 := rfl
    have z2 : failedUpdatesOf id [(SvcCall.AddParticipant participant, true)] = 0 := rfl
    have z3 : failedUpdatesOf id [(SvcCall.UpdateSession counted, true)] = 0 := rfl
    rw [z1, z2, z3]
    by_cases hid : id = counted.ID
    · rw [if_pos hid, hid, hset]
      have hold := (h counted.ID).2.2.2 n hn
      have hle := (h counted.ID).1
      have hb := (h counted.ID).2.1
      refine ⟨by omega, by omega, fun hnone => (by cases hnone), ?_⟩
      intro m hm
      cases hm
      rw [hcount]
      push_cast
      omega
    · rw [if_neg hid, hother id hid, hcountAdd id]
      exact ⟨by omega, by omega, by simpa using h3, by simpa using h4⟩

theorem svcWrite_ok (s : Svc σ ρ) (call : SvcCall) (result : Except DbError (α × σ)) (v : α)
    (h : (svcWrite s call result).1 = Except.ok v) : ∃ db1, result = Except.ok (v, db1) := by
  unfold svcWrite at h
  split at h
  · rename_i value db1
    cases h
    exact ⟨db1, rfl⟩
  · cases h

theorem svcWrite_error (s : Svc σ ρ) (call : SvcCall) (result : Except DbError (α × σ))
    (e : DbError) (h : (svcWrite s call result).1 = Except.error e) :
    (svcWrite s call result).2 = s.record call false := by
  unfold svcWrite at h ⊢
  split at h
  · cases h
  · rfl

theorem CountInv.created {count : σ → Int → Option Int} {b : Nat} {s : Svc σ ρ}
    (h : CountInv count b s) (repos : ServiceRepos σ) {good : σ → Prop}
    (laws : StoreLaws repos count good) (hg : good s.db)
    (session created : QuizSession) (hnew : session.ParticipantCount = 0)
    (hok : (svcWrite s (SvcCall.CreateSession session) (repos.CreateSession s.db session)).1 =
      Except.ok created) :
    good (svcWrite s (SvcCall.CreateSession session)
      (repos.CreateSession s.db session)).2.db ∧
    CountInv count b
      (svcWrite s (SvcCall.CreateSession session) (repos.CreateSession s.db session)).2 ∧
    count (svcWrite s (SvcCall.CreateSession session)
      (repos.CreateSession s.db session)).2.db created.ID = some session.ParticipantCount := by
  obtain ⟨db1, hres⟩ := svcWrite_ok s _ _ created hok
  obtain ⟨hg1, hfresh, hset, hother⟩ := laws.create s.db session created db1 hg hres
  have hstate : (svcWrite s (SvcCall.CreateSession session)
      (repos.CreateSession s.db session)).2 =
      { s with db := db1 }.record (SvcCall.CreateSession session) true := by
    rw [hres]
    rfl
  rw [hstate]
  refine ⟨hg1, ?_, hset⟩
  intro id
  obtain ⟨h1, h2, h3, h4⟩ := h id
  have ecalls : ({ s with db := db1 }.record (SvcCall.CreateSession session) true).calls =
      s.calls ++ [(SvcCall.CreateSession session, true)] := rfl
  have edb : ({ s with db := db1 }.record (SvcCall.CreateSession session) true).db = db1 := rfl
  have z1 : addsOf id [(SvcCall.CreateSession session, true)] = 0 := rfl
  have z2 : failedUpdatesOf id [(SvcCall.CreateSession session, true)] = 0 := rfl
  rw [ecalls, edb, addsOf_append, failedUpdatesOf_append, z1, z2]
  by_cases hid : id = created.ID
  · rw [hid, hset]
    have hzero := (h created.ID).2.2.1 hfresh
    have hle := (h created.ID).1
    refine ⟨by omega, by omega, fun hnone => (by cases hnone), ?_⟩
    intro m hm
    cases hm
    rw [hnew]
    omega
  · rw [hother id hid]
    exact ⟨by omega, by omega, by simpa using h3, by simpa using h4⟩

theorem CountInv.recordQuiet {count : σ → Int → Option Int} {b : Nat} {s : Svc σ ρ}
    (h : CountInv count b s) (call : SvcCall) (hcall : call.isCounted = false) (ok : Bool) :
    CountInv count b (s.record call ok) := by
  refine h.quietCalls rfl [(call, ok)] rfl ?_
  intro e he
  rw [List.mem_singleton.mp he]
  exact hcall

theorem CountInv.sameState {count : σ → Int → Option Int} {b : Nat} {s s1 : Svc σ ρ}
    (h : CountInv count b s) (hdb : s1.db = s.db) (hcalls : s1.calls = s.calls) :
    CountInv count b s1 :=
  h.sameCounts hdb (fun id => by rw [hcalls]) (fun id => by rw [hcalls])

theorem GenerateJoinCode_db (env : SvcEnv σ ρ) (s : Svc σ ρ) :
    (sessionRepository.GenerateJoinCode env s).state.db = s.db := by
  obtain ⟨taken, last, _, _, _, hdb, _, _, _⟩ := joinCodeLoop_facts env maxRetries [] s
  exact hdb

theorem CreateSession_inv {count : σ → Int → Option Int} {good : σ → Prop} {b : Nat}
    {s : Svc σ ρ} (env : SvcEnv σ ρ) (laws : StoreLaws env.repos count good)
    (hg : good s.db) (h : CountInv count b s) (authUser : Option UserSession) (quizID : Int) :
    good (CreateSession env authUser quizID s).2.db ∧
    CountInv count (b + 1) (CreateSession env authUser quizID s).2 := by
  have h1 := h.read (SvcCall.GetQuizDetail quizID false) rfl
    (env.repos.GetQuizDetail s.db quizID false)
  have hg1 : good (svcRead s (SvcCall.GetQuizDetail quizID false)
    (env.repos.GetQuizDetail s.db quizID false)).2.db := hg
  have h2 := h1.joinCode env
  have hg2 : good (sessionRepository.GenerateJoinCode env
      (svcRead s (SvcCall.GetQuizDetail quizID false)
        (env.repos.GetQuizDetail s.db quizID false)).2).state.db := by
    rw [GenerateJoinCode_db]
    exact hg
  have finish : ∀ (s3 : Svc σ ρ) (session createdSession : QuizSession)
      (hostParticipant : SessionParticipant), good s3.db → CountInv count b s3 →
      session.ParticipantCount = 0 → hostParticipant.SessionID = createdSession.ID →
      (svcWrite s3 (SvcCall.CreateSession session)
        (env.repos.CreateSession s3.db session)).1 = Except.ok createdSession →
      (∀ err, (svcWrite (svcWrite s3 (SvcCall.CreateSession session)
          (env.repos.CreateSession s3.db session)).2
          (SvcCall.AddParticipant hostParticipant)
          (env.repos.AddParticipant (svcWrite s3 (SvcCall.CreateSession session)
            (env.repos.CreateSession s3.db session)).2.db hostParticipant)).1 =
          Except.error err →
        good (svcWrite (svcWrite s3 (SvcCall.CreateSession session)
            (env.repos.CreateSession s3.db session)).2
            (SvcCall.AddParticipant hostParticipant)
            (env.repos.AddParticipant (svcWrite s3 (SvcCall.CreateSession session)
              (env.repos.CreateSession s3.db session)).2.db hostParticipant)).2.db ∧
        CountInv count (b + 1)
          (svcWrite (svcWrite s3 (SvcCall.CreateSession session)
            (env.repos.CreateSession s3.db session)).2
            (SvcCall.AddParticipant hostParticipant)
            (env.repos.AddParticipant (svcWrite s3 (SvcCall.CreateSession session)
              (env.repos.CreateSession s3.db session)).2.db hostParticipant)).2) ∧
      (∀ added, (svcWrite (svcWrite s3 (SvcCall.CreateSession session)
          (env.repos.CreateSession s3.db session)).2
          (SvcCall.AddParticipant hostParticipant)
          (env.repos.AddParticipant (svcWrite s3 (SvcCall.CreateSession session)
            (env.repos.CreateSession s3.db session)).2.db hostParticipant)).1 =
          Except.ok added →
        good (svcWrite (svcWrite (svcWrite s3 (SvcCall.CreateSession session)
            (env.repos.CreateSession s3.db session)).2
            (SvcCall.AddParticipant hostParticipant)
            (env.repos.AddParticipant (svcWrite s3 (SvcCall.CreateSession session)
              (env.repos.CreateSession s3.db session)).2.db hostParticipant)).2
            (SvcCall.UpdateSession { createdSession with ParticipantCount := 1 })
            (env.repos.UpdateSession (svcWrite (svcWrite s3 (SvcCall.CreateSession session)
              (env.repos.CreateSession s3.db session)).2
              (SvcCall.AddParticipant hostParticipant)
              (env.repos.AddParticipant (svcWrite s3 (SvcCall.CreateSession session)
                (env.repos.CreateSession s3.db session)).2.db hostParticipant)).2.db
              { createdSession with ParticipantCount := 1 })).2.db ∧
        CountInv count (b + 1)
          (svcWrite (svcWrite (svcWrite s3 (SvcCall.CreateSession session)
            (env.repos.CreateSession s3.db session)).2
            (SvcCall.AddParticipant hostParticipant)
            (env.repos.AddParticipant (svcWrite s3 (SvcCall.CreateSession session)
              (env.repos.CreateSession s3.db session)).2.db hostParticipant)).2
            (SvcCall.UpdateSession { createdSession with ParticipantCount := 1 })
            (env.repos.UpdateSession (svcWrite (svcWrite s3 (SvcCall.CreateSession session)
              (env.repos.CreateSession s3.db session)).2
              (SvcCall.AddParticipant hostParticipant)
              (env.repos.AddParticipant (svcWrite s3 (SvcCall.CreateSession session)
                (env.repos.CreateSession s3.db session)).2.db hostParticipant)).2.db
              { createdSession with ParticipantCount := 1 })).2) := by
    intro s3 session createdSession hostParticipant hg3 h3 hnew hsid hok
    obtain ⟨hgc, hc, hcount⟩ := h3.created env.repos laws hg3 session createdSession hnew hok
    refine ⟨?_, ?_⟩
    · intro err herr
      rw [svcWrite_error _ _ _ _ herr]
      exact ⟨hgc, (hc.addFailed _).mono (Nat.le_succ b)⟩
    · intro added hadd
      obtain ⟨db1, hres⟩ := svcWrite_ok _ _ _ added hadd
      exact hc.addThenUpdate env.repos laws hgc _ added db1
        { createdSession with ParticipantCount := 1 } 0 hres hsid
        (by rw [hcount, hnew]) rfl
  unfold CreateSession
  dsimp only
  split
  · split
    · exact ⟨hg, h1.mono (Nat.le_succ b)⟩
    · exact ⟨hg, h1.mono (Nat.le_succ b)⟩
  · split
    · exact ⟨hg, h1.mono (Nat.le_succ b)⟩
    · split
      · exact ⟨hg2, h2.mono (Nat.le_succ b)⟩
      · rename_i joinCode _
        generalize (sessionRepository.GenerateJoinCode env
          (svcRead s (SvcCall.GetQuizDetail quizID false)
            (env.repos.GetQuizDetail s.db quizID false)).2).state = g at h2 hg2 ⊢
        cases authUser with
        | none =>
          dsimp only
          have h3 : CountInv count b { g with ticks := g.ticks + 1 } := h2.sameState rfl rfl
          have hg3 : good ({ g with ticks := g.ticks + 1 } : Svc σ ρ).db := hg2
          generalize hs3 : ({ g with ticks := g.ticks + 1 } : Svc σ ρ) = s3 at h3 hg3 ⊢
          have hdb : g.db = s3.db := by rw [← hs3]
          rw [hdb]
          split
          · rename_i err herr
            dsimp only
            rw [svcWrite_error _ _ _ _ herr]
            refine ⟨hg3, (CountInv.recordQuiet h3 _ ?_ false).mono (Nat.le_succ b)⟩
            rfl
          · rename_i createdSession hok
            dsimp only
            obtain ⟨hfail, hgood⟩ := finish s3 _ createdSession
              ⟨0, createdSession.ID, some (1000000000 + env.unixNow g.ticks), "Anonymous Host",
                0, true⟩ hg3 h3 rfl rfl hok
            split
            · rename_i err herr
              exact hfail err herr
            · rename_i added hadd
              exact hgood added hadd
        | some u =>
          dsimp only
          split
          · rename_i err herr
            dsimp only
            rw [svcWrite_error _ _ _ _ herr]
            refine ⟨hg2, (CountInv.recordQuiet h2 _ ?_ false).mono (Nat.le_succ b)⟩
            rfl
          · rename_i createdSession hok
            dsimp only
            obtain ⟨hfail, hgood⟩ := finish g _ createdSession
              ⟨0, createdSession.ID, some u.UserID, u.Username, 0, true⟩ hg2 h2 rfl rfl hok
            split
            · rename_i err herr
              exact hfail err herr
            · rename_i added hadd
              exact hgood added hadd

theorem JoinSession_inv {count : σ → Int → Option Int} {good : σ → Prop} {b : Nat}
    {s : Svc σ ρ} (env : SvcEnv σ ρ) (laws : StoreLaws env.repos count good)
    (hg : good s.db) (h : CountInv count b s)
    (hb : b < 2147483647) (authUser : Option UserSession) (joinCode : String) :
    good (JoinSession env authUser joinCode s).2.db ∧
    CountInv count (b + 1) (JoinSession env authUser joinCode s).2 := by
  have h1 := h.read (SvcCall.GetSessionByJoinCode joinCode) rfl
    (env.repos.GetSessionByJoinCode s.db joinCode)
  have finish : ∀ (s3 : Svc σ ρ) (session : QuizSession) (participant : SessionParticipant),
      good s3.db → CountInv count b s3 →
      count s3.db session.ID = some session.ParticipantCount →
      participant.SessionID = session.ID →
      (∀ err, (svcWrite s3 (SvcCall.AddParticipant participant)
          (env.repos.AddParticipant s3.db participant)).1 = Except.error err →
        good (svcWrite s3 (SvcCall.AddParticipant participant)
            (env.repos.AddParticipant s3.db participant)).2.db ∧
        CountInv count (b + 1)
          (svcWrite s3 (SvcCall.AddParticipant participant)
            (env.repos.AddParticipant s3.db participant)).2) ∧
      (∀ added, (svcWrite s3 (SvcCall.AddParticipant participant)
          (env.repos.AddParticipant s3.db participant)).1 = Except.ok added →
        good (svcWrite (svcWrite s3 (SvcCall.AddParticipant participant)
            (env.repos.AddParticipant s3.db participant)).2
            (SvcCall.UpdateSession
              { session with ParticipantCount := int32 (session.ParticipantCount + 1) })
            (env.repos.UpdateSession (svcWrite s3 (SvcCall.AddParticipant participant)
              (env.repos.AddParticipant s3.db participant)).2.db
              { session with
                ParticipantCount := int32 (session.ParticipantCount + 1) })).2.db ∧
        CountInv count (b + 1)
          (svcWrite (svcWrite s3 (SvcCall.AddParticipant participant)
            (env.repos.AddParticipant s3.db participant)).2
            (SvcCall.UpdateSession
              { session with ParticipantCount := int32 (session.ParticipantCount + 1) })
            (env.repos.UpdateSession (svcWrite s3 (SvcCall.AddParticipant participant)
              (env.repos.AddParticipant s3.db participant)).2.db
              { session with
                ParticipantCount := int32 (session.ParticipantCount + 1) })).2) := by
    intro s3 session participant hg3 h3 hcount hsid
    refine ⟨?_, ?_⟩
    · intro err herr
      rw [svcWrite_error _ _ _ _ herr]
      exact ⟨hg3, (h3.addFailed _).mono (Nat.le_succ b)⟩
    · intro added hadd
      obtain ⟨db1, hres⟩ := svcWrite_ok _ _ _ added hadd
      obtain ⟨hle, hbound, _, hsome⟩ := h3 session.ID
      have heq := hsome _ hcount
      have hwrap : int32 (session.ParticipantCount + 1) = session.ParticipantCount + 1 :=
        int32_of_isInt32 (by unfold isInt32; omega)
      exact h3.addThenUpdate env.repos laws hg3 participant added db1
        { session with ParticipantCount := int32 (session.ParticipantCount + 1) }
        session.ParticipantCount hres hsid hcount hwrap
  unfold JoinSession
  dsimp only
  split
  · split
    · exact ⟨hg, h1.mono (Nat.le_succ b)⟩
    · exact ⟨hg, h1.mono (Nat.le_succ b)⟩
  · rename_i session hread
    have hcount : count s.db session.ID = some session.ParticipantCount :=
      laws.read s.db joinCode session hg hread
    split
    · exact ⟨hg, h1.mono (Nat.le_succ b)⟩
    · split
      · exact ⟨hg, h1.mono (Nat.le_succ b)⟩
      · generalize hr : (svcRead s (SvcCall.GetSessionByJoinCode joinCode)
          (env.repos.GetSessionByJoinCode s.db joinCode)).2 = r at h1 ⊢
        have hrdb : r.db = s.db := by rw [← hr]; rfl
        have hgr : good r.db := by rw [hrdb]; exact hg
        cases authUser with
        | none =>
          dsimp only
          have h3 : CountInv count b { r with ticks := r.ticks + 1 } := h1.sameState rfl rfl
          have hg3 : good ({ r with ticks := r.ticks + 1 } : Svc σ ρ).db := hgr
          generalize hs3 : ({ r with ticks := r.ticks + 1 } : Svc σ ρ) = s3 at h3 hg3 ⊢
          have hdb : r.db = s3.db := by rw [← hs3]
          rw [hdb]
          obtain ⟨hfail, hgood⟩ := finish s3 session
            ⟨0, session.ID, some (1000000000 + env.unixNow r.ticks), "Btaskee's Guest", 0,
              false⟩ hg3 h3 (by rw [← hdb, hrdb]; exact hcount) rfl
          split
          · rename_i err herr
            exact hfail err herr
          · rename_i added hadd
            exact hgood added hadd
        | some u =>
          dsimp only
          have h2 := h1.read (SvcCall.GetSessionParticipants session.ID) rfl
            (env.repos.GetSessionParticipants r.db session.ID)
          generalize hp : (svcRead r (SvcCall.GetSessionParticipants session.ID)
            (env.repos.GetSessionParticipants r.db session.ID)) = p at h2 ⊢
          have hpdb : p.2.db = s.db := by rw [← hp]; exact hrdb
          obtain ⟨p1, p2⟩ := p
          have hp2 : p2.db = s.db := hpdb
          have h2p : CountInv count b p2 := h2
          have hgp : good p2.db := by rw [hp2]; exact hg
          obtain ⟨hfail, hgood⟩ := finish p2 session
            ⟨0, session.ID, some u.UserID, u.Username, 0, false⟩ hgp h2p
            (by rw [hp2]; exact hcount) rfl
          cases p1 with
          | error e =>
            dsimp only
            split
            · rename_i err herr
              exact hfail err herr
            · rename_i added hadd
              exact hgood added hadd
          | ok participants =>
            dsimp only
            split
            · exact ⟨hgp, h2p.mono (Nat.le_succ b)⟩
            · split
              · rename_i err herr
                exact hfail err herr
              · rename_i added hadd
                exact hgood added hadd

theorem runSessionOps_inv {count : σ → Int → Option Int} {good : σ → Prop}
    (env : SvcEnv σ ρ) (laws : StoreLaws env.repos count good) (ops : List SessionOp) :
    ∀ (b : Nat) (s : Svc σ ρ), good s.db → CountInv count b s →
      b + ops.length ≤ 2147483647 →
      good (runSessionOps env ops s).db ∧
      CountInv count (b + ops.length) (runSessionOps env ops s) := by
  induction ops with
  | nil =>
    intro b s hg h _
    exact ⟨hg, h⟩
  | cons op rest ih =>
    intro b s hg h hlen
    have hlen1 : b + 1 + rest.length ≤ 2147483647 := by
      rw [List.length_cons] at hlen
      omega
    have hstep : good (op.run env s).db ∧ CountInv count (b + 1) (op.run env s) := by
      cases op with
      | create authUser quizID => exact CreateSession_inv env laws hg h authUser quizID
      | join authUser joinCode =>
        exact JoinSession_inv env laws hg h (by omega) authUser joinCode
    have hrest := ih (b + 1) (op.run env s) hstep.1 hstep.2 hlen1
    have hsum : b + (op :: rest).length = b + 1 + rest.length := by
      rw [List.length_cons]
      omega
    rw [hsum]
    exact hrest

theorem serialFrom_mem {x : QuizSession} : ∀ (l : List QuizSession) (first : Int),
    serialFrom first l → x ∈ l → first ≤ x.ID ∧ x.ID < first + l.length := by
  intro l
  induction l with
  | nil =>
    intro first _ hx
    cases hx
  | cons y rest ih =>
    intro first hs hx
    obtain ⟨hy, hrest⟩ := hs
    rw [List.length_cons]
    push_cast
    rcases List.mem_cons.mp hx with heq | hmem
    · rw [heq, hy]
      omega
    · have := ih (first + 1) hrest hmem
      omega

theorem serialFrom_find {x : QuizSession} : ∀ (l : List QuizSession) (first : Int),
    serialFrom first l → x ∈ l → l.find? (fun y => decide (y.ID = x.ID)) = some x := by
  intro l
  induction l with
  | nil =>
    intro first _ hx
    cases hx
  | cons y rest ih =>
    intro first hs hx
    obtain ⟨hy, hrest⟩ := hs
    rcases List.mem_cons.mp hx with heq | hmem
    · rw [heq]
      simp
    · have hlow := (serialFrom_mem rest (first + 1) hrest hmem).1
      have hne : ¬ y.ID = x.ID := by omega
      rw [List.find?_cons_of_neg _ (by simpa using hne)]
      exact ih (first + 1) hrest hmem

theorem serialFrom_append (c : QuizSession) : ∀ (l : List QuizSession) (first : Int),
    serialFrom first l → c.ID = first + l.length → serialFrom first (l ++ [c]) := by
  intro l
  induction l with
  | nil =>
    intro first _ hc
    exact ⟨by simpa using hc, trivial⟩
  | cons y rest ih =>
    intro first hs hc
    obtain ⟨hy, hrest⟩ := hs
    refine ⟨hy, ih (first + 1) hrest ?_⟩
    rw [List.length_cons] at hc
    push_cast at hc
    omega

theorem serialFrom_map (f : QuizSession → QuizSession) (hf : ∀ x, (f x).ID = x.ID) :
    ∀ (l : List QuizSession) (first : Int), serialFrom first l → serialFrom first (l.map f) := by
  intro l
  induction l with
  | nil =>
    intro first _
    trivial
  | cons y rest ih =>
    intro first hs
    obtain ⟨hy, hrest⟩ := hs
    exact ⟨(hf y).trans hy, ih (first + 1) hrest⟩

theorem find_map_id (f : QuizSession → QuizSession) (hf : ∀ x, (f x).ID = x.ID) (id : Int)
    (l : List QuizSession) :
    (l.map f).find? (fun x => decide (x.ID = id)) =
      (l.find? (fun x => decide (x.ID = id))).map f := by
  rw [List.find?_map]
  have hfun : ((fun x : QuizSession => decide (x.ID = id)) ∘ f) =
      (fun x : QuizSession => decide (x.ID = id)) := by
    funext x
    simp [hf x]
  rw [hfun]

theorem memCount_create (db : SvcStore) (session created : QuizSession) (db1 : SvcStore)
    (hg : memGood db)
    (h : memSvcRepos.CreateSession db session = Except.ok (created, db1)) :
    memGood db1 ∧ memCount db created.ID = none ∧
    memCount db1 created.ID = some session.ParticipantCount ∧
    ∀ id, id ≠ created.ID → memCount db1 id = memCount db id := by
  have hval : created = { session with ID := db.sessions.length + 1 } ∧
      db1 = { db with sessions := db.sessions ++ [created] } := by
    have h1 : (Except.ok ({ session with ID := db.sessions.length + 1 },
        { db with sessions := db.sessions ++
          [{ session with ID := (db.sessions.length : Int) + 1 }] }) :
        Except DbError (QuizSession × SvcStore)) = Except.ok (created, db1) := h
    cases h1
    exact ⟨rfl, rfl⟩
  obtain ⟨hc, hdb⟩ := hval
  have hid : created.ID = (db.sessions.length : Int) + 1 := by rw [hc]
  have hcnt : created.ParticipantCount = session.ParticipantCount := by rw [hc]
  have hnone : db.sessions.find? (fun x => decide (x.ID = created.ID)) = none := by
    rw [List.find?_eq_none]
    intro x hx
    have := (serialFrom_mem db.sessions 1 hg hx).2
    simp only [decide_eq_true_eq]
    omega
  refine ⟨?_, ?_, ?_, ?_⟩
  · rw [hdb]
    exact serialFrom_append created db.sessions 1 hg (by omega)
  · unfold memCount
    rw [hnone]
    rfl
  · unfold memCount
    rw [hdb]
    dsimp only
    rw [List.find?_append, hnone]
    simp [hcnt]
  · intro id hne
    unfold memCount
    rw [hdb]
    dsimp only
    rw [List.find?_append]
    have hlast : [created].find? (fun x => decide (x.ID = id)) = none := by
      rw [List.find?_eq_none]
      intro x hx
      rw [List.mem_singleton.mp hx]
      simp only [decide_eq_true_eq]
      exact fun heq => hne heq.symm
    rw [hlast, Option.or_none]

theorem memCount_update (repos : ServiceRepos SvcStore)
    (hrepos : repos.UpdateSession = memSvcRepos.UpdateSession)
    (db : SvcStore) (session updated : QuizSession) (db1 : SvcStore) (hg : memGood db)
    (h : repos.UpdateSession db session = Except.ok (updated, db1)) :
    memGood db1 ∧ (memCount db session.ID).isSome = true ∧
    memCount db1 session.ID = some session.ParticipantCount ∧
    ∀ id, id ≠ session.ID → memCount db1 id = memCount db id := by
  rw [hrepos] at h
  cases hfind : db.sessions.find? (fun x => decide (x.ID = session.ID)) with
  | none =>
    have h1 : (Except.error ErrNoRows : Except DbError (QuizSession × SvcStore)) =
        Except.ok (updated, db1) := by
      rw [← h]
      unfold memSvcRepos
      dsimp only
      rw [hfind]
    cases h1
  | some old =>
    have hold : old.ID = session.ID := by
      have := List.find?_some hfind
      simpa using this
    have hf : ∀ u : QuizSession, u.ID = session.ID → ∀ x : QuizSession,
        (if x.ID = session.ID then u else x).ID = x.ID := by
      intro u hu x
      by_cases hx : x.ID = session.ID
      · rw [if_pos hx]
        exact hu.trans hx.symm
      · rw [if_neg hx]
    unfold memSvcRepos at h
    dsimp only at h
    rw [hfind] at h
    dsimp only at h
    cases h
    have hf := hf _ (show ({ old with
      Status := session.Status,
      CurrentQuestionIndex := session.CurrentQuestionIndex,
      MaxParticipants := session.MaxParticipants,
      ParticipantCount := session.ParticipantCount } : QuizSession).ID = session.ID from hold)
    refine ⟨serialFrom_map _ hf db.sessions 1 hg, ?_, ?_, ?_⟩
    · unfold memCount
      rw [hfind]
      rfl
    · unfold memCount
      dsimp only
      rw [find_map_id _ hf, hfind]
      simp [hold]
    · intro id hne
      unfold memCount
      dsimp only
      rw [find_map_id _ hf]
      cases hother : db.sessions.find? (fun x => decide (x.ID = id)) with
      | none => rfl
      | some y =>
        have hy : y.ID = id := by
          have := List.find?_some hother
          simpa using this
        have hyne : ¬ y.ID = session.ID := fun heq => hne (hy.symm.trans heq)
        simp [hyne]

theorem memCount_read (db : SvcStore) (joinCode : String) (session : QuizSession)
    (hg : memGood db)
    (h : memSvcRepos.GetSessionByJoinCode db joinCode = Except.ok session) :
    memCount db session.ID = some session.ParticipantCount := by
  cases hfind : db.sessions.find? (fun x => decide (x.JoinCode = joinCode)) with
  | none =>
    have h1 : (Except.error ErrNoRows : Except DbError QuizSession) = Except.ok session := by
      rw [← h]
      unfold memSvcRepos
      dsimp only
      rw [hfind]
    cases h1
  | some found =>
    have h1 : (Except.ok found : Except DbError QuizSession) = Except.ok session := by
      rw [← h]
      unfold memSvcRepos
      dsimp only
      rw [hfind]
    cases h1
    unfold memCount
    rw [serialFrom_find db.sessions 1 hg (List.mem_of_find?_eq_some hfind)]
    rfl

theorem memCount_add (db : SvcStore) (participant created : SessionParticipant)
    (db1 : SvcStore) (hg : memGood db)
    (h : memSvcRepos.AddParticipant db participant = Except.ok (created, db1)) :
    memGood db1 ∧ ∀ id, memCount db1 id = memCount db id := by
  have h1 : (Except.ok ({ participant with ID := db.participants.length + 1 },
      { db with participants := db.participants ++
        [{ participant with ID := (db.participants.length : Int) + 1 }] }) :
      Except DbError (SessionParticipant × SvcStore)) = Except.ok (created, db1) := h
  cases h1
  exact ⟨hg, fun _ => rfl⟩

theorem memSvcRepos_laws : StoreLaws memSvcRepos memCount memGood where
  create := memCount_create
  add := memCount_add
  update := memCount_update memSvcRepos rfl
  read := memCount_read

theorem failingUpdates_laws : StoreLaws failingUpdates memCount memGood where
  create := memCount_create
  add := memCount_add
  update := by
    intro db session updated db1 _ h
    cases h
  read := memCount_read

/-- C22 (counterexample): `CreateSession` for quiz 3 over the store whose `UpdateSession`
fails adds the host as a participant of the new session 1, and the persisted
`participant_count` of session 1 stays 0: one `AddParticipant` call succeeded for the session,
the stored count is not 1. -/
theorem C22_failed_update_miscounts :
    memCount (runSessionOps failingSvcEnv [SessionOp.create (some ⟨100, "hana"⟩) 3]
      (newSvc quizStore [0, 26, 35, 1, 2, 3])).db 1 = some 0 ∧
    addsOf 1 (runSessionOps failingSvcEnv [SessionOp.create (some ⟨100, "hana"⟩) 3]
      (newSvc quizStore [0, 26, 35, 1, 2, 3])).calls = 1 ∧
    failedUpdatesOf 1 (runSessionOps failingSvcEnv [SessionOp.create (some ⟨100, "hana"⟩) 3]
      (newSvc quizStore [0, 26, 35, 1, 2, 3])).calls = 1 ∧
    (runSessionOps failingSvcEnv [SessionOp.create (some ⟨100, "hana"⟩) 3]
      (newSvc quizStore [0, 26, 35, 1, 2, 3])).db.participants =
      [⟨1, 1, some 100, "hana", 0, true⟩] := by
  decide

/-- C22 (amended): after any sequence of fewer than 2^31 `CreateSession` and `JoinSession`
calls, started on a store without sessions whose repository keeps the store laws, the
persisted `participant_count` of a session is the number of `AddParticipant` calls that
succeeded for that session minus the number of `UpdateSession` calls that failed for it. -/
theorem C22_count_amended {count : σ → Int → Option Int} {good : σ → Prop}
    (env : SvcEnv σ ρ) (laws : StoreLaws env.repos count good) (ops : List SessionOp)
    (s : Svc σ ρ) (hlog : s.calls = []) (hgood : good s.db)
    (hempty : ∀ id, count s.db id = none) (hlen : ops.length ≤ 2147483647)
    (id n : Int) (hn : count (runSessionOps env ops s).db id = some n) :
    n = (addsOf id (runSessionOps env ops s).calls : Int) -
      (failedUpdatesOf id (runSessionOps env ops s).calls : Int) := by
  have h0 : CountInv count 0 s := by
    intro i
    rw [hlog]
    refine ⟨Nat.le_refl _, Nat.le_refl _, fun _ => rfl, ?_⟩
    intro m hm
    rw [hempty i] at hm
    cases hm
  have hrun := (runSessionOps_inv env laws ops 0 s hgood h0 (by omega)).2 id
  have := hrun.2.2.2 n hn
  omega

theorem C22_count_amended_witness :
    memCount (runSessionOps memSvcEnv demoOps (newSvc quizStore [0, 26, 35, 1, 2, 3])).db 1 =
      some 3 ∧
    (3 : Int) =
      (addsOf 1 (runSessionOps memSvcEnv demoOps
        (newSvc quizStore [0, 26, 35, 1, 2, 3])).calls : Int) -
      (failedUpdatesOf 1 (runSessionOps memSvcEnv demoOps
        (newSvc quizStore [0, 26, 35, 1, 2, 3])).calls : Int) :=
  ⟨by decide, C22_count_amended memSvcEnv memSvcRepos_laws demoOps
    (newSvc quizStore [0, 26, 35, 1, 2, 3]) rfl trivial (fun _ => rfl) (by decide) 1 3
    (by decide)⟩

end Quiz
